import Mathlib

set_option maxHeartbeats 1000000

/-!
Shallow embedding of the bu-hub ride-sharing server core
(src/server/controller/conversationController.js,
 src/server/controller/rideController.js,
 src/server/model/index.js, src/server/services matching code).

Documents are modelled as Lean structures; the Mongo collections as lists
kept in natural (insertion) order; `findById` / `findOne` as `List.find?`;
`save` as an in-place replacement keyed by document id; a
`withTransaction` block as an `Except`-valued function whose error result
leaves the caller with the original state (abort = rollback).
-/

/-- Per-ref status of a ride's `conversations` entry
(model/index.js, RideRequestSchema `conversations.status` enum). -/
inductive RefStatus where
  | pending
  | awaitingConfirmation
  | confirmed
  | declined
deriving DecidableEq

/-- RideRequest document status (model/index.js `status` enum). -/
inductive RideStatus where
  | Available
  | Pending
  | Confirmed
deriving DecidableEq

/-- One entry of a ride's `conversations` array: the mirrored pointer to a
conversation together with this ride's view of its status. -/
structure ConvRef where
  rideId : Nat
  status : RefStatus
  conversationId : Nat
deriving DecidableEq

/-- A RideRequest document. -/
structure Ride where
  rid : Nat
  userId : Nat
  destination : Nat
  departureTime : Int
  status : RideStatus
  conversations : List ConvRef
deriving DecidableEq

/-- A chat message subdocument (ConversationSchema `messages`). -/
structure Message where
  senderId : Nat
  content : String
  timestamp : Int
deriving DecidableEq

/-- A Conversation document. -/
structure Conversation where
  cid : Nat
  rideRequestA : Nat
  rideRequestB : Nat
  messages : List Message
  expiresAt : Int
deriving DecidableEq

/-- A User document, reduced to the fields the core reads. -/
structure UserDoc where
  uid : Nat
  currentRideRequest : Option Nat
deriving DecidableEq

/-- The persistent store: the three collections, in natural order. -/
structure St where
  users : List UserDoc
  rides : List Ride
  convs : List Conversation
deriving DecidableEq

/-- A thrown `{status, message}` error object. -/
structure Err where
  status : Nat
  message : String
deriving DecidableEq

/-- `User.findById`. -/
def findUser (s : St) (i : Nat) : Option UserDoc :=
  s.users.find? (fun u => u.uid == i)

/-- `RideRequest.findById`. -/
def findRide (s : St) (i : Nat) : Option Ride :=
  s.rides.find? (fun r => r.rid == i)

/-- `Conversation.findById`. -/
def findConv (s : St) (i : Nat) : Option Conversation :=
  s.convs.find? (fun c => c.cid == i)

/-- `rideDoc.save()`: replace the stored document with the same id. -/
def saveRide (s : St) (r : Ride) : St :=
  { s with rides := s.rides.map (fun x => if x.rid == r.rid then r else x) }

/-- `RideRequest.findByIdAndDelete`. -/
def removeRide (s : St) (i : Nat) : St :=
  { s with rides := s.rides.filter (fun x => !(x.rid == i)) }

/-- `ride.conversations.find(c => c.conversationId.equals(convId))` on a list. -/
def findConvRefL (l : List ConvRef) (convId : Nat) : Option ConvRef :=
  l.find? (fun c => c.conversationId == convId)

/-- Same lookup on a ride document. -/
def findConvRef (r : Ride) (convId : Nat) : Option ConvRef :=
  findConvRefL r.conversations convId

/-- Mutating `ref.status = st` on the first (and in well-formed documents,
only) `conversations` entry whose `conversationId` matches, as the JS
`find`-then-assign does. -/
def setFirstRefStatus : List ConvRef → Nat → RefStatus → List ConvRef
  | [], _, _ => []
  | c :: cs, convId, st =>
    if c.conversationId == convId then { c with status := st } :: cs
    else c :: setFirstRefStatus cs convId st

/-- `['pending','awaiting_confirmation'].includes(st)`. -/
def isActiveRef (st : RefStatus) : Bool :=
  st == .pending || st == .awaitingConfirmation

/-- `['pending','awaiting_confirmation','confirmed'].includes(st)`. -/
def isActiveOrConfirmed (st : RefStatus) : Bool :=
  st == .pending || st == .awaitingConfirmation || st == .confirmed

/-- Observable: the stored status of ride `rid`'s ref for conversation `cid`. -/
def refStatusIn (s : St) (rid cid : Nat) : Option RefStatus :=
  (findRide s rid).bind (fun r => (findConvRef r cid).map (fun c => c.status))

/-- Observable: the stored status of ride `rid`. -/
def rideStatusIn (s : St) (rid : Nat) : Option RideStatus :=
  (findRide s rid).map (fun r => r.status)

/-- Observable: the stored message list of conversation `cid`. -/
def messagesIn (s : St) (cid : Nat) : Option (List Message) :=
  (findConv s cid).map (fun c => c.messages)

/-- `counterpartConvRef.status = 'declined'` applied to a ride document. -/
def declineFirstRef (t : Ride) (convId : Nat) : Ride :=
  { t with conversations := setFirstRefStatus t.conversations convId .declined }

/-- The counterpart-ride update performed inside `processOtherPending`
(conversationController.js lines 350-357): decline the mirrored ref and
demote a `Pending` ride with no remaining active ref to `Available`. -/
def cascadeCounterpartUpdate (t : Ride) (convId : Nat) : Ride :=
  if !((declineFirstRef t convId).conversations.any (fun x => isActiveRef x.status))
      && (declineFirstRef t convId).status == .Pending
  then { declineFirstRef t convId with status := .Available }
  else declineFirstRef t convId

/-- One iteration of the `processOtherPending` loop
(conversationController.js lines 332-363) on ref `c` of the ride being
processed: returns the (possibly declined) ref together with the store
after the counterpart ride, if any, has been updated and saved. -/
def processRef (mutId : Nat) (c : ConvRef) (s : St) : ConvRef × St :=
  if c.conversationId == mutId || c.status == .confirmed || c.status == .declined then
    (c, s)
  else if c.status == .pending || c.status == .awaitingConfirmation then
    match findRide s c.rideId with
    | none => ({ c with status := .declined }, s)
    | some otherRideInConv =>
      match findConvRef otherRideInConv c.conversationId with
      | none => ({ c with status := .declined }, s)
      | some counterpartConvRef =>
        if isActiveRef counterpartConvRef.status then
          ({ c with status := .declined },
           saveRide s (cascadeCounterpartUpdate otherRideInConv c.conversationId))
        else ({ c with status := .declined }, s)
  else (c, s)

/-- `processOtherPending(rideToProcess, mutuallyConfirmedConversationId, session)`
(conversationController.js lines 328-365): fold the loop body over the
ride's refs, threading the store; returns the in-memory updated ride and
the store after the counterpart saves. -/
def processOtherPending (rideToProcess : Ride) (mutId : Nat) (s : St) : Ride × St :=
  let r := rideToProcess.conversations.foldl
    (fun (acc : List ConvRef × St) c =>
      let p := processRef mutId c acc.2
      (acc.1 ++ [p.1], p.2))
    ([], s)
  ({ rideToProcess with conversations := r.1 }, r.2)

/-- `if (rideA.userId.equals(u)) ... else if (rideB.userId.equals(u)) ...`
(conversationController.js lines 393-401): resolve confirmer/other party. -/
def confirmerOf (rideA rideB : Ride) (u : Nat) : Option (Ride × Ride) :=
  if rideA.userId == u then some (rideA, rideB)
  else if rideB.userId == u then some (rideB, rideA)
  else none

/-- Stage 2 of `confirmRide` (conversationController.js lines 421-433):
mark both refs `confirmed`, both rides `Confirmed`, run the cascade over
both rides, then save them. -/
def stage2Apply (s : St) (confirmerRide otherPartyRide : Ride) (conversationId : Nat) : St :=
  let confirmerRide1 : Ride :=
    { confirmerRide with
        status := .Confirmed,
        conversations :=
          setFirstRefStatus confirmerRide.conversations conversationId .confirmed }
  let otherPartyRide1 : Ride :=
    { otherPartyRide with
        status := .Confirmed,
        conversations :=
          setFirstRefStatus otherPartyRide.conversations conversationId .confirmed }
  let p1 := processOtherPending confirmerRide1 conversationId s
  let p2 := processOtherPending otherPartyRide1 conversationId p1.2
  saveRide (saveRide p2.2 p1.1) p2.1

/-- The confirmer's in-memory document after Stage 1: only its ref for the
conversation moves to `awaiting_confirmation`. -/
def stage1RideDoc (r : Ride) (conversationId : Nat) : Ride :=
  { r with
      conversations :=
        setFirstRefStatus r.conversations conversationId .awaitingConfirmation }

/-- Stage 1 of `confirmRide` (conversationController.js lines 435-439):
record the confirmer's ref as `awaiting_confirmation`, save both rides. -/
def stage1Apply (s : St) (confirmerRide otherPartyRide : Ride) (conversationId : Nat) : St :=
  saveRide (saveRide s (stage1RideDoc confirmerRide conversationId)) otherPartyRide

/-- The `confirmRide` transaction body (conversationController.js lines
382-448).  An error result models a thrown error aborting the transaction. -/
def confirmTxn (s : St) (u : Nat) (conversationId : Nat) : Except Err St :=
  match findConv s conversationId with
  | none => .error ⟨404, "Conversation not found."⟩
  | some conversation =>
    match findRide s conversation.rideRequestA, findRide s conversation.rideRequestB with
    | some rideA, some rideB =>
      match confirmerOf rideA rideB u with
      | none => .error ⟨403, "You are not authorized to confirm this ride."⟩
      | some (confirmerRide, otherPartyRide) =>
        if confirmerRide.status == .Confirmed || otherPartyRide.status == .Confirmed then
          .error ⟨409, "One or both rides are already confirmed."⟩
        else
          match findConvRef confirmerRide conversationId,
                findConvRef otherPartyRide conversationId with
          | some convRefConfirmer, some convRefOtherParty =>
            if convRefConfirmer.status == .confirmed then
              .error ⟨409, "You have already confirmed this ride."⟩
            else if convRefOtherParty.status == .awaitingConfirmation then
              .ok (stage2Apply s confirmerRide otherPartyRide conversationId)
            else if convRefOtherParty.status == .pending then
              .ok (stage1Apply s confirmerRide otherPartyRide conversationId)
            else
              .error ⟨409, "Cannot confirm: the other party status for this conversation is final."⟩
          | _, _ =>
            .error ⟨500, "Internal error: conversation reference missing in ride document."⟩
    | _, _ => .error ⟨404, "One or both associated ride requests not found."⟩

/-- `withTransaction` semantics for `confirmRide`: an aborted transaction
leaves the store as it was. -/
def confirmRun (s : St) (u : Nat) (conversationId : Nat) : St :=
  match confirmTxn s u conversationId with
  | .ok s1 => s1
  | .error _ => s

/-- `CONVERSATION_EXPIRY_BUFFER_HOURS * 60 * 60 * 1000`
(conversationController.js line 4). -/
def conversationExpiryBufferMillis : Int := 2 * 60 * 60 * 1000

/-- The `initiateConversation` transaction body (conversationController.js
lines 22-101).  `newConvId` stands for the generated `_id` of the new
Conversation document. -/
def initiateTxn (s : St) (initiatorUserId targetRideId newConvId : Nat) : Except Err St :=
  match findUser s initiatorUserId with
  | none => .error ⟨404, "You do not have an active ride request."⟩
  | some initiatorUser =>
    match initiatorUser.currentRideRequest with
    | none => .error ⟨404, "You do not have an active ride request."⟩
    | some initiatorRideId =>
      if initiatorRideId == targetRideId then
        .error ⟨400, "Cannot initiate a conversation with your own ride request."⟩
      else
        match findRide s initiatorRideId, findRide s targetRideId with
        | some initiatorRide, some targetRide =>
          if initiatorRide.status == .Confirmed then
            .error ⟨409, "Your ride request is already confirmed and cannot initiate new conversations."⟩
          else if targetRide.status == .Confirmed then
            .error ⟨409, "The target ride request is already confirmed."⟩
          else if s.convs.any (fun c =>
              (c.rideRequestA == initiatorRideId && c.rideRequestB == targetRideId) ||
              (c.rideRequestA == targetRideId && c.rideRequestB == initiatorRideId)) then
            .error ⟨409, "A conversation already exists or is pending between these ride requests."⟩
          else
            let earlierDepartureTime :=
              if initiatorRide.departureTime < targetRide.departureTime
              then initiatorRide.departureTime else targetRide.departureTime
            let newConversationDoc : Conversation :=
              { cid := newConvId, rideRequestA := initiatorRideId,
                rideRequestB := targetRideId, messages := [],
                expiresAt := earlierDepartureTime + conversationExpiryBufferMillis }
            let s1 : St := { s with convs := s.convs ++ [newConversationDoc] }
            let initiatorRide1 : Ride :=
              { initiatorRide with
                  status := if initiatorRide.status == .Available then .Pending
                            else initiatorRide.status,
                  conversations := initiatorRide.conversations ++
                    [{ rideId := targetRideId, status := .pending, conversationId := newConvId }] }
            let targetRide1 : Ride :=
              { targetRide with
                  status := if targetRide.status == .Available then .Pending
                            else targetRide.status,
                  conversations := targetRide.conversations ++
                    [{ rideId := initiatorRideId, status := .pending, conversationId := newConvId }] }
            .ok (saveRide (saveRide s1 initiatorRide1) targetRide1)
        | _, _ => .error ⟨404, "One or both ride requests could not be found."⟩

/-- `withTransaction` semantics for `initiateConversation`. -/
def initiateRun (s : St) (initiatorUserId targetRideId newConvId : Nat) : St :=
  match initiateTxn s initiatorUserId targetRideId newConvId with
  | .ok s1 => s1
  | .error _ => s

/-- Decline a ride's ref for `convId` when it is pending/awaiting
(conversationController.js lines 498-510). -/
def declineRefIfActive (r : Ride) (convId : Nat) : Ride :=
  match findConvRef r convId with
  | some c =>
    if isActiveRef c.status then
      { r with conversations := setFirstRefStatus r.conversations convId .declined }
    else r
  | none => r

/-- Recompute a ride's status after declines (conversationController.js
lines 520-529): demote `Pending` to `Available` when no active ref remains. -/
def demoteIfNoActive (r : Ride) : Ride :=
  if !(r.conversations.any (fun c => isActiveRef c.status)) && r.status == .Pending
  then { r with status := .Available } else r

/-- The `declineConversation` transaction body (conversationController.js
lines 476-534). -/
def declineTxn (s : St) (u : Nat) (conversationId : Nat) : Except Err St :=
  match findConv s conversationId with
  | none => .error ⟨404, "Conversation not found."⟩
  | some conversation =>
    match findRide s conversation.rideRequestA, findRide s conversation.rideRequestB with
    | some rideA, some rideB =>
      if !(rideA.userId == u) && !(rideB.userId == u) then
        .error ⟨403, "You are not authorized to decline this conversation."⟩
      else if rideA.status == .Confirmed || rideB.status == .Confirmed then
        .error ⟨409, "Cannot decline a conversation associated with a Confirmed ride."⟩
      else
        let rideA1 := demoteIfNoActive (declineRefIfActive rideA conversationId)
        let rideB1 := demoteIfNoActive (declineRefIfActive rideB conversationId)
        .ok (saveRide (saveRide s rideA1) rideB1)
    | _, _ => .error ⟨404, "One or both associated ride requests not found."⟩

/-- `withTransaction` semantics for `declineConversation`. -/
def declineRun (s : St) (u : Nat) (conversationId : Nat) : St :=
  match declineTxn s u conversationId with
  | .ok s1 => s1
  | .error _ => s

/-- The counterpart-ride update in `deleteRideRequest`'s cleanup loop
(rideController.js lines 206-221): decline the mirrored ref and set the
counterpart ride `Available` when it keeps no other active or confirmed
conversation. -/
def deleteCounterpartUpdate (t : Ride) (convId : Nat) : Ride :=
  if !((declineFirstRef t convId).conversations.any
        (fun c => isActiveOrConfirmed c.status && !(c.conversationId == convId)))
      && !((declineFirstRef t convId).status == .Available)
  then { declineFirstRef t convId with status := .Available }
  else declineFirstRef t convId

/-- One iteration of the `deleteRideRequest` cleanup loop
(rideController.js lines 201-235) on ref `c` of the ride being deleted. -/
def processDeleteRef (c : ConvRef) (s : St) : St :=
  if isActiveOrConfirmed c.status then
    match findRide s c.rideId with
    | none => s
    | some counterpartRide =>
      match findConvRef counterpartRide c.conversationId with
      | none => s
      | some counterpartConvRef =>
        if !(counterpartConvRef.status == .declined) then
          saveRide s (deleteCounterpartUpdate counterpartRide c.conversationId)
        else s
  else s

/-- Clear `user.currentRideRequest` (rideController.js lines 237-239). -/
def unlinkUserRide (s : St) (u : Nat) : St :=
  { s with users :=
      s.users.map (fun x => if x.uid == u then { x with currentRideRequest := none } else x) }

/-- The `deleteRideRequest` transaction body (rideController.js lines
175-243): cascade over the deleted ride's refs, then unlink the user.
Returns the committed store together with the id of the ride to delete;
the document itself is removed only after the commit. -/
def deleteRideTxn (s : St) (u : Nat) : Except Err (St × Nat) :=
  match findUser s u with
  | none => .error ⟨404, "User not found."⟩
  | some user =>
    match user.currentRideRequest with
    | none => .error ⟨404, "No active ride request found to delete."⟩
    | some rideRequestIdToDelete =>
      match findRide s rideRequestIdToDelete with
      | none =>
        .error ⟨404, "Active ride request reference was invalid and has been cleared. No ride deleted."⟩
      | some rideToDelete =>
        let s1 := rideToDelete.conversations.foldl (fun acc c => processDeleteRef c acc) s
        .ok (unlinkUserRide s1 u, rideRequestIdToDelete)

/-- Full `deleteRideRequest`: the transaction followed by the post-commit
`findByIdAndDelete` (rideController.js lines 245-251). -/
def deleteRideRequest (s : St) (u : Nat) : Except Err St :=
  match deleteRideTxn s u with
  | .ok p => .ok (removeRide p.1 p.2)
  | .error e => .error e

/-- Observable end-to-end semantics of `deleteRideRequest`. -/
def deleteRun (s : St) (u : Nat) : St :=
  match deleteRideRequest s u with
  | .ok s1 => s1
  | .error _ => s

/-- The `ConversationSchema.pre('save')` hook (model/index.js lines
274-284): a message list longer than 20 is trimmed to its 20 most recent
entries (`messages.slice(-20)`). -/
def conversationPreSave (msgs : List Message) : List Message :=
  if msgs.length > 20 then msgs.drop (msgs.length - 20) else msgs

/-- `conversationDoc.save()`: run the pre-save hook, then replace the
stored document with the same id. -/
def saveConversation (s : St) (c : Conversation) : St :=
  let c1 := { c with messages := conversationPreSave c.messages }
  { s with convs := s.convs.map (fun x => if x.cid == c.cid then c1 else x) }

/-- JavaScript `String.prototype.trim()`: strip leading and trailing
whitespace (modelled structurally so that it evaluates). -/
def jsTrim (s : String) : String :=
  ⟨((s.data.dropWhile Char.isWhitespace).reverse.dropWhile Char.isWhitespace).reverse⟩

/-- The `sendMessage` controller (conversationController.js lines 255-316).
`now` stands for `new Date()`. -/
def sendMessageTxn (s : St) (senderId conversationId : Nat) (content : String)
    (now : Int) : Except Err St :=
  if (jsTrim content).length == 0 then
    .error ⟨400, "Message content cannot be empty."⟩
  else if content.length > 500 then
    .error ⟨400, "Message content exceeds 500 characters."⟩
  else
    match findConv s conversationId with
    | none => .error ⟨404, "Conversation not found."⟩
    | some conversation =>
      let okA := match findRide s conversation.rideRequestA with
                 | some r => r.userId == senderId
                 | none => false
      let okB := match findRide s conversation.rideRequestB with
                 | some r => r.userId == senderId
                 | none => false
      if !(okA || okB) then
        .error ⟨403, "You are not authorized to send messages in this conversation."⟩
      else if now > conversation.expiresAt then
        .error ⟨410, "This conversation has expired."⟩
      else if conversation.messages.length ≥ 20 then
        .error ⟨409, "Message limit (20) reached for this conversation."⟩
      else
        let newMessage : Message :=
          { senderId := senderId, content := jsTrim content, timestamp := now }
        .ok (saveConversation s
          { conversation with messages := conversation.messages ++ [newMessage] })

/-- Observable semantics of `sendMessage` (a failed request mutates nothing). -/
def sendMessageRun (s : St) (senderId conversationId : Nat) (content : String)
    (now : Int) : St :=
  match sendMessageTxn s senderId conversationId content now with
  | .ok s1 => s1
  | .error _ => s

/-- `MATCH_TIME_WINDOW_MINUTES * 60 * 1000` (services/matchingService.js). -/
def matchTimeWindowMillis : Int := 60 * 60 * 1000

/-- The exclusion list built by `findPotentialMatches`: the requester's own
ride plus every counterpart ride of a `confirmed` ref, de-duplicated. -/
def excludedRideIds (userRideRequest : Ride) : List Nat :=
  userRideRequest.conversations.foldl
    (fun acc c =>
      if c.status == .confirmed && !(acc.contains c.rideId) then acc ++ [c.rideId] else acc)
    [userRideRequest.rid]

/-- The Mongo match criteria of `findPotentialMatches`
(services/matchingService.js `matchCriteria`). -/
def matchCriteria (userRideRequest : Ride) (excluded : List Nat) (r : Ride) : Bool :=
  !(excluded.contains r.rid) &&
  !(r.userId == userRideRequest.userId) &&
  r.destination == userRideRequest.destination &&
  (r.status == .Available || r.status == .Pending) &&
  userRideRequest.departureTime - matchTimeWindowMillis ≤ r.departureTime &&
  r.departureTime ≤ userRideRequest.departureTime + matchTimeWindowMillis

/-- `findPotentialMatches(userRideRequest)` (services/matchingService.js):
query the store with `matchCriteria` (natural order) and return the ids. -/
def findPotentialMatches (s : St) (userRideRequest : Ride) : List Nat :=
  (s.rides.filter (matchCriteria userRideRequest (excludedRideIds userRideRequest))).map
    (fun r => r.rid)

/-- The `findMatchesForCurrentRide` controller (rideController.js lines
296-340): resolve the user's current ride, ask the matching service for
ids, then re-fetch the documents with an `$in` query (natural order). -/
def findMatchesForCurrentRide (s : St) (userId : Nat) : Except Err (List Ride) :=
  match findUser s userId with
  | none => .error ⟨404, "You do not have an active ride request to find matches for."⟩
  | some user =>
    match user.currentRideRequest with
    | none => .error ⟨404, "You do not have an active ride request to find matches for."⟩
    | some currentId =>
      match findRide s currentId with
      | none => .error ⟨404, "Your active ride request could not be found. Please create a new one."⟩
      | some userRideRequest =>
        let potentialMatchIds := findPotentialMatches s userRideRequest
        .ok (s.rides.filter (fun r => potentialMatchIds.contains r.rid))

/-- The match list actually returned to the client (empty on error). -/
def matchesOf (s : St) (userId : Nat) : List Ride :=
  match findMatchesForCurrentRide s userId with
  | .ok l => l
  | .error _ => []

/-- The spec's ranking requirement (spec 4.1): ascending absolute
difference between each candidate's departure time and the requester's. -/
def sortedByTimeDiff (t : Int) (l : List Ride) : Prop :=
  List.Pairwise (fun a b => (a.departureTime - t).natAbs ≤ (b.departureTime - t).natAbs) l

/-- Allowed joint statuses of the two mirrored refs of one conversation
(spec section 3, mirror symmetry: statuses kept jointly consistent by the
transition rules; in particular one side `declined` while the other is
still pending/awaiting never occurs while both ride documents exist). -/
def pairOK (a b : RefStatus) : Bool :=
  !((a == .declined && isActiveRef b) || (b == .declined && isActiveRef a))

/-- Decidable mirror-consistency check over a whole store. -/
def mcCheck (s : St) : Bool :=
  s.convs.all (fun conv =>
    match findRide s conv.rideRequestA, findRide s conv.rideRequestB with
    | some rA, some rB =>
      match findConvRef rA conv.cid, findConvRef rB conv.cid with
      | some ra, some rb => pairOK ra.status rb.status
      | _, _ => true
    | _, _ => true)

/-- Spec section 3 invariant, in the direction the proofs need: a ride that
is not `Confirmed` holds no `confirmed` ref. -/
def noConfirmedRefUnlessConfirmed (r : Ride) : Bool :=
  r.status == .Confirmed || r.conversations.all (fun c => !(c.status == .confirmed))

/-- The effect of one cascade iteration on the processed ride's own ref
(conversationController.js lines 334-342), as a pure map on the ref. -/
def cascadeRefMap (mutId : Nat) (c : ConvRef) : ConvRef :=
  if c.conversationId == mutId || c.status == .confirmed || c.status == .declined then c
  else if c.status == .pending || c.status == .awaitingConfirmation then
    { c with status := .declined }
  else c

/-- The store component of one cascade iteration. -/
def cascadeStep (m : Nat) (s : St) (c : ConvRef) : St := (processRef m c s).2

/-- The store after the cascade loop has run over refs `l`. -/
def cascadeStore (m : Nat) (l : List ConvRef) (s : St) : St :=
  l.foldl (cascadeStep m) s

/-- The store after the `deleteRideRequest` cleanup loop has run over refs `l`. -/
def deleteStore (l : List ConvRef) (s : St) : St :=
  l.foldl (fun acc c => processDeleteRef c acc) s

/-- Shorthand for building concrete ride documents in example states. -/
def exRide (rid uid : Nat) (dep : Int) (st : RideStatus) (refs : List ConvRef) : Ride :=
  { rid := rid, userId := uid, destination := 0, departureTime := dep,
    status := st, conversations := refs }

/-- Fresh conversation 10 between rides 1 and 2, both refs `pending`. -/
def sFresh : St :=
  { users := [⟨1, some 1⟩, ⟨2, some 2⟩],
    rides := [exRide 1 1 0 .Pending [⟨2, .pending, 10⟩],
              exRide 2 2 0 .Pending [⟨1, .pending, 10⟩]],
    convs := [⟨10, 1, 2, [], 100⟩] }

/-- Ride 1 has already confirmed (its ref is `awaiting_confirmation`);
ride 2 has not. -/
def sAwait : St :=
  { users := [⟨1, some 1⟩, ⟨2, some 2⟩],
    rides := [exRide 1 1 0 .Pending [⟨2, .awaitingConfirmation, 10⟩],
              exRide 2 2 0 .Pending [⟨1, .pending, 10⟩]],
    convs := [⟨10, 1, 2, [], 100⟩] }

/-- Ride 1 is about to mutually confirm with ride 2 (conversation 10)
while also holding a pending pairing with ride 3 (conversation 11). -/
def sCascade : St :=
  { users := [⟨1, some 1⟩, ⟨2, some 2⟩, ⟨3, some 3⟩],
    rides := [exRide 1 1 0 .Pending [⟨2, .awaitingConfirmation, 10⟩, ⟨3, .pending, 11⟩],
              exRide 2 2 0 .Pending [⟨1, .pending, 10⟩],
              exRide 3 3 0 .Pending [⟨1, .pending, 11⟩]],
    convs := [⟨10, 1, 2, [], 100⟩, ⟨11, 1, 3, [], 100⟩] }

/-- Rides 1 and 2 are about to mutually confirm (conversation 10) while
each of them also holds a separate pending pairing with the same third
ride 3 (conversations 11 and 12). -/
def sTriangle : St :=
  { users := [⟨1, some 1⟩, ⟨2, some 2⟩, ⟨3, some 3⟩],
    rides := [exRide 1 1 0 .Pending [⟨2, .awaitingConfirmation, 10⟩, ⟨3, .pending, 11⟩],
              exRide 2 2 0 .Pending [⟨1, .pending, 10⟩, ⟨3, .pending, 12⟩],
              exRide 3 3 0 .Pending [⟨1, .pending, 11⟩, ⟨2, .pending, 12⟩]],
    convs := [⟨10, 1, 2, [], 100⟩, ⟨11, 1, 3, [], 100⟩, ⟨12, 2, 3, [], 100⟩] }

/-- Rides 1 and 2 are mutually Confirmed through conversation 10. -/
def sConfirmedPair : St :=
  { users := [⟨1, some 1⟩, ⟨2, some 2⟩],
    rides := [exRide 1 1 0 .Confirmed [⟨2, .confirmed, 10⟩],
              exRide 2 2 0 .Confirmed [⟨1, .confirmed, 10⟩]],
    convs := [⟨10, 1, 2, [], 100⟩] }

/-- Rides 1 and 2 hold a fully declined conversation 10; the
Conversation document still exists (it is only removed by TTL expiry). -/
def sDeclinedPair : St :=
  { users := [⟨1, some 1⟩, ⟨2, some 2⟩],
    rides := [exRide 1 1 0 .Available [⟨2, .declined, 10⟩],
              exRide 2 2 0 .Available [⟨1, .declined, 10⟩]],
    convs := [⟨10, 1, 2, [], 100⟩] }

/-- Requester ride 1 (departure 0) with two candidates stored in natural
order: ride 2 departs 3000000 ms away, ride 3 only 1000000 ms away. -/
def sMatches : St :=
  { users := [⟨1, some 1⟩],
    rides := [exRide 1 1 0 .Available [],
              exRide 2 2 3000000 .Available [],
              exRide 3 3 1000000 .Available []],
    convs := [] }

/-- A conversation already holding 20 messages. -/
def msg20 : List Message := List.replicate 20 ⟨1, "x", 0⟩

/-- Conversation 10 between rides 1 and 2 whose message list is full. -/
def sMsgs : St :=
  { users := [⟨1, some 1⟩, ⟨2, some 2⟩],
    rides := [exRide 1 1 0 .Pending [⟨2, .pending, 10⟩],
              exRide 2 2 0 .Pending [⟨1, .pending, 10⟩]],
    convs := [⟨10, 1, 2, msg20, 100⟩] }

/-- The final in-memory document of a ride that goes through Stage 2:
its ref for the confirmed conversation set to `confirmed`, its status to
`Confirmed`, and every other active ref declined by the cascade. -/
def stage2RideDoc (r : Ride) (c0 : Nat) : Ride :=
  { r with
      status := .Confirmed,
      conversations :=
        (setFirstRefStatus r.conversations c0 .confirmed).map (cascadeRefMap c0) }

/-- `n` successive `confirm` calls by the same user on the same
conversation. -/
def iterConfirm (u c0 : Nat) : Nat → St → St
  | 0, s => s
  | Nat.succ n, s => iterConfirm u c0 n (confirmRun s u c0)

/-- A reachable shape of a conversation on which one actor keeps calling
`confirm` alone: the two ride documents exist, the actor owns one of them,
the actor's ref is still active and the counterpart ref is still
`pending`. -/
def freshPair (u c0 : Nat) (s : St) : Prop :=
  ∃ conv rideA rideB cr op refC refO,
    findConv s c0 = some conv
    ∧ findRide s conv.rideRequestA = some rideA
    ∧ findRide s conv.rideRequestB = some rideB
    ∧ ¬ conv.rideRequestA = conv.rideRequestB
    ∧ confirmerOf rideA rideB u = some (cr, op)
    ∧ ¬ cr.status = RideStatus.Confirmed
    ∧ ¬ op.status = RideStatus.Confirmed
    ∧ findConvRef cr c0 = some refC
    ∧ isActiveRef refC.status = true
    ∧ findConvRef op c0 = some refO
    ∧ refO.status = RefStatus.pending

theorem findRide_rid {s : St} {i : Nat} {r : Ride} (h : findRide s i = some r) :
    r.rid = i := by
  unfold findRide at h
  have h2 := List.find?_some h
  have h3 : (r.rid == i) = true := h2
  exact eq_of_beq h3

theorem findConvRefL_convId {l : List ConvRef} {cid : Nat} {c : ConvRef}
    (h : findConvRefL l cid = some c) : c.conversationId = cid := by
  unfold findConvRefL at h
  have h2 := List.find?_some h
  have h3 : (c.conversationId == cid) = true := h2
  exact eq_of_beq h3

theorem find?_map_save (l : List Ride) (r : Ride) (i : Nat) (h : ¬ i = r.rid) :
    List.find? (fun x => x.rid == i) (l.map (fun x => if x.rid == r.rid then r else x))
      = List.find? (fun x => x.rid == i) l := by
  induction l with
  | nil => rfl
  | cons a l ih =>
    simp only [List.map_cons, List.find?_cons]
    cases hpa : (a.rid == r.rid) with
    | true =>
      have ha : a.rid = r.rid := eq_of_beq hpa
      have h1 : (r.rid == i) = false := by
        simp only [beq_eq_false_iff_ne, ne_eq]
        intro he
        exact h he.symm
      have h2 : (a.rid == i) = false := by
        rw [ha]
        exact h1
      simp only [hpa, if_true, h1, h2]
      exact ih
    | false =>
      simp only [hpa, Bool.false_eq_true, if_false]
      cases hai : (a.rid == i) with
      | true => simp only [hai]
      | false => simp only [hai]; exact ih

theorem find?_map_save_self (l : List Ride) (r : Ride)
    (h : (List.find? (fun x => x.rid == r.rid) l).isSome) :
    List.find? (fun x => x.rid == r.rid) (l.map (fun x => if x.rid == r.rid then r else x))
      = some r := by
  induction l with
  | nil => simp [List.find?] at h
  | cons a l ih =>
    simp only [List.map_cons, List.find?_cons]
    cases hpa : (a.rid == r.rid) with
    | true =>
      have hr : (r.rid == r.rid) = true := by simp
      simp only [hpa, if_true, hr]
    | false =>
      simp only [hpa, Bool.false_eq_true, if_false]
      simp only [List.find?_cons, hpa] at h
      exact ih h

theorem find?_map_save_isSome (l : List Ride) (r : Ride) (i : Nat) :
    (List.find? (fun x => x.rid == i) (l.map (fun x => if x.rid == r.rid then r else x))).isSome
      = (List.find? (fun x => x.rid == i) l).isSome := by
  by_cases hi : i = r.rid
  · rw [hi]
    induction l with
    | nil => rfl
    | cons a l ih =>
      simp only [List.map_cons, List.find?_cons]
      cases hpa : (a.rid == r.rid) with
      | true =>
        have hr : (r.rid == r.rid) = true := by simp
        simp only [hpa, if_true, hr]
        rfl
      | false => simp only [hpa, Bool.false_eq_true, if_false]; exact ih
  · rw [find?_map_save l r i hi]

theorem findRide_saveRide_ne (s : St) (r : Ride) (i : Nat) (h : ¬ i = r.rid) :
    findRide (saveRide s r) i = findRide s i := by
  unfold findRide saveRide
  exact find?_map_save s.rides r i h

theorem findRide_saveRide_self (s : St) (r : Ride)
    (h : (findRide s r.rid).isSome) :
    findRide (saveRide s r) r.rid = some r := by
  unfold findRide at h
  unfold findRide saveRide
  exact find?_map_save_self s.rides r h

theorem findRide_saveRide_isSome (s : St) (r : Ride) (i : Nat) :
    (findRide (saveRide s r) i).isSome = (findRide s i).isSome := by
  unfold findRide saveRide
  exact find?_map_save_isSome s.rides r i

theorem saveRide_users (s : St) (r : Ride) : (saveRide s r).users = s.users := rfl

theorem saveRide_convs (s : St) (r : Ride) : (saveRide s r).convs = s.convs := rfl

theorem isActiveRef_iff (st : RefStatus) :
    isActiveRef st = true ↔ st = .pending ∨ st = .awaitingConfirmation := by
  cases st <;> simp [isActiveRef]

theorem isActiveOrConfirmed_iff (st : RefStatus) :
    isActiveOrConfirmed st = true ↔
      st = .pending ∨ st = .awaitingConfirmation ∨ st = .confirmed := by
  cases st <;> simp [isActiveOrConfirmed]

theorem findConvRefL_setFirst_ne (l : List ConvRef) (cid : Nat) (st : RefStatus)
    (cid2 : Nat) (h : ¬ cid2 = cid) :
    findConvRefL (setFirstRefStatus l cid st) cid2 = findConvRefL l cid2 := by
  induction l with
  | nil => rfl
  | cons a l ih =>
    unfold setFirstRefStatus
    cases hpa : (a.conversationId == cid) with
    | true =>
      have ha : a.conversationId = cid := eq_of_beq hpa
      have h2 : (a.conversationId == cid2) = false := by
        simp only [beq_eq_false_iff_ne, ne_eq, ha]
        intro he
        exact h he.symm
      simp only [hpa, if_true]
      unfold findConvRefL
      simp only [List.find?_cons, h2]
    | false =>
      simp only [hpa, Bool.false_eq_true, if_false]
      unfold findConvRefL at *
      simp only [List.find?_cons]
      cases hpb : (a.conversationId == cid2) with
      | true => simp only [hpb]
      | false => simp only [hpb]; exact ih

theorem findConvRefL_setFirst_self (l : List ConvRef) (cid : Nat) (st : RefStatus)
    (c : ConvRef) (h : findConvRefL l cid = some c) :
    findConvRefL (setFirstRefStatus l cid st) cid = some { c with status := st } := by
  induction l with
  | nil => exact Option.noConfusion h
  | cons a l ih =>
    unfold findConvRefL at h
    simp only [List.find?_cons] at h
    unfold setFirstRefStatus
    cases hpa : (a.conversationId == cid) with
    | true =>
      simp only [hpa] at h
      have ha : a = c := Option.some.inj h
      simp only [hpa, if_true]
      unfold findConvRefL
      simp only [List.find?_cons, hpa]
      rw [ha]
    | false =>
      simp only [hpa] at h
      simp only [hpa, Bool.false_eq_true, if_false]
      unfold findConvRefL at *
      simp only [List.find?_cons, hpa]
      exact ih h

theorem setFirst_of_none (l : List ConvRef) (cid : Nat) (st : RefStatus)
    (h : findConvRefL l cid = none) : setFirstRefStatus l cid st = l := by
  induction l with
  | nil => rfl
  | cons a l ih =>
    unfold findConvRefL at h
    simp only [List.find?_cons] at h
    unfold setFirstRefStatus
    cases hpa : (a.conversationId == cid) with
    | true =>
      simp only [hpa] at h
      exact Option.noConfusion h
    | false =>
      simp only [hpa] at h
      simp only [hpa, Bool.false_eq_true, if_false]
      rw [ih h]

theorem cascadeRefMap_convId (m : Nat) (c : ConvRef) :
    (cascadeRefMap m c).conversationId = c.conversationId := by
  unfold cascadeRefMap
  split
  · rfl
  · split <;> rfl

theorem cascadeRefMap_rideId (m : Nat) (c : ConvRef) :
    (cascadeRefMap m c).rideId = c.rideId := by
  unfold cascadeRefMap
  split
  · rfl
  · split <;> rfl

theorem processRef_fst (m : Nat) (c : ConvRef) (s : St) :
    (processRef m c s).1 = cascadeRefMap m c := by
  unfold processRef cascadeRefMap
  cases hA : (c.conversationId == m || c.status == .confirmed || c.status == .declined) with
  | true => simp only [hA, if_true]
  | false =>
    simp only [hA, Bool.false_eq_true, if_false]
    cases hB : (c.status == .pending || c.status == .awaitingConfirmation) with
    | false => simp only [hB, Bool.false_eq_true, if_false]
    | true =>
      simp only [hB, if_true]
      cases h1 : findRide s c.rideId with
      | none => rfl
      | some o =>
        dsimp only
        cases h2 : findConvRef o c.conversationId with
        | none => rfl
        | some cc =>
          dsimp only
          cases h3 : isActiveRef cc.status with
          | true => simp only [h3, if_true]
          | false => simp only [h3, Bool.false_eq_true, if_false]

theorem processOtherPending_decomp (r : Ride) (m : Nat) (s : St) (acc : List ConvRef) :
    r.conversations.foldl
      (fun (acc : List ConvRef × St) c =>
        let p := processRef m c acc.2
        (acc.1 ++ [p.1], p.2))
      (acc, s)
    = (acc ++ r.conversations.map (cascadeRefMap m), cascadeStore m r.conversations s) := by
  have main : ∀ (l : List ConvRef) (acc : List ConvRef) (s : St),
      l.foldl
        (fun (acc : List ConvRef × St) c =>
          let p := processRef m c acc.2
          (acc.1 ++ [p.1], p.2))
        (acc, s)
      = (acc ++ l.map (cascadeRefMap m), cascadeStore m l s) := by
    intro l
    induction l with
    | nil => intro acc s; simp [cascadeStore]
    | cons a l ih =>
      intro acc s
      simp only [List.foldl_cons, List.map_cons]
      rw [ih (acc ++ [(processRef m a s).1]) (processRef m a s).2]
      rw [processRef_fst]
      simp [cascadeStore, cascadeStep, List.append_assoc]
  exact main r.conversations acc s

theorem processOtherPending_fst (r : Ride) (m : Nat) (s : St) :
    (processOtherPending r m s).1
      = { r with conversations := r.conversations.map (cascadeRefMap m) } := by
  unfold processOtherPending
  rw [processOtherPending_decomp]
  simp

theorem processOtherPending_snd (r : Ride) (m : Nat) (s : St) :
    (processOtherPending r m s).2 = cascadeStore m r.conversations s := by
  unfold processOtherPending
  rw [processOtherPending_decomp]

theorem cascadeCounterpartUpdate_rid (t : Ride) (cid : Nat) :
    (cascadeCounterpartUpdate t cid).rid = t.rid := by
  unfold cascadeCounterpartUpdate
  split <;> rfl

theorem cascadeCounterpartUpdate_conversations (t : Ride) (cid : Nat) :
    (cascadeCounterpartUpdate t cid).conversations
      = setFirstRefStatus t.conversations cid .declined := by
  unfold cascadeCounterpartUpdate
  split <;> rfl

theorem deleteCounterpartUpdate_rid (t : Ride) (cid : Nat) :
    (deleteCounterpartUpdate t cid).rid = t.rid := by
  unfold deleteCounterpartUpdate
  split <;> rfl

theorem deleteCounterpartUpdate_conversations (t : Ride) (cid : Nat) :
    (deleteCounterpartUpdate t cid).conversations
      = setFirstRefStatus t.conversations cid .declined := by
  unfold deleteCounterpartUpdate
  split <;> rfl

theorem refStatusIn_congr {s1 s2 : St} (i cid : Nat)
    (h : findRide s1 i = findRide s2 i) :
    refStatusIn s1 i cid = refStatusIn s2 i cid := by
  unfold refStatusIn
  rw [h]

theorem cascadeStep_frame (m : Nat) (c : ConvRef) (s : St) (i : Nat)
    (h : ¬ i = c.rideId) :
    findRide (cascadeStep m s c) i = findRide s i := by
  unfold cascadeStep processRef
  cases hA : (c.conversationId == m || c.status == .confirmed || c.status == .declined) with
  | true => simp only [hA, if_true]
  | false =>
    simp only [hA, Bool.false_eq_true, if_false]
    cases hB : (c.status == .pending || c.status == .awaitingConfirmation) with
    | false => simp only [hB, Bool.false_eq_true, if_false]
    | true =>
      simp only [hB, if_true]
      cases h1 : findRide s c.rideId with
      | none => rfl
      | some o =>
        dsimp only
        cases h2 : findConvRef o c.conversationId with
        | none => rfl
        | some cc =>
          dsimp only
          cases h3 : isActiveRef cc.status with
          | false => simp only [h3, Bool.false_eq_true, if_false]
          | true =>
            simp only [h3, if_true]
            have hne : ¬ i = (cascadeCounterpartUpdate o c.conversationId).rid := by
              rw [cascadeCounterpartUpdate_rid, findRide_rid h1]
              exact h
            exact findRide_saveRide_ne s _ i hne

theorem cascadeStep_isSome (m : Nat) (c : ConvRef) (s : St) (i : Nat) :
    (findRide (cascadeStep m s c) i).isSome = (findRide s i).isSome := by
  unfold cascadeStep processRef
  cases hA : (c.conversationId == m || c.status == .confirmed || c.status == .declined) with
  | true => simp only [hA, if_true]
  | false =>
    simp only [hA, Bool.false_eq_true, if_false]
    cases hB : (c.status == .pending || c.status == .awaitingConfirmation) with
    | false => simp only [hB, Bool.false_eq_true, if_false]
    | true =>
      simp only [hB, if_true]
      cases h1 : findRide s c.rideId with
      | none => rfl
      | some o =>
        dsimp only
        cases h2 : findConvRef o c.conversationId with
        | none => rfl
        | some cc =>
          dsimp only
          cases h3 : isActiveRef cc.status with
          | false => simp only [h3, Bool.false_eq_true, if_false]
          | true =>
            simp only [h3, if_true]
            exact findRide_saveRide_isSome s _ i

theorem cascadeStep_users (m : Nat) (c : ConvRef) (s : St) :
    (cascadeStep m s c).users = s.users := by
  unfold cascadeStep processRef
  cases hA : (c.conversationId == m || c.status == .confirmed || c.status == .declined) with
  | true => simp only [hA, if_true]
  | false =>
    simp only [hA, Bool.false_eq_true, if_false]
    cases hB : (c.status == .pending || c.status == .awaitingConfirmation) with
    | false => simp only [hB, Bool.false_eq_true, if_false]
    | true =>
      simp only [hB, if_true]
      cases h1 : findRide s c.rideId with
      | none => rfl
      | some o =>
        dsimp only
        cases h2 : findConvRef o c.conversationId with
        | none => rfl
        | some cc =>
          dsimp only
          cases h3 : isActiveRef cc.status with
          | false => simp only [h3, Bool.false_eq_true, if_false]
          | true => simp only [h3, if_true]; rfl

theorem cascadeStep_convs (m : Nat) (c : ConvRef) (s : St) :
    (cascadeStep m s c).convs = s.convs := by
  unfold cascadeStep processRef
  cases hA : (c.conversationId == m || c.status == .confirmed || c.status == .declined) with
  | true => simp only [hA, if_true]
  | false =>
    simp only [hA, Bool.false_eq_true, if_false]
    cases hB : (c.status == .pending || c.status == .awaitingConfirmation) with
    | false => simp only [hB, Bool.false_eq_true, if_false]
    | true =>
      simp only [hB, if_true]
      cases h1 : findRide s c.rideId with
      | none => rfl
      | some o =>
        dsimp only
        cases h2 : findConvRef o c.conversationId with
        | none => rfl
        | some cc =>
          dsimp only
          cases h3 : isActiveRef cc.status with
          | false => simp only [h3, Bool.false_eq_true, if_false]
          | true => simp only [h3, if_true]; rfl

theorem cascadeStore_frame (m : Nat) (l : List ConvRef) (s : St) (i : Nat)
    (h : ∀ c ∈ l, ¬ i = c.rideId) :
    findRide (cascadeStore m l s) i = findRide s i := by
  induction l generalizing s with
  | nil => rfl
  | cons a l ih =>
    unfold cascadeStore
    simp only [List.foldl_cons]
    have h1 := ih (cascadeStep m s a) (fun c hc => h c (List.mem_cons_of_mem a hc))
    unfold cascadeStore at h1
    rw [h1]
    exact cascadeStep_frame m a s i (h a (List.mem_cons_self a l))

theorem cascadeStore_isSome (m : Nat) (l : List ConvRef) (s : St) (i : Nat) :
    (findRide (cascadeStore m l s) i).isSome = (findRide s i).isSome := by
  induction l generalizing s with
  | nil => rfl
  | cons a l ih =>
    unfold cascadeStore
    simp only [List.foldl_cons]
    have h1 := ih (cascadeStep m s a)
    unfold cascadeStore at h1
    rw [h1]
    exact cascadeStep_isSome m a s i

theorem cascadeStore_users (m : Nat) (l : List ConvRef) (s : St) :
    (cascadeStore m l s).users = s.users := by
  induction l generalizing s with
  | nil => rfl
  | cons a l ih =>
    unfold cascadeStore
    simp only [List.foldl_cons]
    have h1 := ih (cascadeStep m s a)
    unfold cascadeStore at h1
    rw [h1]
    exact cascadeStep_users m a s

theorem cascadeStore_convs (m : Nat) (l : List ConvRef) (s : St) :
    (cascadeStore m l s).convs = s.convs := by
  induction l generalizing s with
  | nil => rfl
  | cons a l ih =>
    unfold cascadeStore
    simp only [List.foldl_cons]
    have h1 := ih (cascadeStep m s a)
    unfold cascadeStore at h1
    rw [h1]
    exact cascadeStep_convs m a s

theorem isActiveRef_of_terminal {st0 : RefStatus}
    (hst : st0 = .declined ∨ st0 = .confirmed) : isActiveRef st0 = false := by
  cases hst with
  | inl h => rw [h]; rfl
  | inr h => rw [h]; rfl

theorem cascadeStep_preserves_terminal (m : Nat) (c : ConvRef) (s : St) (i cid : Nat)
    (st0 : RefStatus) (hst : st0 = .declined ∨ st0 = .confirmed)
    (h : refStatusIn s i cid = some st0) :
    refStatusIn (cascadeStep m s c) i cid = some st0 := by
  by_cases hi : i = c.rideId
  case neg =>
    rw [refStatusIn_congr i cid (cascadeStep_frame m c s i hi)]
    exact h
  case pos =>
    unfold cascadeStep processRef
    cases hA : (c.conversationId == m || c.status == .confirmed || c.status == .declined) with
    | true => simp only [hA, if_true]; exact h
    | false =>
      simp only [hA, Bool.false_eq_true, if_false]
      cases hB : (c.status == .pending || c.status == .awaitingConfirmation) with
      | false => simp only [hB, Bool.false_eq_true, if_false]; exact h
      | true =>
        simp only [hB, if_true]
        cases h1 : findRide s c.rideId with
        | none => exact h
        | some o =>
          dsimp only
          cases h2 : findConvRef o c.conversationId with
          | none => exact h
          | some cc =>
            dsimp only
            cases h3 : isActiveRef cc.status with
            | false => simp only [h3, Bool.false_eq_true, if_false]; exact h
            | true =>
              simp only [h3, if_true]
              have ho : findRide s i = some o := by rw [hi]; exact h1
              have hir : i = (cascadeCounterpartUpdate o c.conversationId).rid := by
                rw [cascadeCounterpartUpdate_rid, findRide_rid h1]
                exact hi
              have hfr : findRide (saveRide s (cascadeCounterpartUpdate o c.conversationId)) i
                  = some (cascadeCounterpartUpdate o c.conversationId) := by
                rw [hir]
                apply findRide_saveRide_self
                rw [← hir, ho]
                rfl
              unfold refStatusIn at h ⊢
              rw [ho] at h
              rw [hfr]
              simp only [Option.some_bind] at h ⊢
              unfold findConvRef at h ⊢
              rw [cascadeCounterpartUpdate_conversations]
              by_cases hcid : cid = c.conversationId
              · rw [hcid] at h
                unfold findConvRef at h2
                rw [h2] at h
                have hccst : cc.status = st0 := Option.some.inj h
                rw [hccst, isActiveRef_of_terminal hst] at h3
                exact Bool.noConfusion h3
              · rw [findConvRefL_setFirst_ne _ _ _ _ hcid]
                exact h

theorem cascadeStore_preserves_terminal (m : Nat) (l : List ConvRef) (s : St)
    (i cid : Nat) (st0 : RefStatus) (hst : st0 = .declined ∨ st0 = .confirmed)
    (h : refStatusIn s i cid = some st0) :
    refStatusIn (cascadeStore m l s) i cid = some st0 := by
  induction l generalizing s with
  | nil => exact h
  | cons a l ih =>
    unfold cascadeStore
    simp only [List.foldl_cons]
    have h1 := ih (cascadeStep m s a) (cascadeStep_preserves_terminal m a s i cid st0 hst h)
    unfold cascadeStore at h1
    exact h1

theorem active_not_confirmed {st : RefStatus} (h : isActiveRef st = true) :
    (st == RefStatus.confirmed) = false := by
  rcases (isActiveRef_iff st).mp h with h1 | h1 <;> rw [h1] <;> decide

theorem active_not_declined {st : RefStatus} (h : isActiveRef st = true) :
    (st == RefStatus.declined) = false := by
  rcases (isActiveRef_iff st).mp h with h1 | h1 <;> rw [h1] <;> decide

theorem processDeleteRef_frame (c : ConvRef) (s : St) (i : Nat) (h : ¬ i = c.rideId) :
    findRide (processDeleteRef c s) i = findRide s i := by
  unfold processDeleteRef
  cases hA : isActiveOrConfirmed c.status with
  | false => simp only [hA, Bool.false_eq_true, if_false]
  | true =>
    simp only [hA, if_true]
    cases h1 : findRide s c.rideId with
    | none => rfl
    | some o =>
      dsimp only
      cases h2 : findConvRef o c.conversationId with
      | none => rfl
      | some cc =>
        dsimp only
        cases h3 : (cc.status == RefStatus.declined) with
        | true => simp only [h3, Bool.not_true, Bool.false_eq_true, if_false]
        | false =>
          simp only [h3, Bool.not_false, if_true]
          have hne : ¬ i = (deleteCounterpartUpdate o c.conversationId).rid := by
            rw [deleteCounterpartUpdate_rid, findRide_rid h1]
            exact h
          exact findRide_saveRide_ne s _ i hne

theorem processDeleteRef_isSome (c : ConvRef) (s : St) (i : Nat) :
    (findRide (processDeleteRef c s) i).isSome = (findRide s i).isSome := by
  unfold processDeleteRef
  cases hA : isActiveOrConfirmed c.status with
  | false => simp only [hA, Bool.false_eq_true, if_false]
  | true =>
    simp only [hA, if_true]
    cases h1 : findRide s c.rideId with
    | none => rfl
    | some o =>
      dsimp only
      cases h2 : findConvRef o c.conversationId with
      | none => rfl
      | some cc =>
        dsimp only
        cases h3 : (cc.status == RefStatus.declined) with
        | true => simp only [h3, Bool.not_true, Bool.false_eq_true, if_false]
        | false =>
          simp only [h3, Bool.not_false, if_true]
          exact findRide_saveRide_isSome s _ i

theorem processDeleteRef_users (c : ConvRef) (s : St) :
    (processDeleteRef c s).users = s.users := by
  unfold processDeleteRef
  cases hA : isActiveOrConfirmed c.status with
  | false => simp only [hA, Bool.false_eq_true, if_false]
  | true =>
    simp only [hA, if_true]
    cases h1 : findRide s c.rideId with
    | none => rfl
    | some o =>
      dsimp only
      cases h2 : findConvRef o c.conversationId with
      | none => rfl
      | some cc =>
        dsimp only
        cases h3 : (cc.status == RefStatus.declined) with
        | true => simp only [h3, Bool.not_true, Bool.false_eq_true, if_false]
        | false => simp only [h3, Bool.not_false, if_true]; rfl

theorem processDeleteRef_convs (c : ConvRef) (s : St) :
    (processDeleteRef c s).convs = s.convs := by
  unfold processDeleteRef
  cases hA : isActiveOrConfirmed c.status with
  | false => simp only [hA, Bool.false_eq_true, if_false]
  | true =>
    simp only [hA, if_true]
    cases h1 : findRide s c.rideId with
    | none => rfl
    | some o =>
      dsimp only
      cases h2 : findConvRef o c.conversationId with
      | none => rfl
      | some cc =>
        dsimp only
        cases h3 : (cc.status == RefStatus.declined) with
        | true => simp only [h3, Bool.not_true, Bool.false_eq_true, if_false]
        | false => simp only [h3, Bool.not_false, if_true]; rfl

theorem processDeleteRef_preserves_declined (c : ConvRef) (s : St) (i cid : Nat)
    (h : refStatusIn s i cid = some .declined) :
    refStatusIn (processDeleteRef c s) i cid = some .declined := by
  by_cases hi : i = c.rideId
  case neg =>
    rw [refStatusIn_congr i cid (processDeleteRef_frame c s i hi)]
    exact h
  case pos =>
    unfold processDeleteRef
    cases hA : isActiveOrConfirmed c.status with
    | false => simp only [hA, Bool.false_eq_true, if_false]; exact h
    | true =>
      simp only [hA, if_true]
      cases h1 : findRide s c.rideId with
      | none => exact h
      | some o =>
        dsimp only
        cases h2 : findConvRef o c.conversationId with
        | none => exact h
        | some cc =>
          dsimp only
          cases h3 : (cc.status == RefStatus.declined) with
          | true => simp only [h3, Bool.not_true, Bool.false_eq_true, if_false]; exact h
          | false =>
            simp only [h3, Bool.not_false, if_true]
            have ho : findRide s i = some o := by rw [hi]; exact h1
            have hir : i = (deleteCounterpartUpdate o c.conversationId).rid := by
              rw [deleteCounterpartUpdate_rid, findRide_rid h1]
              exact hi
            have hfr : findRide (saveRide s (deleteCounterpartUpdate o c.conversationId)) i
                = some (deleteCounterpartUpdate o c.conversationId) := by
              rw [hir]
              apply findRide_saveRide_self
              rw [← hir, ho]
              rfl
            unfold refStatusIn at h ⊢
            rw [ho] at h
            rw [hfr]
            simp only [Option.some_bind] at h ⊢
            unfold findConvRef at h ⊢
            rw [deleteCounterpartUpdate_conversations]
            by_cases hcid : cid = c.conversationId
            · rw [hcid] at h
              unfold findConvRef at h2
              rw [h2] at h
              have hccst : cc.status = RefStatus.declined := Option.some.inj h
              rw [hccst] at h3
              exact Bool.noConfusion h3
            · rw [findConvRefL_setFirst_ne _ _ _ _ hcid]
              exact h

theorem deleteStore_frame (l : List ConvRef) (s : St) (i : Nat)
    (h : ∀ c ∈ l, ¬ i = c.rideId) :
    findRide (deleteStore l s) i = findRide s i := by
  induction l generalizing s with
  | nil => rfl
  | cons a l ih =>
    unfold deleteStore
    simp only [List.foldl_cons]
    have h1 := ih (processDeleteRef a s) (fun c hc => h c (List.mem_cons_of_mem a hc))
    unfold deleteStore at h1
    rw [h1]
    exact processDeleteRef_frame a s i (h a (List.mem_cons_self a l))

theorem deleteStore_isSome (l : List ConvRef) (s : St) (i : Nat) :
    (findRide (deleteStore l s) i).isSome = (findRide s i).isSome := by
  induction l generalizing s with
  | nil => rfl
  | cons a l ih =>
    unfold deleteStore
    simp only [List.foldl_cons]
    have h1 := ih (processDeleteRef a s)
    unfold deleteStore at h1
    rw [h1]
    exact processDeleteRef_isSome a s i

theorem deleteStore_users (l : List ConvRef) (s : St) :
    (deleteStore l s).users = s.users := by
  induction l generalizing s with
  | nil => rfl
  | cons a l ih =>
    unfold deleteStore
    simp only [List.foldl_cons]
    have h1 := ih (processDeleteRef a s)
    unfold deleteStore at h1
    rw [h1]
    exact processDeleteRef_users a s

theorem deleteStore_convs (l : List ConvRef) (s : St) :
    (deleteStore l s).convs = s.convs := by
  induction l generalizing s with
  | nil => rfl
  | cons a l ih =>
    unfold deleteStore
    simp only [List.foldl_cons]
    have h1 := ih (processDeleteRef a s)
    unfold deleteStore at h1
    rw [h1]
    exact processDeleteRef_convs a s

theorem deleteStore_preserves_declined (l : List ConvRef) (s : St) (i cid : Nat)
    (h : refStatusIn s i cid = some .declined) :
    refStatusIn (deleteStore l s) i cid = some .declined := by
  induction l generalizing s with
  | nil => exact h
  | cons a l ih =>
    unfold deleteStore
    simp only [List.foldl_cons]
    have h1 := ih (processDeleteRef a s) (processDeleteRef_preserves_declined a s i cid h)
    unfold deleteStore at h1
    exact h1

theorem cascadeStep_hit (m : Nat) (c : ConvRef) (s : St) (t : Ride)
    (hcm : ¬ c.conversationId = m)
    (hact : isActiveRef c.status = true)
    (hT : findRide s c.rideId = some t)
    (mref : ConvRef) (hmref : findConvRef t c.conversationId = some mref)
    (hmact : isActiveRef mref.status = true) :
    cascadeStep m s c = saveRide s (cascadeCounterpartUpdate t c.conversationId) := by
  have e1 : (c.conversationId == m) = false := beq_eq_false_iff_ne.mpr hcm
  have e2 := active_not_confirmed hact
  have e3 := active_not_declined hact
  have hA : (c.conversationId == m || c.status == RefStatus.confirmed
      || c.status == RefStatus.declined) = false := by
    rw [e1, e2, e3]
    rfl
  have hB : (c.status == RefStatus.pending || c.status == RefStatus.awaitingConfirmation)
      = true := hact
  unfold cascadeStep processRef
  simp only [hA, Bool.false_eq_true, if_false, hB, if_true]
  rw [hT]
  dsimp only
  rw [hmref]
  dsimp only
  simp only [hmact, if_true]

theorem cascadeStore_hit (m : Nat) (l : List ConvRef) (s : St) (c : ConvRef) (t : Ride)
    (hmem : c ∈ l)
    (hnodup : (l.map (fun x => x.conversationId)).Nodup)
    (huniq : ∀ d ∈ l, ¬ d.conversationId = c.conversationId → ¬ d.rideId = c.rideId)
    (hcm : ¬ c.conversationId = m)
    (hact : isActiveRef c.status = true)
    (hT : findRide s c.rideId = some t)
    (mref : ConvRef) (hmref : findConvRef t c.conversationId = some mref)
    (hmact : isActiveRef mref.status = true) :
    findRide (cascadeStore m l s) c.rideId
      = some (cascadeCounterpartUpdate t c.conversationId) := by
  induction l generalizing s with
  | nil => exact absurd hmem (List.not_mem_nil c)
  | cons a l ih =>
    unfold cascadeStore
    simp only [List.foldl_cons]
    cases List.mem_cons.mp hmem with
    | inl heq =>
      have hstep : cascadeStep m s a
          = saveRide s (cascadeCounterpartUpdate t c.conversationId) := by
        rw [← heq]
        exact cascadeStep_hit m c s t hcm hact hT mref hmref hmact
      have hframe : ∀ d ∈ l, ¬ c.rideId = d.rideId := by
        intro d hd he
        have hconv : ¬ d.conversationId = c.conversationId := by
          intro hcv
          have hmm : c.conversationId ∈ l.map (fun x => x.conversationId) := by
            rw [← hcv]
            exact List.mem_map_of_mem _ hd
          have hnd := (List.nodup_cons.mp (by rw [← heq] at hnodup; exact hnodup)).1
          exact hnd hmm
        exact huniq d (List.mem_cons_of_mem a hd) hconv he.symm
      have hrest := cascadeStore_frame m l
        (saveRide s (cascadeCounterpartUpdate t c.conversationId)) c.rideId hframe
      unfold cascadeStore at hrest
      rw [hstep, hrest]
      have hir : c.rideId = (cascadeCounterpartUpdate t c.conversationId).rid := by
        rw [cascadeCounterpartUpdate_rid, findRide_rid hT]
      rw [hir]
      apply findRide_saveRide_self
      rw [← hir, hT]
      rfl
    | inr hmem2 =>
      have hconvne : ¬ a.conversationId = c.conversationId := by
        intro he
        have hmm : c.conversationId ∈ l.map (fun x => x.conversationId) :=
          List.mem_map_of_mem _ hmem2
        have hnd := (List.nodup_cons.mp hnodup).1
        have hnd2 : a.conversationId ∉ List.map (fun x => x.conversationId) l := hnd
        rw [he] at hnd2
        exact hnd2 hmm
      have hrne : ¬ a.rideId = c.rideId :=
        huniq a (List.mem_cons_self a l) hconvne
      have hTstep : findRide (cascadeStep m s a) c.rideId = some t := by
        rw [cascadeStep_frame m a s c.rideId (fun he => hrne he.symm)]
        exact hT
      have := ih (cascadeStep m s a) hmem2 (List.nodup_cons.mp hnodup).2
        (fun d hd => huniq d (List.mem_cons_of_mem a hd)) hTstep
      unfold cascadeStore at this
      exact this

theorem deleteStep_hit (c : ConvRef) (s : St) (t : Ride)
    (hact : isActiveOrConfirmed c.status = true)
    (hT : findRide s c.rideId = some t)
    (mref : ConvRef) (hmref : findConvRef t c.conversationId = some mref)
    (hmnd : (mref.status == RefStatus.declined) = false) :
    processDeleteRef c s = saveRide s (deleteCounterpartUpdate t c.conversationId) := by
  unfold processDeleteRef
  simp only [hact, if_true]
  rw [hT]
  dsimp only
  rw [hmref]
  dsimp only
  simp only [hmnd, Bool.not_false, if_true]

theorem deleteStore_hit (l : List ConvRef) (s : St) (c : ConvRef) (t : Ride)
    (hmem : c ∈ l)
    (hnodup : (l.map (fun x => x.conversationId)).Nodup)
    (huniq : ∀ d ∈ l, ¬ d.conversationId = c.conversationId → ¬ d.rideId = c.rideId)
    (hact : isActiveOrConfirmed c.status = true)
    (hT : findRide s c.rideId = some t)
    (mref : ConvRef) (hmref : findConvRef t c.conversationId = some mref)
    (hmnd : (mref.status == RefStatus.declined) = false) :
    findRide (deleteStore l s) c.rideId
      = some (deleteCounterpartUpdate t c.conversationId) := by
  induction l generalizing s with
  | nil => exact absurd hmem (List.not_mem_nil c)
  | cons a l ih =>
    unfold deleteStore
    simp only [List.foldl_cons]
    cases List.mem_cons.mp hmem with
    | inl heq =>
      have hstep : processDeleteRef a s
          = saveRide s (deleteCounterpartUpdate t c.conversationId) := by
        rw [← heq]
        exact deleteStep_hit c s t hact hT mref hmref hmnd
      have hframe : ∀ d ∈ l, ¬ c.rideId = d.rideId := by
        intro d hd he
        have hconv : ¬ d.conversationId = c.conversationId := by
          intro hcv
          have hmm : c.conversationId ∈ l.map (fun x => x.conversationId) := by
            rw [← hcv]
            exact List.mem_map_of_mem _ hd
          have hnd := (List.nodup_cons.mp (by rw [← heq] at hnodup; exact hnodup)).1
          exact hnd hmm
        exact huniq d (List.mem_cons_of_mem a hd) hconv he.symm
      have hrest := deleteStore_frame l
        (saveRide s (deleteCounterpartUpdate t c.conversationId)) c.rideId hframe
      unfold deleteStore at hrest
      rw [hstep, hrest]
      have hir : c.rideId = (deleteCounterpartUpdate t c.conversationId).rid := by
        rw [deleteCounterpartUpdate_rid, findRide_rid hT]
      rw [hir]
      apply findRide_saveRide_self
      rw [← hir, hT]
      rfl
    | inr hmem2 =>
      have hconvne : ¬ a.conversationId = c.conversationId := by
        intro he
        have hmm : c.conversationId ∈ l.map (fun x => x.conversationId) :=
          List.mem_map_of_mem _ hmem2
        have hnd := (List.nodup_cons.mp hnodup).1
        have hnd2 : a.conversationId ∉ List.map (fun x => x.conversationId) l := hnd
        rw [he] at hnd2
        exact hnd2 hmm
      have hrne : ¬ a.rideId = c.rideId :=
        huniq a (List.mem_cons_self a l) hconvne
      have hTstep : findRide (processDeleteRef a s) c.rideId = some t := by
        rw [processDeleteRef_frame a s c.rideId (fun he => hrne he.symm)]
        exact hT
      have := ih (processDeleteRef a s) hmem2 (List.nodup_cons.mp hnodup).2
        (fun d hd => huniq d (List.mem_cons_of_mem a hd)) hTstep
      unfold deleteStore at this
      exact this

/-- C7: for every call to `initiate`, `confirm`, or `decline` that returns
an error, the store (every ride document, conversation document, and ref
status) is exactly as it was before the call: the transaction aborts and
no partial mutation is observable. -/
theorem c7_error_no_mutation (s : St) (u t n c0 : Nat) :
    (∀ e, initiateTxn s u t n = .error e → initiateRun s u t n = s)
    ∧ (∀ e, confirmTxn s u c0 = .error e → confirmRun s u c0 = s)
    ∧ (∀ e, declineTxn s u c0 = .error e → declineRun s u c0 = s) := by
  refine ⟨fun e h => ?_, fun e h => ?_, fun e h => ?_⟩
  · unfold initiateRun
    rw [h]
  · unfold confirmRun
    rw [h]
  · unfold declineRun
    rw [h]

/-- Witness for C7 at a concrete erroring call of each operation. -/
theorem c7_error_no_mutation_witness :
    initiateRun sDeclinedPair 1 2 11 = sDeclinedPair
    ∧ confirmRun sDeclinedPair 1 99 = sDeclinedPair
    ∧ declineRun sDeclinedPair 1 99 = sDeclinedPair :=
  ⟨(c7_error_no_mutation sDeclinedPair 1 2 11 99).1 _ rfl,
   (c7_error_no_mutation sDeclinedPair 1 2 11 99).2.1 _ rfl,
   (c7_error_no_mutation sDeclinedPair 1 2 11 99).2.2 _ rfl⟩

/-- C4 counterexample: both refs of the only conversation between rides 1
and 2 are `declined`, yet `initiate` still fails with the
duplicate-conversation conflict, because the existence check
(conversationController.js lines 53-61) has no status filter. -/
theorem c4_counterexample :
    refStatusIn sDeclinedPair 1 10 = some .declined
    ∧ refStatusIn sDeclinedPair 2 10 = some .declined
    ∧ initiateTxn sDeclinedPair 1 2 11
        = .error ⟨409, "A conversation already exists or is pending between these ride requests."⟩ :=
  ⟨rfl, rfl, rfl⟩

/-- C4 (amended): with all other preconditions met, `initiate` fails with
the duplicate-conversation conflict exactly when ANY Conversation document
(declined or not) exists between the pair. -/
theorem c4_amended_duplicate_iff_any_conversation
    (s : St) (u t n : Nat) (user : UserDoc) (ir : Nat) (irRide tRide : Ride)
    (hu : findUser s u = some user)
    (hcur : user.currentRideRequest = some ir)
    (hne : ¬ ir = t)
    (hir : findRide s ir = some irRide)
    (ht : findRide s t = some tRide)
    (hic : ¬ irRide.status = RideStatus.Confirmed)
    (htc : ¬ tRide.status = RideStatus.Confirmed) :
    (initiateTxn s u t n
        = .error ⟨409, "A conversation already exists or is pending between these ride requests."⟩)
    ↔ (s.convs.any (fun c =>
        (c.rideRequestA == ir && c.rideRequestB == t)
        || (c.rideRequestA == t && c.rideRequestB == ir)) = true) := by
  unfold initiateTxn
  rw [hu]
  dsimp only
  rw [hcur]
  dsimp only
  simp only [beq_eq_false_iff_ne.mpr hne, Bool.false_eq_true, if_false]
  rw [hir, ht]
  dsimp only
  simp only [beq_eq_false_iff_ne.mpr hic, Bool.false_eq_true, if_false]
  simp only [beq_eq_false_iff_ne.mpr htc, Bool.false_eq_true, if_false]
  cases hdup : s.convs.any (fun c =>
      (c.rideRequestA == ir && c.rideRequestB == t)
      || (c.rideRequestA == t && c.rideRequestB == ir)) with
  | true =>
    simp only [hdup, if_true]
  | false =>
    simp only [hdup, Bool.false_eq_true, if_false]
    exact ⟨fun h => Except.noConfusion h, False.elim⟩

/-- Witness for the amended C4 at the concrete declined pair. -/
theorem c4_amended_witness :
    (initiateTxn sDeclinedPair 1 2 11
        = .error ⟨409, "A conversation already exists or is pending between these ride requests."⟩)
    ↔ (sDeclinedPair.convs.any (fun c =>
        (c.rideRequestA == 1 && c.rideRequestB == 2)
        || (c.rideRequestA == 2 && c.rideRequestB == 1)) = true) :=
  c4_amended_duplicate_iff_any_conversation sDeclinedPair 1 2 11 ⟨1, some 1⟩ 1
    (exRide 1 1 0 .Available [⟨2, .declined, 10⟩])
    (exRide 2 2 0 .Available [⟨1, .declined, 10⟩])
    rfl rfl (by decide) rfl rfl (by decide) (by decide)

theorem confirmerOf_inv (rideA rideB : Ride) (u : Nat) (cr op : Ride)
    (h : confirmerOf rideA rideB u = some (cr, op)) :
    ((rideA.userId == u) = true ∧ cr = rideA ∧ op = rideB)
    ∨ ((rideA.userId == u) = false ∧ (rideB.userId == u) = true
        ∧ cr = rideB ∧ op = rideA) := by
  unfold confirmerOf at h
  cases h1 : (rideA.userId == u) with
  | true =>
    simp only [h1, if_true] at h
    have h2 := Option.some.inj h
    exact Or.inl ⟨rfl, congrArg Prod.fst h2.symm, congrArg Prod.snd h2.symm⟩
  | false =>
    simp only [h1, Bool.false_eq_true, if_false] at h
    cases h2 : (rideB.userId == u) with
    | true =>
      simp only [h2, if_true] at h
      have h3 := Option.some.inj h
      exact Or.inr ⟨rfl, rfl, congrArg Prod.fst h3.symm, congrArg Prod.snd h3.symm⟩
    | false =>
      simp only [h2, Bool.false_eq_true, if_false] at h
      exact Option.noConfusion h

theorem findConvRefL_map_cascade (m : Nat) (l : List ConvRef) (cid : Nat) :
    findConvRefL (l.map (cascadeRefMap m)) cid
      = (findConvRefL l cid).map (cascadeRefMap m) := by
  induction l with
  | nil => rfl
  | cons a l ih =>
    unfold findConvRefL
    simp only [List.map_cons, List.find?_cons, cascadeRefMap_convId]
    cases hpa : (a.conversationId == cid) with
    | true => rfl
    | false =>
      simp only [hpa]
      unfold findConvRefL at ih
      exact ih

theorem confirm_stage2_eq (s : St) (u c0 : Nat) (conv : Conversation)
    (rideA rideB cr op : Ride) (refC refO : ConvRef)
    (hconv : findConv s c0 = some conv)
    (hA : findRide s conv.rideRequestA = some rideA)
    (hB : findRide s conv.rideRequestB = some rideB)
    (hres : confirmerOf rideA rideB u = some (cr, op))
    (hcrS : ¬ cr.status = RideStatus.Confirmed)
    (hopS : ¬ op.status = RideStatus.Confirmed)
    (hrefC : findConvRef cr c0 = some refC)
    (hrefO : findConvRef op c0 = some refO)
    (hnc : ¬ refC.status = RefStatus.confirmed)
    (hph : refO.status = RefStatus.awaitingConfirmation) :
    confirmTxn s u c0 = .ok (stage2Apply s cr op c0) := by
  unfold confirmTxn
  rw [hconv]
  dsimp only
  rw [hA, hB]
  dsimp only
  rw [hres]
  dsimp only
  have hS : (cr.status == RideStatus.Confirmed || op.status == RideStatus.Confirmed)
      = false := by
    rw [beq_eq_false_iff_ne.mpr hcrS, beq_eq_false_iff_ne.mpr hopS]
    rfl
  simp only [hS, Bool.false_eq_true, if_false]
  rw [hrefC, hrefO]
  dsimp only
  simp only [beq_eq_false_iff_ne.mpr hnc, Bool.false_eq_true, if_false]
  have h2 : (refO.status == RefStatus.awaitingConfirmation) = true := by
    rw [hph]
    rfl
  simp only [h2, if_true]

theorem confirm_stage1_eq (s : St) (u c0 : Nat) (conv : Conversation)
    (rideA rideB cr op : Ride) (refC refO : ConvRef)
    (hconv : findConv s c0 = some conv)
    (hA : findRide s conv.rideRequestA = some rideA)
    (hB : findRide s conv.rideRequestB = some rideB)
    (hres : confirmerOf rideA rideB u = some (cr, op))
    (hcrS : ¬ cr.status = RideStatus.Confirmed)
    (hopS : ¬ op.status = RideStatus.Confirmed)
    (hrefC : findConvRef cr c0 = some refC)
    (hrefO : findConvRef op c0 = some refO)
    (hnc : ¬ refC.status = RefStatus.confirmed)
    (hph : refO.status = RefStatus.pending) :
    confirmTxn s u c0 = .ok (stage1Apply s cr op c0) := by
  unfold confirmTxn
  rw [hconv]
  dsimp only
  rw [hA, hB]
  dsimp only
  rw [hres]
  dsimp only
  have hS : (cr.status == RideStatus.Confirmed || op.status == RideStatus.Confirmed)
      = false := by
    rw [beq_eq_false_iff_ne.mpr hcrS, beq_eq_false_iff_ne.mpr hopS]
    rfl
  simp only [hS, Bool.false_eq_true, if_false]
  rw [hrefC, hrefO]
  dsimp only
  simp only [beq_eq_false_iff_ne.mpr hnc, Bool.false_eq_true, if_false]
  have h2 : (refO.status == RefStatus.awaitingConfirmation) = false := by
    rw [hph]
    decide
  have h3 : (refO.status == RefStatus.pending) = true := by
    rw [hph]
    rfl
  simp only [h2, Bool.false_eq_true, if_false, h3, if_true]

theorem saveChain_fst (s2 : St) (x y : Ride) (hne : ¬ x.rid = y.rid)
    (hsome : (findRide s2 x.rid).isSome) :
    findRide (saveRide (saveRide s2 x) y) x.rid = some x := by
  rw [findRide_saveRide_ne _ y _ hne]
  exact findRide_saveRide_self s2 x hsome

theorem saveChain_snd (s2 : St) (x y : Ride)
    (hsome : (findRide s2 y.rid).isSome) :
    findRide (saveRide (saveRide s2 x) y) y.rid = some y := by
  apply findRide_saveRide_self
  rw [findRide_saveRide_isSome]
  exact hsome

theorem saveChain_frame (s2 : St) (x y : Ride) (i : Nat)
    (h1 : ¬ i = x.rid) (h2 : ¬ i = y.rid) :
    findRide (saveRide (saveRide s2 x) y) i = findRide s2 i := by
  rw [findRide_saveRide_ne _ _ _ h2, findRide_saveRide_ne _ _ _ h1]

theorem stage1_findRide_cr (s : St) (cr op : Ride) (c0 : Nat)
    (hne : ¬ cr.rid = op.rid)
    (hsome : (findRide s cr.rid).isSome) :
    findRide (stage1Apply s cr op c0) cr.rid = some (stage1RideDoc cr c0) := by
  unfold stage1Apply
  exact saveChain_fst s _ op hne hsome

theorem stage1_findRide_op (s : St) (cr op : Ride) (c0 : Nat)
    (hsome : (findRide s op.rid).isSome) :
    findRide (stage1Apply s cr op c0) op.rid = some op := by
  unfold stage1Apply
  exact saveChain_snd s _ op hsome

theorem stage1_frame (s : St) (cr op : Ride) (c0 i : Nat)
    (h1 : ¬ i = cr.rid) (h2 : ¬ i = op.rid) :
    findRide (stage1Apply s cr op c0) i = findRide s i := by
  unfold stage1Apply
  exact saveChain_frame s _ op i h1 h2

theorem stage1_convs (s : St) (cr op : Ride) (c0 : Nat) :
    (stage1Apply s cr op c0).convs = s.convs := rfl

theorem stage1_users (s : St) (cr op : Ride) (c0 : Nat) :
    (stage1Apply s cr op c0).users = s.users := rfl

theorem stage2_convs (s : St) (cr op : Ride) (c0 : Nat) :
    (stage2Apply s cr op c0).convs = s.convs := by
  simp only [stage2Apply, saveRide_convs, processOtherPending_snd, cascadeStore_convs]

theorem stage2_users (s : St) (cr op : Ride) (c0 : Nat) :
    (stage2Apply s cr op c0).users = s.users := by
  simp only [stage2Apply, saveRide_users, processOtherPending_snd, cascadeStore_users]

theorem stage2_findRide_cr (s : St) (cr op : Ride) (c0 : Nat)
    (hne : ¬ cr.rid = op.rid)
    (hsome : (findRide s cr.rid).isSome) :
    findRide (stage2Apply s cr op c0) cr.rid = some (stage2RideDoc cr c0) := by
  simp only [stage2Apply, processOtherPending_fst, processOtherPending_snd]
  apply saveChain_fst
  · exact hne
  · rw [cascadeStore_isSome, cascadeStore_isSome]
    exact hsome

theorem stage2_findRide_op (s : St) (cr op : Ride) (c0 : Nat)
    (hsome : (findRide s op.rid).isSome) :
    findRide (stage2Apply s cr op c0) op.rid = some (stage2RideDoc op c0) := by
  simp only [stage2Apply, processOtherPending_fst, processOtherPending_snd]
  apply saveChain_snd
  rw [cascadeStore_isSome, cascadeStore_isSome]
  exact hsome

theorem stage2RideDoc_ref_self (r : Ride) (c0 : Nat) (refC : ConvRef)
    (hrefC : findConvRef r c0 = some refC) :
    findConvRef (stage2RideDoc r c0) c0
      = some { refC with status := RefStatus.confirmed } := by
  unfold stage2RideDoc findConvRef
  dsimp only
  rw [findConvRefL_map_cascade]
  unfold findConvRef at hrefC
  rw [findConvRefL_setFirst_self _ _ _ _ hrefC]
  show some (cascadeRefMap c0 { refC with status := RefStatus.confirmed })
      = some { refC with status := RefStatus.confirmed }
  unfold cascadeRefMap
  simp

theorem not_confirmed_ref_of_inv {cr : Ride} {c0 : Nat} {refC : ConvRef}
    (hinv : noConfirmedRefUnlessConfirmed cr = true)
    (hcrS : ¬ cr.status = RideStatus.Confirmed)
    (hrefC : findConvRef cr c0 = some refC) :
    ¬ refC.status = RefStatus.confirmed := by
  unfold noConfirmedRefUnlessConfirmed at hinv
  rw [beq_eq_false_iff_ne.mpr hcrS] at hinv
  simp only [Bool.false_or] at hinv
  have hmem : refC ∈ cr.conversations := List.mem_of_find?_eq_some hrefC
  have h2 := List.all_eq_true.mp hinv refC hmem
  simp only [Bool.not_eq_true'] at h2
  exact beq_eq_false_iff_ne.mp h2

/-- C1: on a `confirm` call where the conversation and both rides exist,
neither ride is already `Confirmed` (the spec section 3 invariant then
gives that the actor's ref is not already `confirmed`), if the
counterpart's ref is `awaiting_confirmation` the call confirms both refs
and both rides (Phase 2), and if the counterpart's ref is `pending` the
call moves only the actor's ref to `awaiting_confirmation` and leaves both
ride statuses unchanged (Phase 1). -/
theorem c1_confirm_two_phase (s : St) (u c0 : Nat) (conv : Conversation)
    (rideA rideB cr op : Ride) (refC refO : ConvRef)
    (hconv : findConv s c0 = some conv)
    (hA : findRide s conv.rideRequestA = some rideA)
    (hB : findRide s conv.rideRequestB = some rideB)
    (hres : confirmerOf rideA rideB u = some (cr, op))
    (hcrS : ¬ cr.status = RideStatus.Confirmed)
    (hopS : ¬ op.status = RideStatus.Confirmed)
    (hrefC : findConvRef cr c0 = some refC)
    (hrefO : findConvRef op c0 = some refO)
    (hne : ¬ cr.rid = op.rid)
    (hinv : noConfirmedRefUnlessConfirmed cr = true) :
    (refO.status = RefStatus.awaitingConfirmation →
      refStatusIn (confirmRun s u c0) cr.rid c0 = some .confirmed
      ∧ refStatusIn (confirmRun s u c0) op.rid c0 = some .confirmed
      ∧ rideStatusIn (confirmRun s u c0) cr.rid = some .Confirmed
      ∧ rideStatusIn (confirmRun s u c0) op.rid = some .Confirmed)
    ∧ (refO.status = RefStatus.pending →
      refStatusIn (confirmRun s u c0) cr.rid c0 = some .awaitingConfirmation
      ∧ rideStatusIn (confirmRun s u c0) cr.rid = some cr.status
      ∧ rideStatusIn (confirmRun s u c0) op.rid = some op.status) := by
  have hnc : ¬ refC.status = RefStatus.confirmed :=
    not_confirmed_ref_of_inv hinv hcrS hrefC
  have hcrFind : findRide s cr.rid = some cr := by
    rcases confirmerOf_inv rideA rideB u cr op hres with ⟨_, hcr, _⟩ | ⟨_, _, hcr, _⟩
    · rw [hcr, findRide_rid hA]
      exact hA
    · rw [hcr, findRide_rid hB]
      exact hB
  have hopFind : findRide s op.rid = some op := by
    rcases confirmerOf_inv rideA rideB u cr op hres with ⟨_, _, hop⟩ | ⟨_, _, _, hop⟩
    · rw [hop, findRide_rid hB]
      exact hB
    · rw [hop, findRide_rid hA]
      exact hA
  constructor
  · intro hph
    have heq := confirm_stage2_eq s u c0 conv rideA rideB cr op refC refO
      hconv hA hB hres hcrS hopS hrefC hrefO hnc hph
    have hrun : confirmRun s u c0 = stage2Apply s cr op c0 := by
      unfold confirmRun
      rw [heq]
    rw [hrun]
    have h1 := stage2_findRide_cr s cr op c0 hne (by rw [hcrFind]; rfl)
    have h2 := stage2_findRide_op s cr op c0 (by rw [hopFind]; rfl)
    refine ⟨?_, ?_, ?_, ?_⟩
    · unfold refStatusIn
      rw [h1]
      simp only [Option.some_bind]
      rw [stage2RideDoc_ref_self cr c0 refC hrefC]
      rfl
    · unfold refStatusIn
      rw [h2]
      simp only [Option.some_bind]
      rw [stage2RideDoc_ref_self op c0 refO hrefO]
      rfl
    · unfold rideStatusIn
      rw [h1]
      rfl
    · unfold rideStatusIn
      rw [h2]
      rfl
  · intro hph
    have heq := confirm_stage1_eq s u c0 conv rideA rideB cr op refC refO
      hconv hA hB hres hcrS hopS hrefC hrefO hnc hph
    have hrun : confirmRun s u c0 = stage1Apply s cr op c0 := by
      unfold confirmRun
      rw [heq]
    rw [hrun]
    have h1 := stage1_findRide_cr s cr op c0 hne (by rw [hcrFind]; rfl)
    have h2 := stage1_findRide_op s cr op c0 (by rw [hopFind]; rfl)
    refine ⟨?_, ?_, ?_⟩
    · unfold refStatusIn
      rw [h1]
      simp only [Option.some_bind]
      unfold findConvRef stage1RideDoc
      dsimp only
      unfold findConvRef at hrefC
      rw [findConvRefL_setFirst_self _ _ _ _ hrefC]
      rfl
    · unfold rideStatusIn
      rw [h1]
      rfl
    · unfold rideStatusIn
      rw [h2]
      rfl

/-- Witness for C1 (Phase 2) at the concrete two-ride state `sAwait`. -/
theorem c1_confirm_two_phase_witness :
    refStatusIn (confirmRun sAwait 2 10) 2 10 = some .confirmed
    ∧ refStatusIn (confirmRun sAwait 2 10) 1 10 = some .confirmed
    ∧ rideStatusIn (confirmRun sAwait 2 10) 2 = some .Confirmed
    ∧ rideStatusIn (confirmRun sAwait 2 10) 1 = some .Confirmed :=
  (c1_confirm_two_phase sAwait 2 10 ⟨10, 1, 2, [], 100⟩
    (exRide 1 1 0 .Pending [⟨2, .awaitingConfirmation, 10⟩])
    (exRide 2 2 0 .Pending [⟨1, .pending, 10⟩])
    (exRide 2 2 0 .Pending [⟨1, .pending, 10⟩])
    (exRide 1 1 0 .Pending [⟨2, .awaitingConfirmation, 10⟩])
    ⟨1, .pending, 10⟩ ⟨2, .awaitingConfirmation, 10⟩
    rfl rfl rfl rfl (by decide) (by decide) rfl rfl (by decide) (by decide)).1 rfl

theorem confirm_ok_cases (s : St) (u c0 : Nat) (s1 : St)
    (hok : confirmTxn s u c0 = .ok s1) :
    ∃ conv rideA rideB cr op refC refO,
      findConv s c0 = some conv
      ∧ findRide s conv.rideRequestA = some rideA
      ∧ findRide s conv.rideRequestB = some rideB
      ∧ confirmerOf rideA rideB u = some (cr, op)
      ∧ ¬ cr.status = RideStatus.Confirmed
      ∧ ¬ op.status = RideStatus.Confirmed
      ∧ findConvRef cr c0 = some refC
      ∧ findConvRef op c0 = some refO
      ∧ ¬ refC.status = RefStatus.confirmed
      ∧ ((refO.status = RefStatus.awaitingConfirmation ∧ s1 = stage2Apply s cr op c0)
         ∨ (refO.status = RefStatus.pending ∧ s1 = stage1Apply s cr op c0)) := by
  unfold confirmTxn at hok
  cases hconv : findConv s c0 with
  | none =>
    rw [hconv] at hok
    exact Except.noConfusion hok
  | some conv =>
    rw [hconv] at hok
    dsimp only at hok
    cases hA : findRide s conv.rideRequestA with
    | none =>
      rw [hA] at hok
      cases hB : findRide s conv.rideRequestB with
      | none => rw [hB] at hok; exact Except.noConfusion hok
      | some rideB => rw [hB] at hok; exact Except.noConfusion hok
    | some rideA =>
      rw [hA] at hok
      cases hB : findRide s conv.rideRequestB with
      | none => rw [hB] at hok; exact Except.noConfusion hok
      | some rideB =>
        rw [hB] at hok
        dsimp only at hok
        cases hres : confirmerOf rideA rideB u with
        | none => rw [hres] at hok; exact Except.noConfusion hok
        | some p =>
          rw [hres] at hok
          obtain ⟨cr, op⟩ := p
          dsimp only at hok
          cases hS : (cr.status == RideStatus.Confirmed
              || op.status == RideStatus.Confirmed) with
          | true =>
            rw [hS] at hok
            simp only [if_true] at hok
            exact Except.noConfusion hok
          | false =>
            simp only [hS, Bool.false_eq_true, if_false] at hok
            have hS2 := Bool.or_eq_false_iff.mp hS
            have hcrS : ¬ cr.status = RideStatus.Confirmed :=
              beq_eq_false_iff_ne.mp hS2.1
            have hopS : ¬ op.status = RideStatus.Confirmed :=
              beq_eq_false_iff_ne.mp hS2.2
            cases hrefC : findConvRef cr c0 with
            | none =>
              rw [hrefC] at hok
              cases hrefO : findConvRef op c0 with
              | none => rw [hrefO] at hok; exact Except.noConfusion hok
              | some refO => rw [hrefO] at hok; exact Except.noConfusion hok
            | some refC =>
              rw [hrefC] at hok
              cases hrefO : findConvRef op c0 with
              | none => rw [hrefO] at hok; exact Except.noConfusion hok
              | some refO =>
                rw [hrefO] at hok
                dsimp only at hok
                cases hc1 : (refC.status == RefStatus.confirmed) with
                | true =>
                  simp only [hc1, if_true] at hok
                  exact Except.noConfusion hok
                | false =>
                  simp only [hc1, Bool.false_eq_true, if_false] at hok
                  have hnc : ¬ refC.status = RefStatus.confirmed :=
                    beq_eq_false_iff_ne.mp hc1
                  cases ho1 : (refO.status == RefStatus.awaitingConfirmation) with
                  | true =>
                    simp only [ho1, if_true] at hok
                    exact ⟨conv, rideA, rideB, cr, op, refC, refO, rfl, hA, hB,
                      hres, hcrS, hopS, hrefC, hrefO, hnc,
                      Or.inl ⟨eq_of_beq ho1, (Except.ok.inj hok).symm⟩⟩
                  | false =>
                    simp only [ho1, Bool.false_eq_true, if_false] at hok
                    cases ho2 : (refO.status == RefStatus.pending) with
                    | true =>
                      simp only [ho2, if_true] at hok
                      exact ⟨conv, rideA, rideB, cr, op, refC, refO, rfl, hA, hB,
                        hres, hcrS, hopS, hrefC, hrefO, hnc,
                        Or.inr ⟨eq_of_beq ho2, (Except.ok.inj hok).symm⟩⟩
                    | false =>
                      simp only [ho2, Bool.false_eq_true, if_false] at hok
                      exact Except.noConfusion hok

theorem freshPair_step (u c0 : Nat) (s : St) (h : freshPair u c0 s) :
    freshPair u c0 (confirmRun s u c0) := by
  obtain ⟨conv, rideA, rideB, cr, op, refC, refO,
    hconv, hA, hB, hAB, hres, hcrS, hopS, hrefC, hact, hrefO, hph⟩ := h
  cases hrun : confirmTxn s u c0 with
  | error e =>
    unfold confirmRun
    rw [hrun]
    exact ⟨conv, rideA, rideB, cr, op, refC, refO,
      hconv, hA, hB, hAB, hres, hcrS, hopS, hrefC, hact, hrefO, hph⟩
  | ok s1 =>
    obtain ⟨conv2, rideA2, rideB2, cr2, op2, refC2, refO2, hconv2, hA2, hB2, hres2,
      hcrS2, hopS2, hrefC2, hrefO2, hnc2, hcases⟩ := confirm_ok_cases s u c0 s1 hrun
    have hcv : conv = conv2 := Option.some.inj (hconv.symm.trans hconv2)
    subst hcv
    have hra : rideA = rideA2 := Option.some.inj (hA.symm.trans hA2)
    subst hra
    have hrb : rideB = rideB2 := Option.some.inj (hB.symm.trans hB2)
    subst hrb
    have hcp := Option.some.inj (hres.symm.trans hres2)
    have hcr2 : cr = cr2 := congrArg Prod.fst hcp
    have hop2 : op = op2 := congrArg Prod.snd hcp
    subst hcr2
    subst hop2
    have hrc : refC = refC2 := Option.some.inj (hrefC.symm.trans hrefC2)
    subst hrc
    have hro : refO = refO2 := Option.some.inj (hrefO.symm.trans hrefO2)
    subst hro
    cases hcases with
    | inl hl =>
      rw [hph] at hl
      exact absurd hl.1 (by decide)
    | inr hr =>
      unfold confirmRun
      rw [hrun, hr.2]
      have hArid : rideA.rid = conv.rideRequestA := findRide_rid hA
      have hBrid : rideB.rid = conv.rideRequestB := findRide_rid hB
      have hconv2 : findConv (stage1Apply s cr op c0) c0 = some conv := by
        unfold findConv
        rw [show (stage1Apply s cr op c0).convs = s.convs from rfl]
        exact hconv
      rcases confirmerOf_inv rideA rideB u cr op hres
        with ⟨hu1, hcr, hop⟩ | ⟨hu1, hu2, hcr, hop⟩
      · subst hcr
        subst hop
        have hne : ¬ cr.rid = op.rid := by
          rw [hArid, hBrid]
          exact hAB
        have hfr1 : findRide (stage1Apply s cr op c0) conv.rideRequestA
            = some (stage1RideDoc cr c0) := by
          rw [← hArid]
          exact stage1_findRide_cr s cr op c0 hne (by rw [hArid, hA]; rfl)
        have hfr2 : findRide (stage1Apply s cr op c0) conv.rideRequestB
            = some op := by
          rw [← hBrid]
          exact stage1_findRide_op s cr op c0 (by rw [hBrid, hB]; rfl)
        have hresolve : confirmerOf (stage1RideDoc cr c0) op u
            = some (stage1RideDoc cr c0, op) := by
          unfold confirmerOf
          have h1 : ((stage1RideDoc cr c0).userId == u) = true := hu1
          simp only [h1, if_true]
        have hrefC1 : findConvRef (stage1RideDoc cr c0) c0
            = some { refC with status := RefStatus.awaitingConfirmation } := by
          unfold stage1RideDoc findConvRef
          dsimp only
          unfold findConvRef at hrefC
          exact findConvRefL_setFirst_self _ _ _ _ hrefC
        exact ⟨conv, stage1RideDoc cr c0, op, stage1RideDoc cr c0, op,
          { refC with status := RefStatus.awaitingConfirmation }, refO,
          hconv2, hfr1, hfr2, hAB, hresolve, hcrS, hopS, hrefC1, rfl, hrefO, hph⟩
      · subst hcr
        subst hop
        have hne : ¬ cr.rid = op.rid := by
          rw [hArid, hBrid]
          intro he
          exact hAB he.symm
        have hfr1 : findRide (stage1Apply s cr op c0) conv.rideRequestA
            = some op := by
          rw [← hArid]
          exact stage1_findRide_op s cr op c0 (by rw [hArid, hA]; rfl)
        have hfr2 : findRide (stage1Apply s cr op c0) conv.rideRequestB
            = some (stage1RideDoc cr c0) := by
          rw [← hBrid]
          exact stage1_findRide_cr s cr op c0 hne (by rw [hBrid, hB]; rfl)
        have hresolve : confirmerOf op (stage1RideDoc cr c0) u
            = some (stage1RideDoc cr c0, op) := by
          unfold confirmerOf
          simp only [hu1, Bool.false_eq_true, if_false]
          have h2 : ((stage1RideDoc cr c0).userId == u) = true := hu2
          simp only [h2, if_true]
        have hrefC1 : findConvRef (stage1RideDoc cr c0) c0
            = some { refC with status := RefStatus.awaitingConfirmation } := by
          unfold stage1RideDoc findConvRef
          dsimp only
          unfold findConvRef at hrefC
          exact findConvRefL_setFirst_self _ _ _ _ hrefC
        exact ⟨conv, op, stage1RideDoc cr c0, stage1RideDoc cr c0, op,
          { refC with status := RefStatus.awaitingConfirmation }, refO,
          hconv2, hfr1, hfr2, hAB, hresolve, hcrS, hopS, hrefC1, rfl, hrefO, hph⟩

theorem confirmRun_convs (s : St) (u c0 : Nat) :
    (confirmRun s u c0).convs = s.convs := by
  unfold confirmRun
  cases hrun : confirmTxn s u c0 with
  | error e => rfl
  | ok s1 =>
    obtain ⟨conv, rideA, rideB, cr, op, refC, refO, _, _, _, _, _, _, _, _, _, hcases⟩ :=
      confirm_ok_cases s u c0 s1 hrun
    cases hcases with
    | inl hl =>
      rw [hl.2]
      exact stage2_convs s cr op c0
    | inr hr =>
      rw [hr.2]
      exact stage1_convs s cr op c0

theorem iterConfirm_convs (u c0 : Nat) (n : Nat) (s : St) :
    (iterConfirm u c0 n s).convs = s.convs := by
  induction n generalizing s with
  | zero => rfl
  | succ n ih =>
    show (iterConfirm u c0 n (confirmRun s u c0)).convs = s.convs
    rw [ih (confirmRun s u c0), confirmRun_convs]

theorem freshPair_iter (u c0 : Nat) (s : St) (h : freshPair u c0 s) (n : Nat) :
    freshPair u c0 (iterConfirm u c0 n s) := by
  induction n generalizing s with
  | zero => exact h
  | succ n ih => exact ih (confirmRun s u c0) (freshPair_step u c0 s h)

theorem freshPair_not_confirmed (u c0 : Nat) (s : St) (h : freshPair u c0 s)
    (conv : Conversation) (hconv : findConv s c0 = some conv) :
    ¬ refStatusIn s conv.rideRequestA c0 = some RefStatus.confirmed
    ∧ ¬ refStatusIn s conv.rideRequestB c0 = some RefStatus.confirmed := by
  obtain ⟨conv2, rideA, rideB, cr, op, refC, refO,
    hconv2, hA, hB, hAB, hres, hcrS, hopS, hrefC, hact, hrefO, hph⟩ := h
  have hcv : conv = conv2 := Option.some.inj (hconv.symm.trans hconv2)
  subst hcv
  have hSA : refStatusIn s conv.rideRequestA c0
      = (findConvRef rideA c0).map (fun c => c.status) := by
    unfold refStatusIn
    rw [hA]
    rfl
  have hSB : refStatusIn s conv.rideRequestB c0
      = (findConvRef rideB c0).map (fun c => c.status) := by
    unfold refStatusIn
    rw [hB]
    rfl
  rcases confirmerOf_inv rideA rideB u cr op hres
    with ⟨_, hcr, hop⟩ | ⟨_, _, hcr, hop⟩
  · subst hcr
    subst hop
    constructor
    · rw [hSA, hrefC]
      intro he
      have h2 : refC.status = RefStatus.confirmed := Option.some.inj he
      rw [h2] at hact
      exact Bool.noConfusion hact
    · rw [hSB, hrefO]
      intro he
      have h2 : refO.status = RefStatus.confirmed := Option.some.inj he
      rw [hph] at h2
      exact RefStatus.noConfusion h2
  · subst hcr
    subst hop
    constructor
    · rw [hSA, hrefO]
      intro he
      have h2 : refO.status = RefStatus.confirmed := Option.some.inj he
      rw [hph] at h2
      exact RefStatus.noConfusion h2
    · rw [hSB, hrefC]
      intro he
      have h2 : refC.status = RefStatus.confirmed := Option.some.inj he
      rw [h2] at hact
      exact Bool.noConfusion hact

/-- C3 counterexample: on a fresh conversation (both refs `pending`), the
same actor's second `confirm` call does NOT return a conflict error — it
succeeds again through the Stage 1 branch (conversationController.js lines
435-439), which only re-assigns `awaiting_confirmation`. -/
theorem c3_counterexample :
    refStatusIn sFresh 1 10 = some .pending
    ∧ refStatusIn (confirmRun sFresh 1 10) 1 10 = some .awaitingConfirmation
    ∧ (confirmTxn (confirmRun sFresh 1 10) 1 10).isOk = true := by
  refine ⟨rfl, rfl, rfl⟩

/-- C3 (amended): on a fresh conversation the first `confirm` moves the
actor's ref from `pending` to `awaiting_confirmation`; a second `confirm`
by the same actor succeeds as an idempotent no-op (no conflict is
returned) leaving the actor's ref `awaiting_confirmation` and the
counterpart's ref `pending`; and no number of `confirm` calls by that one
actor alone ever makes either ref `confirmed`. -/
theorem c3_amended_idempotent (s : St) (u c0 : Nat) (conv : Conversation)
    (rideA rideB cr op : Ride) (refC refO : ConvRef)
    (hconv : findConv s c0 = some conv)
    (hA : findRide s conv.rideRequestA = some rideA)
    (hB : findRide s conv.rideRequestB = some rideB)
    (hAB : ¬ conv.rideRequestA = conv.rideRequestB)
    (hres : confirmerOf rideA rideB u = some (cr, op))
    (hcrS : ¬ cr.status = RideStatus.Confirmed)
    (hopS : ¬ op.status = RideStatus.Confirmed)
    (hrefC : findConvRef cr c0 = some refC)
    (hrefCp : refC.status = RefStatus.pending)
    (hrefO : findConvRef op c0 = some refO)
    (hph : refO.status = RefStatus.pending) :
    confirmTxn s u c0 = .ok (stage1Apply s cr op c0)
    ∧ refStatusIn (confirmRun s u c0) cr.rid c0 = some RefStatus.awaitingConfirmation
    ∧ (confirmTxn (confirmRun s u c0) u c0).isOk = true
    ∧ refStatusIn (confirmRun (confirmRun s u c0) u c0) cr.rid c0
        = some RefStatus.awaitingConfirmation
    ∧ refStatusIn (confirmRun (confirmRun s u c0) u c0) op.rid c0
        = some RefStatus.pending
    ∧ ∀ n, ¬ refStatusIn (iterConfirm u c0 n s) conv.rideRequestA c0
          = some RefStatus.confirmed
        ∧ ¬ refStatusIn (iterConfirm u c0 n s) conv.rideRequestB c0
          = some RefStatus.confirmed := by
  have hnc : ¬ refC.status = RefStatus.confirmed := by
    rw [hrefCp]
    decide
  have hArid := findRide_rid hA
  have hBrid := findRide_rid hB
  have heq1 := confirm_stage1_eq s u c0 conv rideA rideB cr op refC refO
    hconv hA hB hres hcrS hopS hrefC hrefO hnc hph
  have hrun1 : confirmRun s u c0 = stage1Apply s cr op c0 := by
    unfold confirmRun
    rw [heq1]
  have hcrFind : findRide s cr.rid = some cr := by
    rcases confirmerOf_inv rideA rideB u cr op hres with ⟨_, hcr, _⟩ | ⟨_, _, hcr, _⟩
    · rw [hcr, findRide_rid hA]
      exact hA
    · rw [hcr, findRide_rid hB]
      exact hB
  have hopFind : findRide s op.rid = some op := by
    rcases confirmerOf_inv rideA rideB u cr op hres with ⟨_, _, hop⟩ | ⟨_, _, _, hop⟩
    · rw [hop, findRide_rid hB]
      exact hB
    · rw [hop, findRide_rid hA]
      exact hA
  have hne : ¬ cr.rid = op.rid := by
    rcases confirmerOf_inv rideA rideB u cr op hres
      with ⟨_, hcr, hop⟩ | ⟨_, _, hcr, hop⟩
    · rw [hcr, hop, hArid, hBrid]
      exact hAB
    · rw [hcr, hop, hBrid, hArid]
      intro he
      exact hAB he.symm
  have hfr1 : findRide (stage1Apply s cr op c0) cr.rid = some (stage1RideDoc cr c0) :=
    stage1_findRide_cr s cr op c0 hne (by rw [hcrFind]; rfl)
  have hfr1op : findRide (stage1Apply s cr op c0) op.rid = some op :=
    stage1_findRide_op s cr op c0 (by rw [hopFind]; rfl)
  have hobs1 : refStatusIn (confirmRun s u c0) cr.rid c0
      = some RefStatus.awaitingConfirmation := by
    rw [hrun1]
    unfold refStatusIn
    rw [hfr1]
    simp only [Option.some_bind]
    unfold findConvRef stage1RideDoc
    dsimp only
    unfold findConvRef at hrefC
    rw [findConvRefL_setFirst_self _ _ _ _ hrefC]
    rfl
  have hconv2 : findConv (stage1Apply s cr op c0) c0 = some conv := by
    unfold findConv
    rw [show (stage1Apply s cr op c0).convs = s.convs from rfl]
    exact hconv
  have hrefC1 : findConvRef (stage1RideDoc cr c0) c0
      = some { refC with status := RefStatus.awaitingConfirmation } := by
    unfold stage1RideDoc findConvRef
    dsimp only
    unfold findConvRef at hrefC
    exact findConvRefL_setFirst_self _ _ _ _ hrefC
  have heq2 : confirmTxn (stage1Apply s cr op c0) u c0
      = .ok (stage1Apply (stage1Apply s cr op c0) (stage1RideDoc cr c0) op c0) := by
    rcases confirmerOf_inv rideA rideB u cr op hres
      with ⟨hu1, hcr, hop⟩ | ⟨hu1, hu2, hcr, hop⟩
    · have hA2 : findRide (stage1Apply s cr op c0) conv.rideRequestA
          = some (stage1RideDoc cr c0) := by
        rw [← show cr.rid = conv.rideRequestA from by rw [hcr]; exact hArid]
        exact hfr1
      have hB2 : findRide (stage1Apply s cr op c0) conv.rideRequestB = some op := by
        rw [← show op.rid = conv.rideRequestB from by rw [hop]; exact hBrid]
        exact hfr1op
      have hres2 : confirmerOf (stage1RideDoc cr c0) op u
          = some (stage1RideDoc cr c0, op) := by
        unfold confirmerOf
        have h1 : ((stage1RideDoc cr c0).userId == u) = true := by
          rw [show (stage1RideDoc cr c0).userId = cr.userId from rfl, hcr]
          exact hu1
        simp only [h1, if_true]
      exact confirm_stage1_eq _ u c0 conv (stage1RideDoc cr c0) op
        (stage1RideDoc cr c0) op
        { refC with status := RefStatus.awaitingConfirmation } refO
        hconv2 hA2 hB2 hres2 hcrS hopS hrefC1 hrefO
        (fun he => RefStatus.noConfusion he) hph
    · have hA2 : findRide (stage1Apply s cr op c0) conv.rideRequestA = some op := by
        rw [← show op.rid = conv.rideRequestA from by rw [hop]; exact hArid]
        exact hfr1op
      have hB2 : findRide (stage1Apply s cr op c0) conv.rideRequestB
          = some (stage1RideDoc cr c0) := by
        rw [← show cr.rid = conv.rideRequestB from by rw [hcr]; exact hBrid]
        exact hfr1
      have hres2 : confirmerOf op (stage1RideDoc cr c0) u
          = some (stage1RideDoc cr c0, op) := by
        unfold confirmerOf
        have h0 : (op.userId == u) = false := by
          rw [show op.userId = rideA.userId from by rw [hop]]
          exact hu1
        simp only [h0, Bool.false_eq_true, if_false]
        have h2 : ((stage1RideDoc cr c0).userId == u) = true := by
          rw [show (stage1RideDoc cr c0).userId = cr.userId from rfl, hcr]
          exact hu2
        simp only [h2, if_true]
      exact confirm_stage1_eq _ u c0 conv op (stage1RideDoc cr c0)
        (stage1RideDoc cr c0) op
        { refC with status := RefStatus.awaitingConfirmation } refO
        hconv2 hA2 hB2 hres2 hcrS hopS hrefC1 hrefO
        (fun he => RefStatus.noConfusion he) hph
  have hrun2 : confirmRun (confirmRun s u c0) u c0
      = stage1Apply (stage1Apply s cr op c0) (stage1RideDoc cr c0) op c0 := by
    rw [hrun1]
    unfold confirmRun
    rw [heq2]
  have hok2 : (confirmTxn (confirmRun s u c0) u c0).isOk = true := by
    rw [hrun1, heq2]
    rfl
  have hfr2 : findRide (stage1Apply (stage1Apply s cr op c0) (stage1RideDoc cr c0) op c0)
      cr.rid = some (stage1RideDoc (stage1RideDoc cr c0) c0) :=
    stage1_findRide_cr (stage1Apply s cr op c0) (stage1RideDoc cr c0) op c0 hne
      (by show (findRide (stage1Apply s cr op c0) cr.rid).isSome; rw [hfr1]; rfl)
  have hobs4a : refStatusIn (confirmRun (confirmRun s u c0) u c0) cr.rid c0
      = some RefStatus.awaitingConfirmation := by
    rw [hrun2]
    unfold refStatusIn
    rw [hfr2]
    simp only [Option.some_bind]
    show (findConvRefL ((stage1RideDoc (stage1RideDoc cr c0) c0).conversations) c0).map
        (fun c => c.status) = some RefStatus.awaitingConfirmation
    unfold stage1RideDoc
    dsimp only
    unfold findConvRef stage1RideDoc at hrefC1
    dsimp only at hrefC1
    rw [findConvRefL_setFirst_self _ _ _ _ hrefC1]
    rfl
  have hfrop2 : findRide (stage1Apply (stage1Apply s cr op c0) (stage1RideDoc cr c0) op c0)
      op.rid = some op :=
    stage1_findRide_op (stage1Apply s cr op c0) (stage1RideDoc cr c0) op c0
      (by rw [hfr1op]; rfl)
  have hobs4b : refStatusIn (confirmRun (confirmRun s u c0) u c0) op.rid c0
      = some RefStatus.pending := by
    rw [hrun2]
    unfold refStatusIn
    rw [hfrop2]
    simp only [Option.some_bind]
    rw [hrefO]
    show some refO.status = some RefStatus.pending
    rw [hph]
  have hfp0 : freshPair u c0 s :=
    ⟨conv, rideA, rideB, cr, op, refC, refO, hconv, hA, hB, hAB, hres, hcrS, hopS,
      hrefC, by rw [hrefCp]; rfl, hrefO, hph⟩
  refine ⟨heq1, hobs1, hok2, hobs4a, hobs4b, ?_⟩
  intro n
  have hfp := freshPair_iter u c0 s hfp0 n
  have hcn : findConv (iterConfirm u c0 n s) c0 = some conv := by
    unfold findConv
    rw [iterConfirm_convs]
    exact hconv
  exact freshPair_not_confirmed u c0 _ hfp conv hcn

/-- Witness for the amended C3 at the concrete fresh conversation. -/
theorem c3_amended_witness :
    refStatusIn (confirmRun sFresh 1 10) 1 10 = some RefStatus.awaitingConfirmation
    ∧ (confirmTxn (confirmRun sFresh 1 10) 1 10).isOk = true
    ∧ refStatusIn (confirmRun (confirmRun sFresh 1 10) 1 10) 1 10
        = some RefStatus.awaitingConfirmation
    ∧ ¬ refStatusIn (iterConfirm 1 10 5 sFresh) 1 10 = some RefStatus.confirmed := by
  have h := c3_amended_idempotent sFresh 1 10 ⟨10, 1, 2, [], 100⟩
    (exRide 1 1 0 .Pending [⟨2, .pending, 10⟩])
    (exRide 2 2 0 .Pending [⟨1, .pending, 10⟩])
    (exRide 1 1 0 .Pending [⟨2, .pending, 10⟩])
    (exRide 2 2 0 .Pending [⟨1, .pending, 10⟩])
    ⟨2, .pending, 10⟩ ⟨1, .pending, 10⟩
    rfl rfl rfl (by decide) rfl (by decide) (by decide) rfl rfl rfl rfl
  exact ⟨h.2.1, h.2.2.1, h.2.2.2.1, (h.2.2.2.2.2 5).1⟩

theorem contains_filter_map_rid (l : List Ride) (p : Ride → Bool)
    (hnd : (l.map (fun r => r.rid)).Nodup) (r : Ride) (hr : r ∈ l) :
    ((l.filter p).map (fun x => x.rid)).contains r.rid = p r := by
  cases hp : p r with
  | true =>
    have hm : r.rid ∈ (l.filter p).map (fun x => x.rid) :=
      List.mem_map_of_mem _ (List.mem_filter.mpr ⟨hr, hp⟩)
    rw [List.contains_eq_any_beq, List.any_eq_true]
    exact ⟨r.rid, hm, by simp⟩
  | false =>
    cases hc : ((l.filter p).map (fun x => x.rid)).contains r.rid with
    | false => rfl
    | true =>
      exfalso
      rw [List.contains_eq_any_beq, List.any_eq_true] at hc
      obtain ⟨x, hx, hbeq⟩ := hc
      have hxr : r.rid = x := eq_of_beq hbeq
      obtain ⟨r2, hr2f, hr2rid⟩ := List.mem_map.mp hx
      have hr2l : r2 ∈ l := (List.mem_filter.mp hr2f).1
      have hr2P : p r2 = true := (List.mem_filter.mp hr2f).2
      have heq : r2 = r := by
        have hf : r2.rid = r.rid := by rw [hr2rid, hxr]
        exact List.inj_on_of_nodup_map hnd hr2l hr hf
      rw [heq, hp] at hr2P
      exact Bool.noConfusion hr2P

/-- C8 counterexample: with requester ride 1 (departure 0) and candidates
stored as [ride 2 (3000000 ms away), ride 3 (1000000 ms away)], the match
list comes back in store order, not sorted by ascending absolute time
difference: the farther candidate is first. -/
theorem c8_counterexample :
    matchesOf sMatches 1
      = [exRide 2 2 3000000 .Available [], exRide 3 3 1000000 .Available []]
    ∧ ¬ sortedByTimeDiff 0 (matchesOf sMatches 1) := by
  constructor
  · rfl
  · intro h
    rw [show matchesOf sMatches 1
        = [exRide 2 2 3000000 .Available [], exRide 3 3 1000000 .Available []]
        from rfl] at h
    unfold sortedByTimeDiff at h
    have h2 := (List.pairwise_cons.mp h).1 _ (List.mem_cons_self _ _)
    revert h2
    decide

/-- C8 (amended): the match list returned by `findMatchesForCurrentRide`
is exactly the set of stored rides satisfying the Mongo match criteria, in
store (natural) order: no ranking by absolute time difference is applied
and no maximum truncates the list. -/
theorem c8_amended_unsorted_filter (s : St) (u : Nat) (user : UserDoc)
    (rid : Nat) (userRide : Ride)
    (hu : findUser s u = some user)
    (hcur : user.currentRideRequest = some rid)
    (hr : findRide s rid = some userRide)
    (hnd : (s.rides.map (fun r => r.rid)).Nodup) :
    findMatchesForCurrentRide s u
      = .ok (s.rides.filter
          (matchCriteria userRide (excludedRideIds userRide))) := by
  unfold findMatchesForCurrentRide
  rw [hu]
  dsimp only
  rw [hcur]
  dsimp only
  rw [hr]
  dsimp only
  congr 1
  unfold findPotentialMatches
  apply List.filter_congr
  intro r hrm
  exact contains_filter_map_rid s.rides _ hnd r hrm

/-- Witness for the amended C8 at the concrete store. -/
theorem c8_amended_witness :
    findMatchesForCurrentRide sMatches 1
      = .ok (sMatches.rides.filter
          (matchCriteria (exRide 1 1 0 .Available [])
            (excludedRideIds (exRide 1 1 0 .Available [])))) :=
  c8_amended_unsorted_filter sMatches 1 ⟨1, some 1⟩ 1 (exRide 1 1 0 .Available [])
    rfl rfl rfl (by decide)

theorem findConv_cid {s : St} {i : Nat} {c : Conversation}
    (h : findConv s i = some c) : c.cid = i := by
  unfold findConv at h
  have h2 := List.find?_some h
  have h3 : (c.cid == i) = true := h2
  exact eq_of_beq h3

theorem find?_map_saveConv_self (l : List Conversation) (c c1 : Conversation)
    (hcid : c1.cid = c.cid)
    (h : (List.find? (fun x => x.cid == c.cid) l).isSome) :
    List.find? (fun x => x.cid == c.cid)
      (l.map (fun x => if x.cid == c.cid then c1 else x)) = some c1 := by
  induction l with
  | nil => simp [List.find?] at h
  | cons a l ih =>
    simp only [List.map_cons, List.find?_cons]
    cases hpa : (a.cid == c.cid) with
    | true =>
      have hcc : (c1.cid == c.cid) = true := by
        rw [hcid]
        simp
      simp only [hpa, if_true, hcc]
    | false =>
      simp only [hpa, Bool.false_eq_true, if_false]
      simp only [List.find?_cons, hpa] at h
      exact ih h

theorem findConv_saveConversation_self (s : St) (c : Conversation)
    (h : (findConv s c.cid).isSome) :
    findConv (saveConversation s c) c.cid
      = some { c with messages := conversationPreSave c.messages } := by
  unfold findConv at h
  unfold findConv saveConversation
  dsimp only
  exact find?_map_saveConv_self s.convs c _ rfl h

theorem conversationPreSave_of_le (l : List Message) (h : l.length ≤ 20) :
    conversationPreSave l = l := by
  unfold conversationPreSave
  rw [if_neg]
  omega

/-- C9 counterexample: at a full (20 message) conversation, `sendMessage`
rejects the insertion with a 409 conflict (conversationController.js
lines 294-297) and mutates nothing: the oldest message is NOT dropped and
the new message is NOT stored, contradicting the drop-oldest reading. -/
theorem c9_counterexample :
    (messagesIn sMsgs 10).map List.length = some 20
    ∧ sendMessageTxn sMsgs 1 10 "hi" 0
        = .error ⟨409, "Message limit (20) reached for this conversation."⟩
    ∧ messagesIn (sendMessageRun sMsgs 1 10 "hi" 0) 10 = some msg20
    ∧ ¬ (⟨1, "hi", 0⟩ : Message) ∈ msg20 := by
  refine ⟨rfl, rfl, rfl, by decide⟩

/-- C9 (amended): the stored message list never exceeds 20 entries: a
successful `sendMessage` appends to a list that had fewer than 20 entries
(so the result has at most 20), an insertion into a full list is rejected
with a conflict rather than dropping the oldest message, and the
schema-level pre-save hook — the only drop-oldest code — trims a list
longer than 20 to its 20 most recent entries, a case `sendMessage` never
produces. -/
theorem c9_amended_cap (s : St) (u cid : Nat) (content : String) (now : Int)
    (conv : Conversation) (hc : findConv s cid = some conv) :
    (∀ s1, sendMessageTxn s u cid content now = .ok s1 →
      conv.messages.length < 20
      ∧ messagesIn s1 cid
          = some (conv.messages
              ++ [{ senderId := u, content := jsTrim content, timestamp := now }]))
    ∧ (conv.messages.length ≥ 20 →
        ∀ s1, ¬ sendMessageTxn s u cid content now = .ok s1)
    ∧ (∀ l : List Message, (conversationPreSave l).length ≤ 20
        ∧ (20 < l.length → conversationPreSave l = l.drop (l.length - 20))) := by
  have hmain : ∀ s1, sendMessageTxn s u cid content now = .ok s1 →
      conv.messages.length < 20
      ∧ messagesIn s1 cid
          = some (conv.messages
              ++ [{ senderId := u, content := jsTrim content, timestamp := now }]) := by
    intro s1 hok
    unfold sendMessageTxn at hok
    rw [hc] at hok
    dsimp only at hok
    split at hok
    · exact Except.noConfusion hok
    · split at hok
      · exact Except.noConfusion hok
      · split at hok
        · exact Except.noConfusion hok
        · split at hok
          · exact Except.noConfusion hok
          · split at hok
            · exact Except.noConfusion hok
            · rename_i hlen
              have hs1 : s1 = saveConversation s
                  { conv with messages := conv.messages
                      ++ [{ senderId := u, content := jsTrim content, timestamp := now }] } :=
                (Except.ok.inj hok).symm
              have hlt : conv.messages.length < 20 := Nat.not_le.mp hlen
              refine ⟨hlt, ?_⟩
              rw [hs1]
              have hcid : conv.cid = cid := findConv_cid hc
              have hsome : (findConv s ({ conv with messages := conv.messages
                  ++ [{ senderId := u, content := jsTrim content, timestamp := now }]
                  } : Conversation).cid).isSome := by
                show (findConv s conv.cid).isSome
                rw [hcid, hc]
                rfl
              have hsave := findConv_saveConversation_self s
                { conv with messages := conv.messages
                    ++ [{ senderId := u, content := jsTrim content, timestamp := now }] }
                hsome
              unfold messagesIn
              rw [show cid = ({ conv with messages := conv.messages
                  ++ [{ senderId := u, content := jsTrim content, timestamp := now }]
                  } : Conversation).cid from hcid.symm]
              rw [hsave]
              show some (conversationPreSave (conv.messages
                  ++ [{ senderId := u, content := jsTrim content, timestamp := now }])) = _
              rw [conversationPreSave_of_le]
              simp only [List.length_append, List.length_cons, List.length_nil]
              omega
  refine ⟨hmain, ?_, ?_⟩
  · intro hge s1 hok
    exact absurd hge (Nat.not_le.mpr (hmain s1 hok).1)
  · intro l
    constructor
    · unfold conversationPreSave
      by_cases h20 : l.length > 20
      · rw [if_pos h20]
        rw [List.length_drop]
        omega
      · rw [if_neg h20]
        omega
    · intro hgt
      unfold conversationPreSave
      rw [if_pos hgt]

/-- Witness for the amended C9: a successful send into an empty
conversation appends exactly the new message, and the pre-save hook bounds
any list at 20. -/
theorem c9_amended_witness :
    messagesIn (sendMessageRun sFresh 1 10 "hi" 0) 10
      = some ([] ++ [{ senderId := 1, content := jsTrim "hi", timestamp := 0 }])
    ∧ (conversationPreSave (List.replicate 25 (⟨1, "x", 0⟩ : Message))).length ≤ 20 := by
  have h := c9_amended_cap sFresh 1 10 "hi" 0 ⟨10, 1, 2, [], 100⟩ rfl
  exact ⟨(h.1 (sendMessageRun sFresh 1 10 "hi" 0) rfl).2,
         (h.2.2 (List.replicate 25 ⟨1, "x", 0⟩)).1⟩

theorem findRide_unlink (s : St) (u : Nat) (i : Nat) :
    findRide (unlinkUserRide s u) i = findRide s i := rfl

theorem findRide_removeRide_self (s : St) (i : Nat) :
    findRide (removeRide s i) i = none := by
  unfold findRide removeRide
  dsimp only
  induction s.rides with
  | nil => rfl
  | cons a l ih =>
    simp only [List.filter_cons]
    cases hpa : (a.rid == i) with
    | true => simp only [hpa, Bool.not_true, Bool.false_eq_true, if_false]; exact ih
    | false =>
      simp only [hpa, Bool.not_false, if_true, List.find?_cons]
      exact ih

theorem findRide_removeRide_ne (s : St) (i j : Nat) (h : ¬ j = i) :
    findRide (removeRide s i) j = findRide s j := by
  unfold findRide removeRide
  dsimp only
  induction s.rides with
  | nil => rfl
  | cons a l ih =>
    simp only [List.filter_cons]
    cases hpa : (a.rid == i) with
    | true =>
      have haj : (a.rid == j) = false := by
        rw [eq_of_beq hpa]
        simp only [beq_eq_false_iff_ne, ne_eq]
        intro he
        exact h he.symm
      simp only [hpa, Bool.not_true, Bool.false_eq_true, if_false, List.find?_cons, haj]
      exact ih
    | false =>
      simp only [hpa, Bool.not_false, if_true, List.find?_cons]
      cases haj : (a.rid == j) with
      | true => simp only [haj]
      | false => simp only [haj]; exact ih

theorem processDeleteRef_inactive (c : ConvRef) (s : St)
    (h : isActiveOrConfirmed c.status = false) : processDeleteRef c s = s := by
  unfold processDeleteRef
  simp only [h, Bool.false_eq_true, if_false]

theorem deleteStore_frame_active (l : List ConvRef) (s : St) (i : Nat)
    (h : ∀ c ∈ l, isActiveOrConfirmed c.status = true → ¬ i = c.rideId) :
    findRide (deleteStore l s) i = findRide s i := by
  induction l generalizing s with
  | nil => rfl
  | cons a l ih =>
    unfold deleteStore
    simp only [List.foldl_cons]
    have h1 := ih (processDeleteRef a s) (fun c hc => h c (List.mem_cons_of_mem a hc))
    unfold deleteStore at h1
    rw [h1]
    cases ha : isActiveOrConfirmed a.status with
    | false => rw [processDeleteRef_inactive a s ha]
    | true => exact processDeleteRef_frame a s i (h a (List.mem_cons_self a l) ha)

theorem deleteRideTxn_eq (s : St) (u : Nat) (user : UserDoc) (rid : Nat)
    (rideToDelete : Ride)
    (hu : findUser s u = some user)
    (hcur : user.currentRideRequest = some rid)
    (hr : findRide s rid = some rideToDelete) :
    deleteRideTxn s u
      = .ok (unlinkUserRide (deleteStore rideToDelete.conversations s) u, rid) := by
  unfold deleteRideTxn
  rw [hu]
  dsimp only
  rw [hcur]
  dsimp only
  rw [hr]
  rfl

theorem setFirst_mem (l : List ConvRef) (cid : Nat) (st : RefStatus) :
    ∀ x ∈ setFirstRefStatus l cid st, x.conversationId = cid ∨ x ∈ l := by
  induction l with
  | nil => intro x hx; exact absurd hx (List.not_mem_nil x)
  | cons a l ih =>
    intro x hx
    unfold setFirstRefStatus at hx
    cases hpa : (a.conversationId == cid) with
    | true =>
      simp only [hpa, if_true] at hx
      cases List.mem_cons.mp hx with
      | inl he =>
        left
        rw [he]
        exact eq_of_beq hpa
      | inr hm => exact Or.inr (List.mem_cons_of_mem a hm)
    | false =>
      simp only [hpa, Bool.false_eq_true, if_false] at hx
      cases List.mem_cons.mp hx with
      | inl he => exact Or.inr (by rw [he]; exact List.mem_cons_self a l)
      | inr hm =>
        cases ih x hm with
        | inl h2 => exact Or.inl h2
        | inr h2 => exact Or.inr (List.mem_cons_of_mem a h2)

theorem setFirst_any_false (l : List ConvRef) (cid : Nat)
    (hno : ∀ x ∈ l, ¬ x.conversationId = cid → isActiveOrConfirmed x.status = false) :
    ((setFirstRefStatus l cid RefStatus.declined).any
      (fun x => isActiveOrConfirmed x.status && !(x.conversationId == cid))) = false := by
  rw [List.any_eq_false]
  intro x hx
  intro hp
  have hp2 := hp
  rw [Bool.and_eq_true] at hp2
  have hcv : ¬ x.conversationId = cid := by
    have := hp2.2
    rw [Bool.not_eq_true', beq_eq_false_iff_ne] at this
    exact this
  cases setFirst_mem l cid RefStatus.declined x hx with
  | inl he => exact hcv he
  | inr hm =>
    have := hno x hm hcv
    rw [this] at hp2
    exact Bool.noConfusion hp2.1

theorem dcu_status_available (t : Ride) (cid : Nat)
    (hno : ∀ x ∈ t.conversations, ¬ x.conversationId = cid →
        isActiveOrConfirmed x.status = false) :
    (deleteCounterpartUpdate t cid).status = RideStatus.Available := by
  unfold deleteCounterpartUpdate
  have hany := setFirst_any_false t.conversations cid hno
  rw [show (declineFirstRef t cid).conversations
      = setFirstRefStatus t.conversations cid RefStatus.declined from rfl]
  rw [hany]
  cases hA : ((declineFirstRef t cid).status == RideStatus.Available) with
  | true =>
    simp only [hA, Bool.not_false, Bool.not_true, Bool.and_false, Bool.false_eq_true, if_false]
    exact eq_of_beq hA
  | false =>
    simp only [hA, Bool.not_false, Bool.and_true, if_true]

/-- C5: deleting ride R1 that holds an active-or-confirmed ref to R2
declines R2's mirrored ref inside the transaction, before R1's document is
removed; R2 is demoted to `Available` when it keeps no other
active-or-confirmed ref; afterwards R1's document is gone.  In particular
a mutually Confirmed counterpart ends `Available` with a `declined` ref. -/
theorem c5_delete_cascades (s : St) (u : Nat) (user : UserDoc) (r1id : Nat)
    (r1 : Ride) (c : ConvRef) (t : Ride) (mref : ConvRef)
    (hu : findUser s u = some user)
    (hcur : user.currentRideRequest = some r1id)
    (hr1 : findRide s r1id = some r1)
    (hc : c ∈ r1.conversations)
    (hcact : isActiveOrConfirmed c.status = true)
    (hnd : (r1.conversations.map (fun x => x.conversationId)).Nodup)
    (huniq : ∀ d ∈ r1.conversations, ¬ d.conversationId = c.conversationId →
        ¬ d.rideId = c.rideId)
    (hnoself : ∀ d ∈ r1.conversations, ¬ d.rideId = r1id)
    (hT : findRide s c.rideId = some t)
    (hm : findConvRef t c.conversationId = some mref)
    (hmnd : ¬ mref.status = RefStatus.declined) :
    deleteRideTxn s u = .ok (unlinkUserRide (deleteStore r1.conversations s) u, r1id)
    ∧ refStatusIn (unlinkUserRide (deleteStore r1.conversations s) u)
        c.rideId c.conversationId = some RefStatus.declined
    ∧ findRide (unlinkUserRide (deleteStore r1.conversations s) u) r1id = some r1
    ∧ findRide (deleteRun s u) r1id = none
    ∧ refStatusIn (deleteRun s u) c.rideId c.conversationId = some RefStatus.declined
    ∧ ((∀ x ∈ t.conversations, ¬ x.conversationId = c.conversationId →
          isActiveOrConfirmed x.status = false) →
        rideStatusIn (deleteRun s u) c.rideId = some RideStatus.Available) := by
  have htxn := deleteRideTxn_eq s u user r1id r1 hu hcur hr1
  have hrun : deleteRun s u
      = removeRide (unlinkUserRide (deleteStore r1.conversations s) u) r1id := by
    unfold deleteRun deleteRideRequest
    rw [htxn]
  have hhit := deleteStore_hit r1.conversations s c t hc hnd huniq hcact hT mref hm
    (beq_eq_false_iff_ne.mpr hmnd)
  have hrid2 : ¬ c.rideId = r1id := hnoself c hc
  unfold findConvRef at hm
  have hrefTxn : refStatusIn (unlinkUserRide (deleteStore r1.conversations s) u)
      c.rideId c.conversationId = some RefStatus.declined := by
    unfold refStatusIn
    rw [findRide_unlink, hhit]
    simp only [Option.some_bind]
    unfold findConvRef
    rw [deleteCounterpartUpdate_conversations]
    rw [findConvRefL_setFirst_self _ _ _ _ hm]
    rfl
  have hr1Txn : findRide (unlinkUserRide (deleteStore r1.conversations s) u) r1id
      = some r1 := by
    rw [findRide_unlink]
    rw [deleteStore_frame r1.conversations s r1id (fun d hd he => hnoself d hd he.symm)]
    exact hr1
  have hgone : findRide (deleteRun s u) r1id = none := by
    rw [hrun]
    exact findRide_removeRide_self _ r1id
  have hrefFinal : refStatusIn (deleteRun s u) c.rideId c.conversationId
      = some RefStatus.declined := by
    rw [hrun]
    unfold refStatusIn
    rw [findRide_removeRide_ne _ _ _ hrid2, findRide_unlink, hhit]
    simp only [Option.some_bind]
    unfold findConvRef
    rw [deleteCounterpartUpdate_conversations]
    rw [findConvRefL_setFirst_self _ _ _ _ hm]
    rfl
  refine ⟨htxn, hrefTxn, hr1Txn, hgone, hrefFinal, ?_⟩
  intro hno
  rw [hrun]
  unfold rideStatusIn
  rw [findRide_removeRide_ne _ _ _ hrid2, findRide_unlink, hhit]
  show some ((deleteCounterpartUpdate t c.conversationId).status) = some RideStatus.Available
  rw [dcu_status_available t c.conversationId hno]

/-- Witness for C5: deleting ride 1 of the mutually Confirmed pair leaves
ride 2 `Available` with a `declined` ref, and ride 1's document removed. -/
theorem c5_delete_cascades_witness :
    refStatusIn (deleteRun sConfirmedPair 1) 2 10 = some RefStatus.declined
    ∧ rideStatusIn (deleteRun sConfirmedPair 1) 2 = some RideStatus.Available
    ∧ findRide (deleteRun sConfirmedPair 1) 1 = none := by
  have h := c5_delete_cascades sConfirmedPair 1 ⟨1, some 1⟩ 1
    (exRide 1 1 0 .Confirmed [⟨2, .confirmed, 10⟩]) ⟨2, .confirmed, 10⟩
    (exRide 2 2 0 .Confirmed [⟨1, .confirmed, 10⟩]) ⟨1, .confirmed, 10⟩
    rfl rfl rfl (by decide) (by decide) (by decide) (by decide) (by decide)
    rfl rfl (by decide)
  exact ⟨h.2.2.2.2.1, h.2.2.2.2.2 (by decide), h.2.2.2.1⟩

/-- C10: inside the `deleteRideRequest` transaction only counterpart rides
of the deleted ride's active refs are mutated: the deleted ride's own
document (its refs and status) is unchanged, unrelated rides are
unchanged, no conversation document is touched, and the document itself is
removed only after the transaction commits. -/
theorem c10_delete_frame (s : St) (u : Nat) (user : UserDoc) (r1id : Nat) (r1 : Ride)
    (hu : findUser s u = some user)
    (hcur : user.currentRideRequest = some r1id)
    (hr1 : findRide s r1id = some r1)
    (hnoself : ∀ d ∈ r1.conversations, ¬ d.rideId = r1id) :
    deleteRideTxn s u = .ok (unlinkUserRide (deleteStore r1.conversations s) u, r1id)
    ∧ findRide (unlinkUserRide (deleteStore r1.conversations s) u) r1id = some r1
    ∧ (∀ i, (∀ d ∈ r1.conversations, isActiveOrConfirmed d.status = true →
          ¬ i = d.rideId) →
        findRide (unlinkUserRide (deleteStore r1.conversations s) u) i = findRide s i)
    ∧ (unlinkUserRide (deleteStore r1.conversations s) u).convs = s.convs
    ∧ deleteRideRequest s u
        = .ok (removeRide (unlinkUserRide (deleteStore r1.conversations s) u) r1id)
    ∧ findRide (deleteRun s u) r1id = none := by
  have htxn := deleteRideTxn_eq s u user r1id r1 hu hcur hr1
  have hfull : deleteRideRequest s u
      = .ok (removeRide (unlinkUserRide (deleteStore r1.conversations s) u) r1id) := by
    unfold deleteRideRequest
    rw [htxn]
  have hrun : deleteRun s u
      = removeRide (unlinkUserRide (deleteStore r1.conversations s) u) r1id := by
    unfold deleteRun
    rw [hfull]
  refine ⟨htxn, ?_, ?_, ?_, hfull, ?_⟩
  · rw [findRide_unlink]
    rw [deleteStore_frame r1.conversations s r1id (fun d hd he => hnoself d hd he.symm)]
    exact hr1
  · intro i hi
    rw [findRide_unlink]
    exact deleteStore_frame_active r1.conversations s i hi
  · show (deleteStore r1.conversations s).convs = s.convs
    exact deleteStore_convs r1.conversations s
  · rw [hrun]
    exact findRide_removeRide_self _ r1id

/-- Witness for C10: at the confirmed pair, the transaction state keeps
ride 1 intact and all conversations, an unrelated ride id is untouched,
and the final state has ride 1 removed. -/
theorem c10_delete_frame_witness :
    findRide (unlinkUserRide (deleteStore [⟨2, RefStatus.confirmed, 10⟩] sConfirmedPair) 1) 1
      = some (exRide 1 1 0 .Confirmed [⟨2, .confirmed, 10⟩])
    ∧ (unlinkUserRide (deleteStore [⟨2, RefStatus.confirmed, 10⟩] sConfirmedPair) 1).convs
      = sConfirmedPair.convs
    ∧ findRide (deleteRun sConfirmedPair 1) 1 = none := by
  have h := c10_delete_frame sConfirmedPair 1 ⟨1, some 1⟩ 1
    (exRide 1 1 0 .Confirmed [⟨2, .confirmed, 10⟩])
    rfl rfl rfl (by decide)
  exact ⟨h.2.1, h.2.2.2.1, h.2.2.2.2.2⟩

theorem findConvRefL_of_mem_nodup (l : List ConvRef) (d : ConvRef)
    (hnd : (l.map (fun x => x.conversationId)).Nodup) (hd : d ∈ l) :
    findConvRefL l d.conversationId = some d := by
  induction l with
  | nil => exact absurd hd (List.not_mem_nil d)
  | cons a l ih =>
    unfold findConvRefL
    simp only [List.find?_cons]
    cases List.mem_cons.mp hd with
    | inl he =>
      have : (a.conversationId == d.conversationId) = true := by
        rw [he]
        simp
      simp only [this]
      rw [he]
    | inr hm =>
      have hconvne : (a.conversationId == d.conversationId) = false := by
        rw [beq_eq_false_iff_ne, ne_eq]
        intro he
        have hmm : d.conversationId ∈ l.map (fun x => x.conversationId) :=
          List.mem_map_of_mem _ hm
        have hnd1 := (List.nodup_cons.mp hnd).1
        have hnd2 : a.conversationId ∉ l.map (fun x => x.conversationId) := hnd1
        rw [he] at hnd2
        exact hnd2 hmm
      simp only [hconvne]
      unfold findConvRefL at ih
      exact ih (List.nodup_cons.mp hnd).2 hm

theorem cascadeRefMap_active (m : Nat) (c : ConvRef)
    (hcm : ¬ c.conversationId = m) (hact : isActiveRef c.status = true) :
    cascadeRefMap m c = { c with status := RefStatus.declined } := by
  unfold cascadeRefMap
  have e1 : (c.conversationId == m) = false := beq_eq_false_iff_ne.mpr hcm
  have hA : (c.conversationId == m || c.status == RefStatus.confirmed
      || c.status == RefStatus.declined) = false := by
    rw [e1, active_not_confirmed hact, active_not_declined hact]
    rfl
  have hB : (c.status == RefStatus.pending || c.status == RefStatus.awaitingConfirmation)
      = true := hact
  simp only [hA, Bool.false_eq_true, if_false, hB, if_true]

theorem setFirst_mem_strong (l : List ConvRef) (cid : Nat) (st : RefStatus) :
    ∀ x ∈ setFirstRefStatus l cid st,
      x ∈ l ∨ ∃ y, y ∈ l ∧ y.conversationId = cid ∧ x = { y with status := st } := by
  induction l with
  | nil => intro x hx; exact absurd hx (List.not_mem_nil x)
  | cons a l ih =>
    intro x hx
    unfold setFirstRefStatus at hx
    cases hpa : (a.conversationId == cid) with
    | true =>
      simp only [hpa, if_true] at hx
      cases List.mem_cons.mp hx with
      | inl he =>
        exact Or.inr ⟨a, List.mem_cons_self a l, eq_of_beq hpa, he⟩
      | inr hm => exact Or.inl (List.mem_cons_of_mem a hm)
    | false =>
      simp only [hpa, Bool.false_eq_true, if_false] at hx
      cases List.mem_cons.mp hx with
      | inl he => exact Or.inl (by rw [he]; exact List.mem_cons_self a l)
      | inr hm =>
        cases ih x hm with
        | inl h2 => exact Or.inl (List.mem_cons_of_mem a h2)
        | inr h2 =>
          obtain ⟨y, hy, hyc, hxy⟩ := h2
          exact Or.inr ⟨y, List.mem_cons_of_mem a hy, hyc, hxy⟩

theorem setFirst_declined_any_inactive (l : List ConvRef) (cid : Nat)
    (hnd : (l.map (fun x => x.conversationId)).Nodup)
    (hno : ∀ x ∈ l, ¬ x.conversationId = cid → isActiveRef x.status = false) :
    ((setFirstRefStatus l cid RefStatus.declined).any
      (fun x => isActiveRef x.status)) = false := by
  induction l with
  | nil => rfl
  | cons a l ih =>
    unfold setFirstRefStatus
    cases hpa : (a.conversationId == cid) with
    | true =>
      simp only [hpa, if_true, List.any_cons]
      have h1 : isActiveRef ({ a with status := RefStatus.declined } : ConvRef).status
          = false := rfl
      rw [h1]
      rw [Bool.false_or]
      rw [List.any_eq_false]
      intro x hx hp
      by_cases hxc : x.conversationId = cid
      · have hmm : x.conversationId ∈ l.map (fun y => y.conversationId) :=
          List.mem_map_of_mem _ hx
        have hnd1 := (List.nodup_cons.mp hnd).1
        have hnd2 : a.conversationId ∉ l.map (fun y => y.conversationId) := hnd1
        rw [eq_of_beq hpa, ← hxc] at hnd2
        exact hnd2 hmm
      · have := hno x (List.mem_cons_of_mem a hx) hxc
        rw [this] at hp
        exact Bool.noConfusion hp
    | false =>
      simp only [hpa, Bool.false_eq_true, if_false, List.any_cons]
      have h1 : isActiveRef a.status = false :=
        hno a (List.mem_cons_self a l) (beq_eq_false_iff_ne.mp hpa)
      rw [h1, Bool.false_or]
      exact ih (List.nodup_cons.mp hnd).2
        (fun x hx => hno x (List.mem_cons_of_mem a hx))

theorem ccu_status_available (t : Ride) (cid : Nat)
    (hndt : (t.conversations.map (fun x => x.conversationId)).Nodup)
    (hno : ∀ x ∈ t.conversations, ¬ x.conversationId = cid →
        isActiveRef x.status = false)
    (hTs : ¬ t.status = RideStatus.Confirmed) :
    (cascadeCounterpartUpdate t cid).status = RideStatus.Available := by
  unfold cascadeCounterpartUpdate
  have hany := setFirst_declined_any_inactive t.conversations cid hndt hno
  rw [show (declineFirstRef t cid).conversations
      = setFirstRefStatus t.conversations cid RefStatus.declined from rfl]
  rw [hany]
  cases hP : ((declineFirstRef t cid).status == RideStatus.Pending) with
  | true =>
    simp only [hP, Bool.not_false, Bool.true_and, if_true]
  | false =>
    simp only [hP, Bool.not_false, Bool.true_and, Bool.false_eq_true, if_false]
    have hst : (declineFirstRef t cid).status = t.status := rfl
    rw [hst] at hP ⊢
    cases hts : t.status with
    | Available => rfl
    | Pending =>
      rw [hts] at hP
      exact Bool.noConfusion hP
    | Confirmed => exact absurd hts hTs

theorem ccu_ref_declined (t : Ride) (cid : Nat) (mref : ConvRef)
    (hm : findConvRefL t.conversations cid = some mref) :
    findConvRef (cascadeCounterpartUpdate t cid) cid
      = some { mref with status := RefStatus.declined } := by
  unfold findConvRef
  rw [cascadeCounterpartUpdate_conversations]
  exact findConvRefL_setFirst_self _ _ _ _ hm

theorem mem_setFirst_of_ne (l : List ConvRef) (cid : Nat) (st : RefStatus)
    (x : ConvRef) (hx : x ∈ l) (hxc : ¬ x.conversationId = cid) :
    x ∈ setFirstRefStatus l cid st := by
  induction l with
  | nil => exact absurd hx (List.not_mem_nil x)
  | cons a l ih =>
    unfold setFirstRefStatus
    cases hpa : (a.conversationId == cid) with
    | true =>
      simp only [hpa, if_true]
      cases List.mem_cons.mp hx with
      | inl he =>
        rw [he] at hxc
        exact absurd (eq_of_beq hpa) hxc
      | inr hm => exact List.mem_cons_of_mem _ hm
    | false =>
      simp only [hpa, Bool.false_eq_true, if_false]
      cases List.mem_cons.mp hx with
      | inl he => rw [he]; exact List.mem_cons_self a _
      | inr hm => exact List.mem_cons_of_mem _ (ih hm)

theorem setFirst_map_convId (l : List ConvRef) (cid : Nat) (st : RefStatus) :
    (setFirstRefStatus l cid st).map (fun x => x.conversationId)
      = l.map (fun x => x.conversationId) := by
  induction l with
  | nil => rfl
  | cons a l ih =>
    unfold setFirstRefStatus
    cases hpa : (a.conversationId == cid) with
    | true => simp only [hpa, if_true, List.map_cons]
    | false =>
      simp only [hpa, Bool.false_eq_true, if_false]
      rw [List.map_cons, List.map_cons, ih]

theorem setFirst_uniq_of_uniq (l : List ConvRef) (cid : Nat) (st : RefStatus)
    (c : ConvRef)
    (hu : ∀ d ∈ l, ¬ d.conversationId = c.conversationId → ¬ d.rideId = c.rideId) :
    ∀ d ∈ setFirstRefStatus l cid st, ¬ d.conversationId = c.conversationId →
      ¬ d.rideId = c.rideId := by
  intro d hd hdc
  rcases setFirst_mem_strong l cid st d hd with hdl | ⟨y, hy, _, hdy⟩
  · exact hu d hdl hdc
  · have h1 : d.rideId = y.rideId := by rw [hdy]
    have h2 : d.conversationId = y.conversationId := by rw [hdy]
    rw [h1]
    exact hu y hy (fun he => hdc (h2.trans he))

theorem setFirst_rid_ne (l : List ConvRef) (cid : Nat) (st : RefStatus) (i : Nat)
    (hu : ∀ d ∈ l, ¬ d.rideId = i) :
    ∀ d ∈ setFirstRefStatus l cid st, ¬ i = d.rideId := by
  intro d hd
  rcases setFirst_mem_strong l cid st d hd with hdl | ⟨y, hy, _, hdy⟩
  · exact fun he => hu d hdl he.symm
  · have h1 : d.rideId = y.rideId := by rw [hdy]
    rw [h1]
    exact fun he => hu y hy he.symm

theorem cascadeStep_skip (m : Nat) (e : ConvRef) (s : St)
    (h : e.conversationId = m ∨ isActiveRef e.status = false) :
    cascadeStep m s e = s := by
  have hcond : (e.conversationId == m || e.status == RefStatus.confirmed
      || e.status == RefStatus.declined) = true := by
    cases h with
    | inl h1 =>
      rw [h1]
      simp
    | inr h1 =>
      cases hst : e.status with
      | pending => rw [hst] at h1; exact Bool.noConfusion h1
      | awaitingConfirmation => rw [hst] at h1; exact Bool.noConfusion h1
      | confirmed => simp
      | declined => simp
  unfold cascadeStep processRef
  simp only [hcond, if_true]

theorem cascadeStore_frame_weak (m : Nat) (l : List ConvRef) (s : St) (i : Nat)
    (h : ∀ e ∈ l, ¬ i = e.rideId ∨ e.conversationId = m ∨ isActiveRef e.status = false) :
    findRide (cascadeStore m l s) i = findRide s i := by
  induction l generalizing s with
  | nil => rfl
  | cons a l ih =>
    unfold cascadeStore
    simp only [List.foldl_cons]
    have h1 := ih (cascadeStep m s a) (fun e he => h e (List.mem_cons_of_mem a he))
    unfold cascadeStore at h1
    rw [h1]
    rcases h a (List.mem_cons_self a l) with h2 | h2
    · exact cascadeStep_frame m a s i h2
    · rw [cascadeStep_skip m a s h2]

theorem setFirst_declined_no_active_outside (l : List ConvRef) (cidA cidB : Nat)
    (hnd : (l.map (fun x => x.conversationId)).Nodup)
    (hno : ∀ x ∈ l, ¬ x.conversationId = cidA → ¬ x.conversationId = cidB →
        isActiveRef x.status = false) :
    ∀ x ∈ setFirstRefStatus l cidA RefStatus.declined, ¬ x.conversationId = cidB →
      isActiveRef x.status = false := by
  induction l with
  | nil => intro x hx; exact absurd hx (List.not_mem_nil x)
  | cons a l ih =>
    intro x hx hxb
    unfold setFirstRefStatus at hx
    cases hpa : (a.conversationId == cidA) with
    | true =>
      simp only [hpa, if_true] at hx
      cases List.mem_cons.mp hx with
      | inl he => rw [he]; rfl
      | inr hm =>
        by_cases hxa : x.conversationId = cidA
        · exfalso
          have hmm : x.conversationId ∈ l.map (fun y => y.conversationId) :=
            List.mem_map_of_mem _ hm
          have hnd1 := (List.nodup_cons.mp hnd).1
          have hnd2 : a.conversationId ∉ l.map (fun y => y.conversationId) := hnd1
          rw [eq_of_beq hpa, ← hxa] at hnd2
          exact hnd2 hmm
        · exact hno x (List.mem_cons_of_mem a hm) hxa hxb
    | false =>
      simp only [hpa, Bool.false_eq_true, if_false] at hx
      cases List.mem_cons.mp hx with
      | inl he =>
        rw [he]
        exact hno a (List.mem_cons_self a l) (beq_eq_false_iff_ne.mp hpa)
          (by rw [← he]; exact hxb)
      | inr hm =>
        exact ih (List.nodup_cons.mp hnd).2
          (fun z hz => hno z (List.mem_cons_of_mem a hz)) x hm hxb

theorem ccu_status_cases (t : Ride) (cid : Nat) :
    (cascadeCounterpartUpdate t cid).status = t.status
    ∨ (cascadeCounterpartUpdate t cid).status = RideStatus.Available := by
  unfold cascadeCounterpartUpdate
  split
  · exact Or.inr rfl
  · exact Or.inl rfl

theorem stage2_third_party (s : St) (cr op : Ride) (c0 : Nat) (c : ConvRef) (t : Ride)
    (hcmem : c ∈ cr.conversations ∨ c ∈ op.conversations)
    (hc0 : ¬ c.conversationId = c0)
    (hact : isActiveRef c.status = true)
    (hncr : ¬ c.rideId = cr.rid) (hnop : ¬ c.rideId = op.rid)
    (hndcr : (cr.conversations.map (fun x => x.conversationId)).Nodup)
    (hndop : (op.conversations.map (fun x => x.conversationId)).Nodup)
    (hucr : c ∈ cr.conversations → ∀ d ∈ cr.conversations,
        ¬ d.conversationId = c.conversationId → ¬ d.rideId = c.rideId)
    (huop : c ∈ op.conversations → ∀ d ∈ op.conversations,
        ¬ d.conversationId = c.conversationId → ¬ d.rideId = c.rideId)
    (hccr : c ∈ cr.conversations → ∀ d ∈ op.conversations, d.rideId = c.rideId →
        isActiveRef d.status = false)
    (hcop : c ∈ op.conversations → ∀ d ∈ cr.conversations, d.rideId = c.rideId →
        isActiveRef d.status = false)
    (hT : findRide s c.rideId = some t)
    (mref : ConvRef) (hmref : findConvRef t c.conversationId = some mref)
    (hmact : isActiveRef mref.status = true) :
    findRide (stage2Apply s cr op c0) c.rideId
      = some (cascadeCounterpartUpdate t c.conversationId) := by
  simp only [stage2Apply, processOtherPending_fst, processOtherPending_snd]
  refine Eq.trans (saveChain_frame _ _ _ c.rideId hncr hnop) ?_
  cases hcmem with
  | inl hcr =>
    have hhit : findRide
        (cascadeStore c0 (setFirstRefStatus cr.conversations c0 RefStatus.confirmed) s)
        c.rideId = some (cascadeCounterpartUpdate t c.conversationId) := by
      apply cascadeStore_hit c0 _ s c t
        (mem_setFirst_of_ne _ _ _ c hcr hc0)
        (by rw [setFirst_map_convId]; exact hndcr)
        (setFirst_uniq_of_uniq _ _ _ c (hucr hcr))
        hc0 hact hT mref hmref hmact
    have hfw : ∀ e ∈ setFirstRefStatus op.conversations c0 RefStatus.confirmed,
        ¬ c.rideId = e.rideId ∨ e.conversationId = c0
          ∨ isActiveRef e.status = false := by
      intro e he
      rcases setFirst_mem_strong op.conversations c0 RefStatus.confirmed e he with
        hel | ⟨y, hy, hyc, hey⟩
      · by_cases hre : e.rideId = c.rideId
        · exact Or.inr (Or.inr (hccr hcr e hel hre))
        · exact Or.inl (fun h2 => hre h2.symm)
      · refine Or.inr (Or.inr ?_)
        rw [hey]
        rfl
    rw [cascadeStore_frame_weak c0 _ _ c.rideId hfw]
    exact hhit
  | inr hop =>
    have hfr : findRide
        (cascadeStore c0 (setFirstRefStatus cr.conversations c0 RefStatus.confirmed) s)
        c.rideId = findRide s c.rideId := by
      apply cascadeStore_frame_weak
      intro e he
      rcases setFirst_mem_strong cr.conversations c0 RefStatus.confirmed e he with
        hel | ⟨y, hy, hyc, hey⟩
      · by_cases hre : e.rideId = c.rideId
        · exact Or.inr (Or.inr (hcop hop e hel hre))
        · exact Or.inl (fun h2 => hre h2.symm)
      · refine Or.inr (Or.inr ?_)
        rw [hey]
        rfl
    apply cascadeStore_hit c0 _ _ c t
      (mem_setFirst_of_ne _ _ _ c hop hc0)
      (by rw [setFirst_map_convId]; exact hndop)
      (setFirst_uniq_of_uniq _ _ _ c (huop hop))
      hc0 hact (by rw [hfr]; exact hT) mref hmref hmact

theorem stage2_third_party_double (s : St) (cr op : Ride) (c0 : Nat)
    (cA cB : ConvRef) (t : Ride)
    (hmemA : cA ∈ cr.conversations) (hmemB : cB ∈ op.conversations)
    (hBA : cB.rideId = cA.rideId)
    (hABcid : ¬ cB.conversationId = cA.conversationId)
    (hA0 : ¬ cA.conversationId = c0) (hB0 : ¬ cB.conversationId = c0)
    (hactA : isActiveRef cA.status = true) (hactB : isActiveRef cB.status = true)
    (hncr : ¬ cA.rideId = cr.rid) (hnop : ¬ cA.rideId = op.rid)
    (hndcr : (cr.conversations.map (fun x => x.conversationId)).Nodup)
    (hndop : (op.conversations.map (fun x => x.conversationId)).Nodup)
    (hucr : ∀ d ∈ cr.conversations, ¬ d.conversationId = cA.conversationId →
        ¬ d.rideId = cA.rideId)
    (huop : ∀ d ∈ op.conversations, ¬ d.conversationId = cB.conversationId →
        ¬ d.rideId = cB.rideId)
    (hT : findRide s cA.rideId = some t)
    (mA : ConvRef) (hmA : findConvRef t cA.conversationId = some mA)
    (hmactA : isActiveRef mA.status = true)
    (mB : ConvRef) (hmB : findConvRef t cB.conversationId = some mB)
    (hmactB : isActiveRef mB.status = true) :
    findRide (stage2Apply s cr op c0) cA.rideId
      = some (cascadeCounterpartUpdate
          (cascadeCounterpartUpdate t cA.conversationId) cB.conversationId) := by
  simp only [stage2Apply, processOtherPending_fst, processOtherPending_snd]
  refine Eq.trans (saveChain_frame _ _ _ cA.rideId hncr hnop) ?_
  have hhit1 : findRide
      (cascadeStore c0 (setFirstRefStatus cr.conversations c0 RefStatus.confirmed) s)
      cA.rideId = some (cascadeCounterpartUpdate t cA.conversationId) := by
    apply cascadeStore_hit c0 _ s cA t
      (mem_setFirst_of_ne _ _ _ cA hmemA hA0)
      (by rw [setFirst_map_convId]; exact hndcr)
      (setFirst_uniq_of_uniq _ _ _ cA hucr)
      hA0 hactA hT mA hmA hmactA
  have hT1 : findRide
      (cascadeStore c0 (setFirstRefStatus cr.conversations c0 RefStatus.confirmed) s)
      cB.rideId = some (cascadeCounterpartUpdate t cA.conversationId) := by
    rw [hBA]
    exact hhit1
  have hmB1 : findConvRef (cascadeCounterpartUpdate t cA.conversationId)
      cB.conversationId = some mB := by
    show findConvRefL (cascadeCounterpartUpdate t cA.conversationId).conversations
      cB.conversationId = some mB
    rw [cascadeCounterpartUpdate_conversations]
    rw [findConvRefL_setFirst_ne _ _ _ _ hABcid]
    exact hmB
  have hhit2 := cascadeStore_hit c0
    (setFirstRefStatus op.conversations c0 RefStatus.confirmed)
    (cascadeStore c0 (setFirstRefStatus cr.conversations c0 RefStatus.confirmed) s)
    cB (cascadeCounterpartUpdate t cA.conversationId)
    (mem_setFirst_of_ne _ _ _ cB hmemB hB0)
    (by rw [setFirst_map_convId]; exact hndop)
    (setFirst_uniq_of_uniq _ _ _ cB huop)
    hB0 hactB hT1 mB hmB1 hmactB
  rw [← hBA]
  exact hhit2

/-- C2: when a confirm call reaches Phase 2 (mutual confirmation), the
cascade in `processOtherPending` (conversationController.js lines 328-365)
declines every other still-active ref on both confirming rides.  For a
third ride mirroring such a ref with an active ref of its own, the mirror
ends `declined` and the ride ends `Available` once no active ref remains
(and it was not already Confirmed) — proved both when only one confirming
ride is actively paired with the third ride and when both are, the two
cascades then hitting the same counterpart document in sequence. -/
theorem c2_cascade_correctness (s : St) (u c0 : Nat) (conv : Conversation)
    (rideA rideB cr op : Ride) (refC refO : ConvRef)
    (hconv : findConv s c0 = some conv)
    (hA : findRide s conv.rideRequestA = some rideA)
    (hB : findRide s conv.rideRequestB = some rideB)
    (hres : confirmerOf rideA rideB u = some (cr, op))
    (hcrS : ¬ cr.status = RideStatus.Confirmed)
    (hopS : ¬ op.status = RideStatus.Confirmed)
    (hrefC : findConvRef cr c0 = some refC)
    (hrefO : findConvRef op c0 = some refO)
    (hne : ¬ cr.rid = op.rid)
    (hinv : noConfirmedRefUnlessConfirmed cr = true)
    (hph : refO.status = RefStatus.awaitingConfirmation)
    (hndcr : (cr.conversations.map (fun x => x.conversationId)).Nodup)
    (hndop : (op.conversations.map (fun x => x.conversationId)).Nodup) :
    ((∀ d ∈ cr.conversations, ¬ d.conversationId = c0 → isActiveRef d.status = true →
        refStatusIn (confirmRun s u c0) cr.rid d.conversationId
          = some RefStatus.declined)
      ∧ (∀ d ∈ op.conversations, ¬ d.conversationId = c0 → isActiveRef d.status = true →
        refStatusIn (confirmRun s u c0) op.rid d.conversationId
          = some RefStatus.declined))
    ∧ (∀ c, (c ∈ cr.conversations ∨ c ∈ op.conversations) →
        ¬ c.conversationId = c0 → isActiveRef c.status = true →
        ¬ c.rideId = cr.rid → ¬ c.rideId = op.rid →
        (c ∈ cr.conversations → ∀ d ∈ cr.conversations,
            ¬ d.conversationId = c.conversationId → ¬ d.rideId = c.rideId) →
        (c ∈ op.conversations → ∀ d ∈ op.conversations,
            ¬ d.conversationId = c.conversationId → ¬ d.rideId = c.rideId) →
        (c ∈ cr.conversations → ∀ d ∈ op.conversations, d.rideId = c.rideId →
            isActiveRef d.status = false) →
        (c ∈ op.conversations → ∀ d ∈ cr.conversations, d.rideId = c.rideId →
            isActiveRef d.status = false) →
        ∀ t, findRide s c.rideId = some t →
        ∀ mref, findConvRef t c.conversationId = some mref →
        isActiveRef mref.status = true →
        refStatusIn (confirmRun s u c0) c.rideId c.conversationId
          = some RefStatus.declined
        ∧ ((t.conversations.map (fun x => x.conversationId)).Nodup →
            (∀ x ∈ t.conversations, ¬ x.conversationId = c.conversationId →
              isActiveRef x.status = false) →
            ¬ t.status = RideStatus.Confirmed →
            rideStatusIn (confirmRun s u c0) c.rideId = some RideStatus.Available))
    ∧ (∀ cA cB, cA ∈ cr.conversations → cB ∈ op.conversations →
        cB.rideId = cA.rideId → ¬ cB.conversationId = cA.conversationId →
        ¬ cA.conversationId = c0 → ¬ cB.conversationId = c0 →
        isActiveRef cA.status = true → isActiveRef cB.status = true →
        ¬ cA.rideId = cr.rid → ¬ cA.rideId = op.rid →
        (∀ d ∈ cr.conversations, ¬ d.conversationId = cA.conversationId →
            ¬ d.rideId = cA.rideId) →
        (∀ d ∈ op.conversations, ¬ d.conversationId = cB.conversationId →
            ¬ d.rideId = cB.rideId) →
        ∀ t, findRide s cA.rideId = some t →
        (t.conversations.map (fun x => x.conversationId)).Nodup →
        ∀ mA, findConvRef t cA.conversationId = some mA →
        isActiveRef mA.status = true →
        ∀ mB, findConvRef t cB.conversationId = some mB →
        isActiveRef mB.status = true →
        refStatusIn (confirmRun s u c0) cA.rideId cA.conversationId
          = some RefStatus.declined
        ∧ refStatusIn (confirmRun s u c0) cA.rideId cB.conversationId
          = some RefStatus.declined
        ∧ ((∀ x ∈ t.conversations, ¬ x.conversationId = cA.conversationId →
              ¬ x.conversationId = cB.conversationId →
              isActiveRef x.status = false) →
            ¬ t.status = RideStatus.Confirmed →
            rideStatusIn (confirmRun s u c0) cA.rideId
              = some RideStatus.Available)) := by
  have hnc : ¬ refC.status = RefStatus.confirmed :=
    not_confirmed_ref_of_inv hinv hcrS hrefC
  have hcrFind : findRide s cr.rid = some cr := by
    rcases confirmerOf_inv rideA rideB u cr op hres with ⟨_, hcr, _⟩ | ⟨_, _, hcr, _⟩
    · rw [hcr, findRide_rid hA]
      exact hA
    · rw [hcr, findRide_rid hB]
      exact hB
  have hopFind : findRide s op.rid = some op := by
    rcases confirmerOf_inv rideA rideB u cr op hres with ⟨_, _, hop⟩ | ⟨_, _, _, hop⟩
    · rw [hop, findRide_rid hB]
      exact hB
    · rw [hop, findRide_rid hA]
      exact hA
  have heq := confirm_stage2_eq s u c0 conv rideA rideB cr op refC refO
    hconv hA hB hres hcrS hopS hrefC hrefO hnc hph
  have hrun : confirmRun s u c0 = stage2Apply s cr op c0 := by
    unfold confirmRun
    rw [heq]
  have h1 := stage2_findRide_cr s cr op c0 hne (by rw [hcrFind]; rfl)
  have h2 := stage2_findRide_op s cr op c0 (by rw [hopFind]; rfl)
  refine ⟨⟨?_, ?_⟩, ?_, ?_⟩
  · intro d hd hdc0 hdact
    rw [hrun]
    unfold refStatusIn
    rw [h1]
    simp only [Option.some_bind]
    unfold stage2RideDoc findConvRef
    dsimp only
    rw [findConvRefL_map_cascade]
    rw [findConvRefL_setFirst_ne _ _ _ _ hdc0]
    rw [findConvRefL_of_mem_nodup cr.conversations d hndcr hd]
    show some (cascadeRefMap c0 d).status = some RefStatus.declined
    rw [cascadeRefMap_active c0 d hdc0 hdact]
  · intro d hd hdc0 hdact
    rw [hrun]
    unfold refStatusIn
    rw [h2]
    simp only [Option.some_bind]
    unfold stage2RideDoc findConvRef
    dsimp only
    rw [findConvRefL_map_cascade]
    rw [findConvRefL_setFirst_ne _ _ _ _ hdc0]
    rw [findConvRefL_of_mem_nodup op.conversations d hndop hd]
    show some (cascadeRefMap c0 d).status = some RefStatus.declined
    rw [cascadeRefMap_active c0 d hdc0 hdact]
  · intro c hcmem hc0 hact hncr hnop hucr huop hccr hcop t hT mref hmref hmact
    have hthird := stage2_third_party s cr op c0 c t hcmem hc0 hact hncr hnop
      hndcr hndop hucr huop hccr hcop hT mref hmref hmact
    constructor
    · rw [hrun]
      unfold refStatusIn
      rw [hthird]
      simp only [Option.some_bind]
      rw [ccu_ref_declined t c.conversationId mref hmref]
      rfl
    · intro hndt hno hTs
      rw [hrun]
      unfold rideStatusIn
      rw [hthird]
      show some (cascadeCounterpartUpdate t c.conversationId).status
        = some RideStatus.Available
      rw [ccu_status_available t c.conversationId hndt hno hTs]
  · intro cA cB hmemA hmemB hBA hABcid hA0 hB0 hactA hactB hncrA hnopA hucr2 huop2
      t hT hndt mA hmA hmactA mB hmB hmactB
    have hD := stage2_third_party_double s cr op c0 cA cB t hmemA hmemB hBA hABcid
      hA0 hB0 hactA hactB hncrA hnopA hndcr hndop hucr2 huop2 hT mA hmA hmactA
      mB hmB hmactB
    refine ⟨?_, ?_, ?_⟩
    · rw [hrun]
      unfold refStatusIn
      rw [hD]
      simp only [Option.some_bind]
      show (findConvRefL
          (cascadeCounterpartUpdate
            (cascadeCounterpartUpdate t cA.conversationId)
            cB.conversationId).conversations cA.conversationId).map
          (fun x => x.status) = some RefStatus.declined
      rw [cascadeCounterpartUpdate_conversations]
      have hAB2 : ¬ cA.conversationId = cB.conversationId := fun he => hABcid he.symm
      rw [findConvRefL_setFirst_ne _ _ _ _ hAB2]
      rw [cascadeCounterpartUpdate_conversations]
      rw [findConvRefL_setFirst_self _ _ _ _
        (show findConvRefL t.conversations cA.conversationId = some mA from hmA)]
      rfl
    · rw [hrun]
      unfold refStatusIn
      rw [hD]
      simp only [Option.some_bind]
      have hmB1 : findConvRef (cascadeCounterpartUpdate t cA.conversationId)
          cB.conversationId = some mB := by
        show findConvRefL
          (cascadeCounterpartUpdate t cA.conversationId).conversations
          cB.conversationId = some mB
        rw [cascadeCounterpartUpdate_conversations]
        rw [findConvRefL_setFirst_ne _ _ _ _ hABcid]
        exact hmB
      rw [ccu_ref_declined _ cB.conversationId mB hmB1]
      rfl
    · intro hnoPair hTs
      rw [hrun]
      unfold rideStatusIn
      rw [hD]
      show some (cascadeCounterpartUpdate
          (cascadeCounterpartUpdate t cA.conversationId)
          cB.conversationId).status = some RideStatus.Available
      have hnd1 : ((cascadeCounterpartUpdate t cA.conversationId).conversations.map
          (fun x => x.conversationId)).Nodup := by
        rw [cascadeCounterpartUpdate_conversations, setFirst_map_convId]
        exact hndt
      have hno1 : ∀ x ∈ (cascadeCounterpartUpdate t cA.conversationId).conversations,
          ¬ x.conversationId = cB.conversationId → isActiveRef x.status = false := by
        rw [cascadeCounterpartUpdate_conversations]
        exact setFirst_declined_no_active_outside t.conversations cA.conversationId
          cB.conversationId hndt hnoPair
      have hT1s : ¬ (cascadeCounterpartUpdate t cA.conversationId).status
          = RideStatus.Confirmed := by
        rcases ccu_status_cases t cA.conversationId with h | h
        · rw [h]
          exact hTs
        · rw [h]
          intro he
          exact RideStatus.noConfusion he
      rw [ccu_status_available _ cB.conversationId hnd1 hno1 hT1s]

/-- Witness for C2 at two concrete states.  At `sCascade` (single pairing
with ride 3) user 2 confirms conversation 10 and the cascade declines
conversation 11 on both sides, demoting ride 3.  At `sTriangle` (both
confirming rides hold pending pairings with ride 3) the same call declines
the other refs on both confirming rides and both of ride 3's mirrors
(conversations 12 and 11), and ride 3 ends `Available`. -/
theorem c2_cascade_correctness_witness :
    (refStatusIn (confirmRun sCascade 2 10) 1 11 = some RefStatus.declined
      ∧ refStatusIn (confirmRun sCascade 2 10) 3 11 = some RefStatus.declined
      ∧ rideStatusIn (confirmRun sCascade 2 10) 3 = some RideStatus.Available)
    ∧ (refStatusIn (confirmRun sTriangle 2 10) 2 12 = some RefStatus.declined
      ∧ refStatusIn (confirmRun sTriangle 2 10) 1 11 = some RefStatus.declined
      ∧ refStatusIn (confirmRun sTriangle 2 10) 3 12 = some RefStatus.declined
      ∧ refStatusIn (confirmRun sTriangle 2 10) 3 11 = some RefStatus.declined
      ∧ rideStatusIn (confirmRun sTriangle 2 10) 3 = some RideStatus.Available) := by
  have h := c2_cascade_correctness sCascade 2 10 ⟨10, 1, 2, [], 100⟩
    (exRide 1 1 0 .Pending [⟨2, .awaitingConfirmation, 10⟩, ⟨3, .pending, 11⟩])
    (exRide 2 2 0 .Pending [⟨1, .pending, 10⟩])
    (exRide 2 2 0 .Pending [⟨1, .pending, 10⟩])
    (exRide 1 1 0 .Pending [⟨2, .awaitingConfirmation, 10⟩, ⟨3, .pending, 11⟩])
    ⟨1, .pending, 10⟩ ⟨2, .awaitingConfirmation, 10⟩
    rfl rfl rfl rfl (by decide) (by decide) rfl rfl (by decide) (by decide) rfl
    (by decide) (by decide)
  have h3 := h.2.1 ⟨3, .pending, 11⟩ (Or.inr (by decide)) (by decide) (by decide)
    (by decide) (by decide) (by decide) (by decide) (by decide) (by decide)
    (exRide 3 3 0 .Pending [⟨1, .pending, 11⟩]) rfl ⟨1, .pending, 11⟩ rfl (by decide)
  have g := c2_cascade_correctness sTriangle 2 10 ⟨10, 1, 2, [], 100⟩
    (exRide 1 1 0 .Pending [⟨2, .awaitingConfirmation, 10⟩, ⟨3, .pending, 11⟩])
    (exRide 2 2 0 .Pending [⟨1, .pending, 10⟩, ⟨3, .pending, 12⟩])
    (exRide 2 2 0 .Pending [⟨1, .pending, 10⟩, ⟨3, .pending, 12⟩])
    (exRide 1 1 0 .Pending [⟨2, .awaitingConfirmation, 10⟩, ⟨3, .pending, 11⟩])
    ⟨1, .pending, 10⟩ ⟨2, .awaitingConfirmation, 10⟩
    rfl rfl rfl rfl (by decide) (by decide) rfl rfl (by decide) (by decide) rfl
    (by decide) (by decide)
  have g3 := g.2.2 ⟨3, .pending, 12⟩ ⟨3, .pending, 11⟩ (by decide) (by decide)
    (by decide) (by decide) (by decide) (by decide) (by decide) (by decide)
    (by decide) (by decide) (by decide) (by decide)
    (exRide 3 3 0 .Pending [⟨1, .pending, 11⟩, ⟨2, .pending, 12⟩]) rfl (by decide)
    ⟨2, .pending, 12⟩ rfl (by decide) ⟨1, .pending, 11⟩ rfl (by decide)
  exact ⟨⟨h.1.2 ⟨3, .pending, 11⟩ (by decide) (by decide) (by decide), h3.1,
      h3.2 (by decide) (by decide) (by decide)⟩,
    g.1.1 ⟨3, .pending, 12⟩ (by decide) (by decide) (by decide),
    g.1.2 ⟨3, .pending, 11⟩ (by decide) (by decide) (by decide),
    g3.1, g3.2.1, g3.2.2 (by decide) (by decide)⟩

theorem findConvRefL_append_of_some (l : List ConvRef) (x : ConvRef) (cid : Nat)
    (c : ConvRef) (h : findConvRefL l cid = some c) :
    findConvRefL (l ++ [x]) cid = some c := by
  induction l with
  | nil => exact Option.noConfusion h
  | cons a l ih =>
    unfold findConvRefL at h ⊢
    rw [List.cons_append]
    rw [List.find?_cons] at h
    rw [List.find?_cons]
    cases hpa : (a.conversationId == cid) with
    | true =>
      simp only [hpa] at h
      dsimp only
      exact h
    | false =>
      simp only [hpa] at h
      dsimp only
      exact ih h

theorem cascadeRefMap_terminal (m : Nat) (c : ConvRef)
    (h : isActiveRef c.status = false) : cascadeRefMap m c = c := by
  unfold cascadeRefMap
  cases hst : c.status with
  | pending => rw [hst] at h; exact Bool.noConfusion h
  | awaitingConfirmation => rw [hst] at h; exact Bool.noConfusion h
  | confirmed =>
    have hcond : (c.conversationId == m || RefStatus.confirmed == RefStatus.confirmed
        || RefStatus.confirmed == RefStatus.declined) = true := by simp
    simp only [hcond, if_true]
  | declined =>
    have hcond : (c.conversationId == m || RefStatus.declined == RefStatus.confirmed
        || RefStatus.declined == RefStatus.declined) = true := by simp
    simp only [hcond, if_true]

theorem demoteIfNoActive_conversations (r : Ride) :
    (demoteIfNoActive r).conversations = r.conversations := by
  unfold demoteIfNoActive
  split <;> rfl

theorem demoteIfNoActive_rid (r : Ride) : (demoteIfNoActive r).rid = r.rid := by
  unfold demoteIfNoActive
  split <;> rfl

theorem declineRefIfActive_rid (r : Ride) (c0 : Nat) :
    (declineRefIfActive r c0).rid = r.rid := by
  unfold declineRefIfActive
  cases h : findConvRef r c0 with
  | none => rfl
  | some c =>
    dsimp only
    split <;> rfl

theorem declineRefIfActive_preserves (r : Ride) (c0 cid : Nat) (c : ConvRef)
    (hc : findConvRefL r.conversations cid = some c)
    (hterm : isActiveRef c.status = false) :
    findConvRefL (declineRefIfActive r c0).conversations cid = some c := by
  unfold declineRefIfActive
  cases h : findConvRef r c0 with
  | none => exact hc
  | some c1 =>
    dsimp only
    cases ha : isActiveRef c1.status with
    | false => simp only [Bool.false_eq_true, if_false]; exact hc
    | true =>
      simp only [if_true]
      by_cases hcc : cid = c0
      · rw [hcc] at hc
        have h2 : findConvRefL r.conversations c0 = some c1 := h
        rw [hc] at h2
        have hceq : c = c1 := Option.some.inj h2
        rw [hceq] at hterm
        rw [hterm] at ha
        exact Bool.noConfusion ha
      · show findConvRefL (setFirstRefStatus r.conversations c0 RefStatus.declined) cid
          = some c
        rw [findConvRefL_setFirst_ne _ _ _ _ hcc]
        exact hc

theorem mc_of_conv (s : St) (c0 : Nat) (conv : Conversation) (rA rB : Ride)
    (ra rb : ConvRef)
    (hmc : mcCheck s = true)
    (hconv : findConv s c0 = some conv)
    (hA : findRide s conv.rideRequestA = some rA)
    (hB : findRide s conv.rideRequestB = some rB)
    (hra : findConvRef rA c0 = some ra)
    (hrb : findConvRef rB c0 = some rb) :
    pairOK ra.status rb.status = true := by
  have hmem : conv ∈ s.convs := List.mem_of_find?_eq_some hconv
  have hp := List.all_eq_true.mp hmc conv hmem
  rw [hA, hB] at hp
  dsimp only at hp
  rw [findConv_cid hconv] at hp
  rw [hra, hrb] at hp
  exact hp

theorem initiate_ok_shape (s : St) (a b n : Nat) (s1 : St)
    (hok : initiateTxn s a b n = .ok s1) :
    ∃ irid iride tride,
      ¬ irid = b
      ∧ findRide s irid = some iride
      ∧ findRide s b = some tride
      ∧ s1 = saveRide (saveRide
          { s with convs := s.convs ++
              [{ cid := n, rideRequestA := irid, rideRequestB := b, messages := [],
                 expiresAt := (if iride.departureTime < tride.departureTime
                     then iride.departureTime else tride.departureTime)
                   + conversationExpiryBufferMillis }] }
          { iride with
              status := if iride.status == RideStatus.Available then RideStatus.Pending
                        else iride.status,
              conversations := iride.conversations ++
                [{ rideId := b, status := RefStatus.pending, conversationId := n }] })
          { tride with
              status := if tride.status == RideStatus.Available then RideStatus.Pending
                        else tride.status,
              conversations := tride.conversations ++
                [{ rideId := irid, status := RefStatus.pending, conversationId := n }] } := by
  unfold initiateTxn at hok
  cases hu : findUser s a with
  | none => rw [hu] at hok; exact Except.noConfusion hok
  | some user =>
    rw [hu] at hok
    dsimp only at hok
    cases hcur : user.currentRideRequest with
    | none => rw [hcur] at hok; exact Except.noConfusion hok
    | some irid =>
      rw [hcur] at hok
      dsimp only at hok
      cases hb : (irid == b) with
      | true =>
        simp only [hb, if_true] at hok
        exact Except.noConfusion hok
      | false =>
        simp only [hb, Bool.false_eq_true, if_false] at hok
        cases hir : findRide s irid with
        | none =>
          rw [hir] at hok
          cases htr : findRide s b with
          | none => rw [htr] at hok; exact Except.noConfusion hok
          | some tride => rw [htr] at hok; exact Except.noConfusion hok
        | some iride =>
          rw [hir] at hok
          cases htr : findRide s b with
          | none => rw [htr] at hok; exact Except.noConfusion hok
          | some tride =>
            rw [htr] at hok
            dsimp only at hok
            cases hc1 : (iride.status == RideStatus.Confirmed) with
            | true =>
              simp only [hc1, if_true] at hok
              exact Except.noConfusion hok
            | false =>
              simp only [hc1, Bool.false_eq_true, if_false] at hok
              cases hc2 : (tride.status == RideStatus.Confirmed) with
              | true =>
                simp only [hc2, if_true] at hok
                exact Except.noConfusion hok
              | false =>
                simp only [hc2, Bool.false_eq_true, if_false] at hok
                cases hdup : (s.convs.any (fun c =>
                    (c.rideRequestA == irid && c.rideRequestB == b) ||
                    (c.rideRequestA == b && c.rideRequestB == irid))) with
                | true =>
                  simp only [hdup, if_true] at hok
                  exact Except.noConfusion hok
                | false =>
                  simp only [hdup, Bool.false_eq_true, if_false] at hok
                  exact ⟨irid, iride, tride, beq_eq_false_iff_ne.mp hb, hir, rfl,
                    (Except.ok.inj hok).symm⟩

theorem decline_ok_shape (s : St) (u c0 : Nat) (s1 : St)
    (hok : declineTxn s u c0 = .ok s1) :
    ∃ conv rideA rideB,
      findConv s c0 = some conv
      ∧ findRide s conv.rideRequestA = some rideA
      ∧ findRide s conv.rideRequestB = some rideB
      ∧ s1 = saveRide (saveRide s (demoteIfNoActive (declineRefIfActive rideA c0)))
          (demoteIfNoActive (declineRefIfActive rideB c0)) := by
  unfold declineTxn at hok
  cases hconv : findConv s c0 with
  | none => rw [hconv] at hok; exact Except.noConfusion hok
  | some conv =>
    rw [hconv] at hok
    dsimp only at hok
    cases hA : findRide s conv.rideRequestA with
    | none =>
      rw [hA] at hok
      cases hB : findRide s conv.rideRequestB with
      | none => rw [hB] at hok; exact Except.noConfusion hok
      | some rideB => rw [hB] at hok; exact Except.noConfusion hok
    | some rideA =>
      rw [hA] at hok
      cases hB : findRide s conv.rideRequestB with
      | none => rw [hB] at hok; exact Except.noConfusion hok
      | some rideB =>
        rw [hB] at hok
        dsimp only at hok
        cases hauth : (!(rideA.userId == u) && !(rideB.userId == u)) with
        | true =>
          simp only [hauth, if_true] at hok
          exact Except.noConfusion hok
        | false =>
          simp only [hauth, Bool.false_eq_true, if_false] at hok
          cases hcf : (rideA.status == RideStatus.Confirmed
              || rideB.status == RideStatus.Confirmed) with
          | true =>
            simp only [hcf, if_true] at hok
            exact Except.noConfusion hok
          | false =>
            simp only [hcf, Bool.false_eq_true, if_false] at hok
            exact ⟨conv, rideA, rideB, rfl, hA, hB, (Except.ok.inj hok).symm⟩

theorem delete_ok_shape (s : St) (u : Nat) (s2 : St)
    (hok : deleteRideRequest s u = .ok s2) :
    ∃ user rid ride,
      findUser s u = some user
      ∧ user.currentRideRequest = some rid
      ∧ findRide s rid = some ride
      ∧ s2 = removeRide (unlinkUserRide (deleteStore ride.conversations s) u) rid := by
  unfold deleteRideRequest at hok
  cases hu : findUser s u with
  | none =>
    unfold deleteRideTxn at hok
    rw [hu] at hok
    exact Except.noConfusion hok
  | some user =>
    cases hcur : user.currentRideRequest with
    | none =>
      unfold deleteRideTxn at hok
      rw [hu] at hok
      dsimp only at hok
      rw [hcur] at hok
      exact Except.noConfusion hok
    | some rid =>
      cases hr : findRide s rid with
      | none =>
        unfold deleteRideTxn at hok
        rw [hu] at hok
        dsimp only at hok
        rw [hcur] at hok
        dsimp only at hok
        rw [hr] at hok
        exact Except.noConfusion hok
      | some ride =>
        rw [deleteRideTxn_eq s u user rid ride hu hcur hr] at hok
        dsimp only at hok
        exact ⟨user, rid, ride, rfl, hcur, hr, (Except.ok.inj hok).symm⟩

theorem refStatusIn_elim (s : St) (i cid : Nat) (st0 : RefStatus)
    (h0 : refStatusIn s i cid = some st0) :
    ∃ r c, findRide s i = some r ∧ findConvRefL r.conversations cid = some c
      ∧ c.status = st0 := by
  unfold refStatusIn at h0
  cases hr : findRide s i with
  | none => rw [hr] at h0; exact Option.noConfusion h0
  | some r =>
    rw [hr] at h0
    simp only [Option.some_bind] at h0
    cases hc : findConvRef r cid with
    | none => rw [hc] at h0; exact Option.noConfusion h0
    | some c =>
      rw [hc] at h0
      exact ⟨r, c, rfl, hc, Option.some.inj h0⟩

theorem refStatusIn_intro (s : St) (i cid : Nat) (r : Ride) (c : ConvRef)
    (hr : findRide s i = some r) (hc : findConvRefL r.conversations cid = some c) :
    refStatusIn s i cid = some c.status := by
  unfold refStatusIn findConvRef
  rw [hr]
  simp only [Option.some_bind]
  rw [hc]
  rfl

theorem pairOK_symm (a b : RefStatus) : pairOK a b = pairOK b a := by
  unfold pairOK
  rw [Bool.or_comm]

theorem initiateRun_preserves_ref (s : St) (a b n i cid : Nat) (st0 : RefStatus)
    (h0 : refStatusIn s i cid = some st0) :
    refStatusIn (initiateRun s a b n) i cid = some st0 := by
  unfold initiateRun
  cases hok : initiateTxn s a b n with
  | error e => exact h0
  | ok s1 =>
    dsimp only
    obtain ⟨irid, iride, tride, hib, hir, htr, hs1⟩ := initiate_ok_shape s a b n s1 hok
    subst hs1
    obtain ⟨r, c, hr, hc, hcst⟩ := refStatusIn_elim s i cid st0 h0
    subst hcst
    by_cases hib2 : i = b
    · have hrt : r = tride := by
        rw [hib2] at hr
        exact Option.some.inj (hr.symm.trans htr)
      subst hrt
      have h1 : i = ({ r with
          status := if r.status == RideStatus.Available then RideStatus.Pending
                    else r.status,
          conversations := r.conversations ++
            [{ rideId := irid, status := RefStatus.pending, conversationId := n }] }
          : Ride).rid := (findRide_rid hr).symm
      refine refStatusIn_intro _ i cid
        ({ r with
            status := if r.status == RideStatus.Available then RideStatus.Pending
                      else r.status,
            conversations := r.conversations ++
              [{ rideId := irid, status := RefStatus.pending, conversationId := n }] })
        c ?_ ?_
      · rw [h1]
        apply saveChain_snd
        rw [← h1]
        show (findRide s i).isSome
        rw [hr]
        rfl
      · exact findConvRefL_append_of_some _ _ _ _ hc
    · by_cases hii : i = irid
      · have hri : r = iride := by
          rw [hii] at hr
          exact Option.some.inj (hr.symm.trans hir)
        subst hri
        have hne2 : ¬ r.rid = tride.rid := by
          rw [findRide_rid hir, findRide_rid htr]
          exact hib
        have h1 : i = ({ r with
            status := if r.status == RideStatus.Available then RideStatus.Pending
                      else r.status,
            conversations := r.conversations ++
              [{ rideId := b, status := RefStatus.pending, conversationId := n }] }
            : Ride).rid := (findRide_rid hr).symm
        refine refStatusIn_intro _ i cid
          ({ r with
              status := if r.status == RideStatus.Available then RideStatus.Pending
                        else r.status,
              conversations := r.conversations ++
                [{ rideId := b, status := RefStatus.pending, conversationId := n }] })
          c ?_ ?_
        · rw [h1]
          refine saveChain_fst _ _ _ ?_ ?_
          · exact hne2
          · rw [← h1]
            show (findRide s i).isSome
            rw [hr]
            rfl
        · exact findConvRefL_append_of_some _ _ _ _ hc
      · have hni : ¬ i = iride.rid := fun he => hii (he.trans (findRide_rid hir))
        have hnb : ¬ i = tride.rid := fun he => hib2 (he.trans (findRide_rid htr))
        refine Eq.trans (refStatusIn_congr i cid
          (Eq.trans (saveChain_frame _ _ _ i hni hnb) rfl))
          (refStatusIn_intro s i cid r c hr hc)

theorem declineRun_preserves_terminal (s : St) (u c0 i cid : Nat) (st0 : RefStatus)
    (hst : st0 = RefStatus.declined ∨ st0 = RefStatus.confirmed)
    (h0 : refStatusIn s i cid = some st0) :
    refStatusIn (declineRun s u c0) i cid = some st0 := by
  unfold declineRun
  cases hok : declineTxn s u c0 with
  | error e => exact h0
  | ok s1 =>
    dsimp only
    obtain ⟨conv, rideA, rideB, hconv, hA, hB, hs1⟩ := decline_ok_shape s u c0 s1 hok
    subst hs1
    obtain ⟨r, c, hr, hc, hcst⟩ := refStatusIn_elim s i cid st0 h0
    subst hcst
    have hterm : isActiveRef c.status = false := isActiveRef_of_terminal hst
    by_cases hiB : i = rideB.rid
    · have hrB : r = rideB := by
        rw [hiB, findRide_rid hB] at hr
        exact Option.some.inj (hr.symm.trans hB)
      subst hrB
      refine refStatusIn_intro _ i cid (demoteIfNoActive (declineRefIfActive r c0)) c ?_ ?_
      · have h1 : i = (demoteIfNoActive (declineRefIfActive r c0)).rid := by
          rw [demoteIfNoActive_rid, declineRefIfActive_rid]
          exact hiB
        rw [h1]
        apply saveChain_snd
        rw [← h1]
        show (findRide s i).isSome
        rw [hr]
        rfl
      · rw [demoteIfNoActive_conversations]
        exact declineRefIfActive_preserves r c0 cid c hc hterm
    · by_cases hiA : i = rideA.rid
      · have hrA : r = rideA := by
          rw [hiA, findRide_rid hA] at hr
          exact Option.some.inj (hr.symm.trans hA)
        subst hrA
        have hne2 : ¬ (demoteIfNoActive (declineRefIfActive r c0)).rid
            = (demoteIfNoActive (declineRefIfActive rideB c0)).rid := by
          rw [demoteIfNoActive_rid, declineRefIfActive_rid,
            demoteIfNoActive_rid, declineRefIfActive_rid]
          intro he
          rw [← hiA] at he
          exact hiB he
        refine refStatusIn_intro _ i cid
          (demoteIfNoActive (declineRefIfActive r c0)) c ?_ ?_
        · have h1 : i = (demoteIfNoActive (declineRefIfActive r c0)).rid := by
            rw [demoteIfNoActive_rid, declineRefIfActive_rid]
            exact hiA
          rw [h1]
          refine saveChain_fst _ _ _ hne2 ?_
          rw [← h1]
          show (findRide s i).isSome
          rw [hr]
          rfl
        · rw [demoteIfNoActive_conversations]
          exact declineRefIfActive_preserves r c0 cid c hc hterm
      · have hni : ¬ i = (demoteIfNoActive (declineRefIfActive rideA c0)).rid := by
          rw [demoteIfNoActive_rid, declineRefIfActive_rid]
          exact hiA
        have hnb : ¬ i = (demoteIfNoActive (declineRefIfActive rideB c0)).rid := by
          rw [demoteIfNoActive_rid, declineRefIfActive_rid]
          exact hiB
        refine Eq.trans (refStatusIn_congr i cid (saveChain_frame _ _ _ i hni hnb))
          (refStatusIn_intro s i cid r c hr hc)

theorem confirmRun_preserves_terminal (s : St) (u c0 i cid : Nat) (st0 : RefStatus)
    (hmc : mcCheck s = true)
    (hst : st0 = RefStatus.declined ∨ st0 = RefStatus.confirmed)
    (h0 : refStatusIn s i cid = some st0) :
    refStatusIn (confirmRun s u c0) i cid = some st0 := by
  unfold confirmRun
  cases hok : confirmTxn s u c0 with
  | error e => exact h0
  | ok s1 =>
    dsimp only
    obtain ⟨conv, rideA, rideB, cr, op, refC, refO, hconv, hA, hB, hres, hcrS, hopS,
      hrefC, hrefO, hnc, hbr⟩ := confirm_ok_cases s u c0 s1 hok
    obtain ⟨r, c, hr, hc, hcst⟩ := refStatusIn_elim s i cid st0 h0
    subst hcst
    have hterm : isActiveRef c.status = false := isActiveRef_of_terminal hst
    have hcrFind : findRide s cr.rid = some cr := by
      rcases confirmerOf_inv rideA rideB u cr op hres with ⟨_, hcr, _⟩ | ⟨_, _, hcr, _⟩
      · rw [hcr, findRide_rid hA]
        exact hA
      · rw [hcr, findRide_rid hB]
        exact hB
    have hopFind : findRide s op.rid = some op := by
      rcases confirmerOf_inv rideA rideB u cr op hres with ⟨_, _, hop⟩ | ⟨_, _, _, hop⟩
      · rw [hop, findRide_rid hB]
        exact hB
      · rw [hop, findRide_rid hA]
        exact hA
    have hpair : pairOK refC.status refO.status = true := by
      rcases confirmerOf_inv rideA rideB u cr op hres with ⟨_, hcr, hop⟩ | ⟨_, _, hcr, hop⟩
      · exact mc_of_conv s c0 conv rideA rideB refC refO hmc hconv hA hB
          (hcr ▸ hrefC) (hop ▸ hrefO)
      · rw [pairOK_symm]
        exact mc_of_conv s c0 conv rideA rideB refO refC hmc hconv hA hB
          (hop ▸ hrefO) (hcr ▸ hrefC)
    cases hbr with
    | inl h2 =>
      obtain ⟨hph, hs1⟩ := h2
      subst hs1
      by_cases hiop : i = op.rid
      · have hro : r = op := by
          rw [hiop] at hr
          exact Option.some.inj (hr.symm.trans hopFind)
        subst hro
        by_cases hcc : cid = c0
        · exfalso
          rw [hcc] at hc
          have hrefO2 : findConvRefL r.conversations c0 = some refO := hrefO
          have hceq : refO = c := Option.some.inj (hrefO2.symm.trans hc)
          have hca : c.status = RefStatus.awaitingConfirmation := by
            rw [← hceq]
            exact hph
          rw [hca] at hterm
          exact Bool.noConfusion hterm
        · refine refStatusIn_intro _ i cid (stage2RideDoc r c0) c ?_ ?_
          · rw [hiop]
            exact stage2_findRide_op s cr r c0 (by rw [hopFind]; rfl)
          · show findConvRefL
              ((setFirstRefStatus r.conversations c0 RefStatus.confirmed).map
                (cascadeRefMap c0)) cid = some c
            rw [findConvRefL_map_cascade, findConvRefL_setFirst_ne _ _ _ _ hcc, hc]
            show some (cascadeRefMap c0 c) = some c
            rw [cascadeRefMap_terminal c0 c hterm]
      · by_cases hicr : i = cr.rid
        · have hne : ¬ cr.rid = op.rid := by
            rw [← hicr]
            exact hiop
          have hrc : r = cr := by
            rw [hicr] at hr
            exact Option.some.inj (hr.symm.trans hcrFind)
          subst hrc
          by_cases hcc : cid = c0
          · exfalso
            rw [hcc] at hc
            have hrefC2 : findConvRefL r.conversations c0 = some refC := hrefC
            have hceq : refC = c := Option.some.inj (hrefC2.symm.trans hc)
            have hcd : c.status = RefStatus.declined := by
              rcases hst with h | h
              · exact h
              · exact absurd (by rw [hceq]; exact h) hnc
            rw [hceq, hcd, hph] at hpair
            exact Bool.noConfusion hpair
          · refine refStatusIn_intro _ i cid (stage2RideDoc r c0) c ?_ ?_
            · rw [hicr]
              exact stage2_findRide_cr s r op c0 hne (by rw [hcrFind]; rfl)
            · show findConvRefL
                ((setFirstRefStatus r.conversations c0 RefStatus.confirmed).map
                  (cascadeRefMap c0)) cid = some c
              rw [findConvRefL_map_cascade, findConvRefL_setFirst_ne _ _ _ _ hcc, hc]
              show some (cascadeRefMap c0 c) = some c
              rw [cascadeRefMap_terminal c0 c hterm]
        · simp only [stage2Apply, processOtherPending_fst, processOtherPending_snd]
          refine Eq.trans (refStatusIn_congr i cid (saveChain_frame _ _ _ i ?_ ?_)) ?_
          · exact hicr
          · exact hiop
          · have hin := cascadeStore_preserves_terminal c0
              (setFirstRefStatus cr.conversations c0 RefStatus.confirmed) s i cid
              c.status hst h0
            exact cascadeStore_preserves_terminal c0 _ _ i cid c.status hst hin
    | inr h2 =>
      obtain ⟨hph, hs1⟩ := h2
      subst hs1
      by_cases hiop : i = op.rid
      · have hro : r = op := by
          rw [hiop] at hr
          exact Option.some.inj (hr.symm.trans hopFind)
        subst hro
        refine refStatusIn_intro _ i cid r c ?_ hc
        rw [hiop]
        apply saveChain_snd
        rw [← hiop]
        show (findRide s i).isSome
        rw [hr]
        rfl
      · by_cases hicr : i = cr.rid
        · have hrc : r = cr := by
            rw [hicr] at hr
            exact Option.some.inj (hr.symm.trans hcrFind)
          subst hrc
          by_cases hcc : cid = c0
          · exfalso
            rw [hcc] at hc
            have hrefC2 : findConvRefL r.conversations c0 = some refC := hrefC
            have hceq : refC = c := Option.some.inj (hrefC2.symm.trans hc)
            have hcd : c.status = RefStatus.declined := by
              rcases hst with h | h
              · exact h
              · exact absurd (by rw [hceq]; exact h) hnc
            rw [hceq, hcd, hph] at hpair
            exact Bool.noConfusion hpair
          · refine refStatusIn_intro _ i cid (stage1RideDoc r c0) c ?_ ?_
            · rw [hicr]
              have hne : ¬ (stage1RideDoc r c0).rid = op.rid := by
                show ¬ r.rid = op.rid
                rw [← hicr]
                exact hiop
              refine saveChain_fst _ _ _ hne ?_
              show (findRide s r.rid).isSome
              rw [hcrFind]
              rfl
            · show findConvRefL
                (setFirstRefStatus r.conversations c0 RefStatus.awaitingConfirmation)
                cid = some c
              rw [findConvRefL_setFirst_ne _ _ _ _ hcc]
              exact hc
        · refine Eq.trans (refStatusIn_congr i cid (saveChain_frame _ _ _ i ?_ ?_))
            (refStatusIn_intro s i cid r c hr hc)
          · exact hicr
          · exact hiop

theorem deleteRun_preserves_declined (s : St) (u i cid : Nat)
    (h0 : refStatusIn s i cid = some RefStatus.declined) :
    refStatusIn (deleteRun s u) i cid = some RefStatus.declined
    ∨ findRide (deleteRun s u) i = none := by
  unfold deleteRun
  cases hok : deleteRideRequest s u with
  | error e => exact Or.inl h0
  | ok s2 =>
    dsimp only
    obtain ⟨user, rid, ride, hu, hcur, hr, hs2⟩ := delete_ok_shape s u s2 hok
    subst hs2
    by_cases hir : i = rid
    · right
      rw [hir]
      exact findRide_removeRide_self _ rid
    · left
      have hfr : findRide
          (removeRide (unlinkUserRide (deleteStore ride.conversations s) u) rid) i
          = findRide (deleteStore ride.conversations s) i := by
        rw [findRide_removeRide_ne _ rid i hir]
        exact findRide_unlink _ u i
      rw [refStatusIn_congr i cid hfr]
      exact deleteStore_preserves_declined ride.conversations s i cid h0

/-- C6 counterexample: in the mutually Confirmed state `sConfirmedPair`,
ride 2's ref for conversation 10 is `confirmed`; after user 1 deletes their
ride, the surviving ride 2's ref is `declined` — the `deleteRideRequest`
cascade (rideController.js lines 206-221) moves a ref out of the
`confirmed` terminal state. -/
theorem c6_counterexample :
    refStatusIn sConfirmedPair 2 10 = some RefStatus.confirmed
    ∧ refStatusIn (deleteRun sConfirmedPair 1) 2 10 = some RefStatus.declined := by
  constructor <;> rfl

/-- C6 (amended): `confirmed` and `declined` are terminal for the three
conversation operations — initiate never rewrites an existing ref, confirm
(in a mirror-consistent store) and decline never change a terminal ref —
and `declined` additionally survives deleteRide on every ride document that
itself survives; but `confirmed` is NOT terminal under deleteRide, which
declines the deleted ride's counterpart refs (see the counterexample). -/
theorem c6_amended_terminal_absorption (s : St) (i cid : Nat) (st0 : RefStatus)
    (hst : st0 = RefStatus.declined ∨ st0 = RefStatus.confirmed)
    (h0 : refStatusIn s i cid = some st0) :
    (∀ a b n, refStatusIn (initiateRun s a b n) i cid = some st0)
    ∧ (∀ u c0, mcCheck s = true → refStatusIn (confirmRun s u c0) i cid = some st0)
    ∧ (∀ u c0, refStatusIn (declineRun s u c0) i cid = some st0)
    ∧ (∀ u, st0 = RefStatus.declined →
        refStatusIn (deleteRun s u) i cid = some RefStatus.declined
        ∨ findRide (deleteRun s u) i = none) :=
  ⟨fun a b n => initiateRun_preserves_ref s a b n i cid st0 h0,
   fun u c0 hmc => confirmRun_preserves_terminal s u c0 i cid st0 hmc hst h0,
   fun u c0 => declineRun_preserves_terminal s u c0 i cid st0 hst h0,
   fun u hd => deleteRun_preserves_declined s u i cid (by rw [← hd]; exact h0)⟩

/-- Witness for C6 (amended): a `confirmed` ref survives initiate, confirm
and decline at `sConfirmedPair`; a `declined` ref survives deleteRide at
`sDeclinedPair`. -/
theorem c6_amended_witness :
    refStatusIn (initiateRun sConfirmedPair 1 2 12) 2 10 = some RefStatus.confirmed
    ∧ refStatusIn (confirmRun sConfirmedPair 1 10) 2 10 = some RefStatus.confirmed
    ∧ refStatusIn (declineRun sConfirmedPair 1 10) 2 10 = some RefStatus.confirmed
    ∧ (refStatusIn (deleteRun sDeclinedPair 1) 2 10 = some RefStatus.declined
        ∨ findRide (deleteRun sDeclinedPair 1) 2 = none) := by
  have h1 := c6_amended_terminal_absorption sConfirmedPair 2 10 RefStatus.confirmed
    (Or.inr rfl) rfl
  have h2 := c6_amended_terminal_absorption sDeclinedPair 2 10 RefStatus.declined
    (Or.inl rfl) rfl
  exact ⟨h1.1 1 2 12, h1.2.1 1 10 (by decide), h1.2.2.1 1 10, h2.2.2.2 1 rfl⟩
